import Mathlib

/-!
# Solarus-PSP: input normalisation (`InputEvent`) and player movement

A shallow embedding of `src/src/lowlevel/InputEvent.cpp` and of the state it
keeps (`src/include/solarus/lowlevel/InputEvent.h`), and of
`src/src/movements/PlayerMovement.cpp`, followed by theorems about the event
normaliser `InputEvent::get_event`, about the queries on the events it
returns, about joypad support, about the map of key names and about
`PlayerMovement::update`.

Conventions of the embedding:

* the static members of the class that `get_event` reads or writes are the
  fields of `InputState`; the SDL event queue read by `SDL_PollEvent` is the
  field `queue` (head = oldest sample);
* the live keyboard state (`SDL_GetKeyboardState`, read by `is_key_down`) is
  outside the program: every call takes the answer of `is_key_down` at the
  time of the call as the parameter `keys_state`;
* `SDL_Event` is a C union; the members the code reads are kept as separate
  fields. `get_event` reads the `jaxis` member only under
  `type == SDL_JOYAXISMOTION` and the `key` member only under
  `type == SDL_KEYDOWN` / `SDL_KEYUP`, so the fields never alias there;
* `jaxis.value` is a `Sint16` promoted to `int` before `std::abs`, so no
  overflow occurs (`std::abs(-32768) = 32768`) and `Int` is exact.
-/

namespace Solarus

/-! ## SDL constants (values of `SDL_EventType` in SDL2) -/

abbrev SDL_QUIT : Nat := 0x100
abbrev SDL_KEYDOWN : Nat := 0x300
abbrev SDL_KEYUP : Nat := 0x301
abbrev SDL_TEXTINPUT : Nat := 0x303
abbrev SDL_JOYAXISMOTION : Nat := 0x600
abbrev SDL_JOYHATMOTION : Nat := 0x602
abbrev SDL_JOYBUTTONDOWN : Nat := 0x603
abbrev SDL_JOYBUTTONUP : Nat := 0x604
abbrev SDL_LASTEVENT : Nat := 0xFFFF

/-- The enumeration `InputEvent::KeyboardKey`: a key identifier, obtained in
`get_event` by `static_cast<KeyboardKey>(internal_event.key.keysym.sym)`. -/
abbrev KeyboardKey := Int

/-- The members of the union `SDL_Event` that `InputEvent.cpp` reads. -/
structure SDL_Event where
  /-- Member `type` (Uint32): the category tag. -/
  type : Nat
  /-- Member `key.keysym.sym`. -/
  key_sym : KeyboardKey
  /-- Member `key.keysym.mod`. -/
  key_mod : Nat
  /-- Member `key.repeat` (Uint8). -/
  key_repeat : Nat
  /-- Member `jaxis.axis` (Uint8). -/
  jaxis_axis : Nat
  /-- Member `jaxis.value` (Sint16). -/
  jaxis_value : Int
  /-- Member `jbutton.button` (Uint8). -/
  jbutton_button : Nat
  /-- Member `jhat.hat` (Uint8). -/
  jhat_hat : Nat
  /-- Member `jhat.value` (Uint8). -/
  jhat_value : Nat
  /-- Member `text.text`. -/
  text_text : String
deriving DecidableEq

/-- The class `InputEvent`: one encapsulated `internal_event`. -/
structure InputEvent where
  internal_event : SDL_Event
deriving DecidableEq

/-- The static state `get_event` works on: the device queue polled by
`SDL_PollEvent`, `joypad_axis_state[2]` and `keys_pressed`. -/
structure InputState where
  queue : List SDL_Event
  joypad_axis_state : Int × Int
  keys_pressed : Finset KeyboardKey
deriving DecidableEq

/-- The function `std::abs` on `int`. -/
def std_abs (x : Int) : Int := if x < 0 then -x else x

/-- Read `joypad_axis_state[axis]` for `axis` in `{0, 1}`. -/
def axis_get (st : Int × Int) (axis : Nat) : Int :=
  if axis = 0 then st.1 else st.2

/-- Write `joypad_axis_state[axis] = v` for `axis` in `{0, 1}`. -/
def axis_set (st : Int × Int) (axis : Nat) (v : Int) : Int × Int :=
  if axis = 0 then (v, st.2) else (st.1, v)

/-- The classification of an axis value in the words of the specification:
centered (`0`) when `|value| < 10000`, otherwise positive (`1`) when
`value > 0` and negative (`-1`) when not. -/
def classify_axis (value : Int) : Int :=
  if |value| < 10000 then 0 else (if 0 < value then 1 else -1)

/-- Lines 131-168 of `get_event`: the joystick-axis filter. Returns the
(possibly retagged) event and the new `joypad_axis_state`. -/
def get_event_axis (internal_event : SDL_Event) (joypad_axis_state : Int × Int) :
    SDL_Event × (Int × Int) :=
  if internal_event.type ≠ SDL_JOYAXISMOTION
      ∨ std_abs internal_event.jaxis_value ≤ 1000
      ∨ std_abs internal_event.jaxis_value ≥ 10000 then
    if internal_event.type = SDL_JOYAXISMOTION then
      let axis := internal_event.jaxis_axis % 2
      let value := internal_event.jaxis_value
      let axis_state : Int :=
        if std_abs value < 10000 then 0 else (if value > 0 then 1 else -1)
      if axis_get joypad_axis_state axis = axis_state then
        ({ internal_event with type := SDL_LASTEVENT }, joypad_axis_state)
      else
        (internal_event, axis_set joypad_axis_state axis axis_state)
    else
      (internal_event, joypad_axis_state)
  else
    ({ internal_event with type := SDL_LASTEVENT }, joypad_axis_state)

/-- The method `std::set::insert`: the new set and `.second`, true iff the key was
inserted (it was not yet an element). -/
def set_insert (key : KeyboardKey) (keys : Finset KeyboardKey) :
    Finset KeyboardKey × Bool :=
  (insert key keys, !decide (key ∈ keys))

/-- The method `std::set::erase(key)`: the new set and the number of elements removed. -/
def set_erase (key : KeyboardKey) (keys : Finset KeyboardKey) :
    Finset KeyboardKey × Nat :=
  (keys.erase key, if key ∈ keys then 1 else 0)

/-- Lines 170-197 of `get_event`: the keyboard sanity checks. `keys_state` is
`is_key_down`. Returns the (possibly retagged or repeat-marked) event and the
new `keys_pressed`. -/
def get_event_keyboard (keys_state : KeyboardKey → Bool) (internal_event : SDL_Event)
    (keys_pressed : Finset KeyboardKey) : SDL_Event × Finset KeyboardKey :=
  if internal_event.type = SDL_KEYDOWN then
    let key := internal_event.key_sym
    if !keys_state key then
      ({ internal_event with type := SDL_LASTEVENT }, keys_pressed)
    else
      let ins := set_insert key keys_pressed
      if !ins.2 then
        ({ internal_event with key_repeat := 1 }, ins.1)
      else
        (internal_event, ins.1)
  else if internal_event.type = SDL_KEYUP then
    let key := internal_event.key_sym
    if keys_state key then
      ({ internal_event with type := SDL_LASTEVENT }, keys_pressed)
    else
      let er := set_erase key keys_pressed
      if er.2 = 0 then
        ({ internal_event with key_repeat := 1 }, er.1)
      else
        (internal_event, er.1)
  else
    (internal_event, keys_pressed)

/-- The function `InputEvent::get_event` (lines 125-205): polls one raw sample, filters it
and returns the event (`none` is `nullptr`) with the new static state. -/
def get_event (keys_state : KeyboardKey → Bool) (s : InputState) :
    Option InputEvent × InputState :=
  match s.queue with
  | [] => (none, s)
  | raw :: rest =>
    let a := get_event_axis raw s.joypad_axis_state
    let k := get_event_keyboard keys_state a.1 s.keys_pressed
    (some ⟨k.1⟩, { queue := rest, joypad_axis_state := a.2, keys_pressed := k.2 })

/-- The method `InputEvent::is_joypad_axis_moved` (lines 746-749). -/
def InputEvent.is_joypad_axis_moved (e : InputEvent) : Bool :=
  e.internal_event.type == SDL_JOYAXISMOTION

/-- The method `InputEvent::get_joypad_axis` (lines 760-767). -/
def InputEvent.get_joypad_axis (e : InputEvent) : Int :=
  if !e.is_joypad_axis_moved then -1 else (e.internal_event.jaxis_axis : Int)

/-- The method `InputEvent::get_joypad_axis_state` (lines 778-794), of an event. -/
def InputEvent.get_joypad_axis_state (e : InputEvent) : Int :=
  if !e.is_joypad_axis_moved then 0
  else
    let value := e.internal_event.jaxis_value
    if std_abs value < 10000 then 0 else (if value > 0 then 1 else -1)

/-- An event that `get_event` marked invalid/suppressed: its internal type was
overwritten with `SDL_LASTEVENT`. -/
def InputEvent.suppressed (e : InputEvent) : Bool :=
  e.internal_event.type == SDL_LASTEVENT

/-! ## Event queries (`InputEvent.cpp`, lines 387-1041)

The static flag `repeat_keyboard` is passed to the queries that read it. The
enumerators of `KeyboardKey` that the queries name are taken as the parameter
`Keys`: the header gives `KEY_UP`, `KEY_DOWN`, `KEY_RIGHT`, `KEY_LEFT` values
that are not known before the program runs and does not declare `KEY_NONE`. -/

/-- Values of the SDL hat positions (`SDL_joystick.h`). -/
abbrev SDL_HAT_CENTERED : Nat := 0x00
abbrev SDL_HAT_UP : Nat := 0x01
abbrev SDL_HAT_RIGHT : Nat := 0x02
abbrev SDL_HAT_DOWN : Nat := 0x04
abbrev SDL_HAT_LEFT : Nat := 0x08
abbrev SDL_HAT_RIGHTUP : Nat := 0x03
abbrev SDL_HAT_RIGHTDOWN : Nat := 0x06
abbrev SDL_HAT_LEFTUP : Nat := 0x09
abbrev SDL_HAT_LEFTDOWN : Nat := 0x0c

/-- The enumerators of `KeyboardKey` named by the event queries. -/
structure Keys where
  KEY_NONE : KeyboardKey
  KEY_RIGHT : KeyboardKey
  KEY_UP : KeyboardKey
  KEY_LEFT : KeyboardKey
  KEY_DOWN : KeyboardKey
deriving DecidableEq

/-- The five enumerators are pairwise distinct (the `switch` of
`get_direction` over the four directional keys requires distinct labels, and
`KEY_NONE` is the terminator of key arrays). -/
def Keys.distinct (K : Keys) : Prop :=
  [K.KEY_RIGHT, K.KEY_UP, K.KEY_LEFT, K.KEY_DOWN, K.KEY_NONE].Nodup

instance (K : Keys) : Decidable K.distinct := by
  unfold Keys.distinct; infer_instance

/-- The array `InputEvent::directional_keys` (lines 30-36). -/
def directional_keys (K : Keys) : List KeyboardKey :=
  [K.KEY_RIGHT, K.KEY_UP, K.KEY_LEFT, K.KEY_DOWN, K.KEY_NONE]

/-- The function `InputEvent::set_key_repeat` (lines 216-218): the new value
of the static flag `repeat_keyboard`, given the old one. -/
def set_key_repeat (repeat_new : Bool) (_repeat_keyboard : Bool) : Bool :=
  repeat_new

/-- The method `InputEvent::is_valid` (lines 393-395). -/
def InputEvent.is_valid (e : InputEvent) : Bool :=
  e.internal_event.type == SDL_LASTEVENT

/-- The method `InputEvent::is_keyboard_event` (lines 401-405). -/
def InputEvent.is_keyboard_event (e : InputEvent) (repeat_keyboard : Bool) : Bool :=
  (e.internal_event.type == SDL_KEYDOWN || e.internal_event.type == SDL_KEYUP)
    && (e.internal_event.key_repeat == 0 || repeat_keyboard)

/-- The method `InputEvent::is_joypad_event` (lines 411-417). -/
def InputEvent.is_joypad_event (e : InputEvent) : Bool :=
  e.internal_event.type == SDL_JOYAXISMOTION
    || e.internal_event.type == SDL_JOYHATMOTION
    || e.internal_event.type == SDL_JOYBUTTONDOWN
    || e.internal_event.type == SDL_JOYBUTTONUP

/-- The method `InputEvent::is_window_event` (lines 424-427). -/
def InputEvent.is_window_event (e : InputEvent) : Bool :=
  e.internal_event.type == SDL_QUIT

/-- The method `InputEvent::is_keyboard_key_pressed()` (lines 436-440). -/
def InputEvent.is_keyboard_key_pressed (e : InputEvent) (repeat_keyboard : Bool) : Bool :=
  e.internal_event.type == SDL_KEYDOWN
    && (e.internal_event.key_repeat == 0 || repeat_keyboard)

/-- The method `InputEvent::get_keyboard_key` (lines 609-616). -/
def InputEvent.get_keyboard_key (e : InputEvent) (K : Keys) (repeat_keyboard : Bool) :
    KeyboardKey :=
  if !e.is_keyboard_event repeat_keyboard then K.KEY_NONE
  else e.internal_event.key_sym

/-- The method `InputEvent::is_keyboard_key_pressed(KeyboardKey key)` (lines 448-452). -/
def InputEvent.is_keyboard_key_pressed_key (e : InputEvent) (K : Keys)
    (repeat_keyboard : Bool) (key : KeyboardKey) : Bool :=
  e.is_keyboard_key_pressed repeat_keyboard
    && decide (e.get_keyboard_key K repeat_keyboard = key)

/-- The method `InputEvent::is_keyboard_key_pressed(const KeyboardKey* keys)`
(lines 460-471): the loop over an array terminated by `KEY_NONE`. The array is
given as the list of its elements, terminator included; the end of the list
stands for the end of the array. -/
def InputEvent.is_keyboard_key_pressed_keys (e : InputEvent) (K : Keys)
    (repeat_keyboard : Bool) : List KeyboardKey → Bool
  | [] => false
  | key :: keys =>
    if key ≠ K.KEY_NONE then
      if e.is_keyboard_key_pressed_key K repeat_keyboard key then true
      else e.is_keyboard_key_pressed_keys K repeat_keyboard keys
    else false

/-- The method `InputEvent::is_keyboard_direction_key_pressed` (lines 478-481). -/
def InputEvent.is_keyboard_direction_key_pressed (e : InputEvent) (K : Keys)
    (repeat_keyboard : Bool) : Bool :=
  e.is_keyboard_key_pressed_keys K repeat_keyboard (directional_keys K)

/-- The method `InputEvent::is_keyboard_non_direction_key_pressed` (lines 488-492). -/
def InputEvent.is_keyboard_non_direction_key_pressed (e : InputEvent) (K : Keys)
    (repeat_keyboard : Bool) : Bool :=
  e.is_keyboard_key_pressed repeat_keyboard
    && !e.is_keyboard_direction_key_pressed K repeat_keyboard

/-- The method `InputEvent::is_keyboard_key_released()` (lines 499-503). -/
def InputEvent.is_keyboard_key_released (e : InputEvent) (repeat_keyboard : Bool) : Bool :=
  e.internal_event.type == SDL_KEYUP
    && (e.internal_event.key_repeat == 0 || repeat_keyboard)

/-- The method `InputEvent::is_keyboard_key_released(KeyboardKey key)` (lines 511-515). -/
def InputEvent.is_keyboard_key_released_key (e : InputEvent) (K : Keys)
    (repeat_keyboard : Bool) (key : KeyboardKey) : Bool :=
  e.is_keyboard_key_released repeat_keyboard
    && decide (e.get_keyboard_key K repeat_keyboard = key)

/-- The method `InputEvent::is_keyboard_key_released(const KeyboardKey* keys)`
(lines 523-534), over the list of the elements of the array. -/
def InputEvent.is_keyboard_key_released_keys (e : InputEvent) (K : Keys)
    (repeat_keyboard : Bool) : List KeyboardKey → Bool
  | [] => false
  | key :: keys =>
    if key ≠ K.KEY_NONE then
      if e.is_keyboard_key_released_key K repeat_keyboard key then true
      else e.is_keyboard_key_released_keys K repeat_keyboard keys
    else false

/-- The method `InputEvent::is_keyboard_direction_key_released` (lines 541-544). -/
def InputEvent.is_keyboard_direction_key_released (e : InputEvent) (K : Keys)
    (repeat_keyboard : Bool) : Bool :=
  e.is_keyboard_key_released_keys K repeat_keyboard (directional_keys K)

/-- The method `InputEvent::is_keyboard_non_direction_key_released` (lines 551-555). -/
def InputEvent.is_keyboard_non_direction_key_released (e : InputEvent) (K : Keys)
    (repeat_keyboard : Bool) : Bool :=
  e.is_keyboard_key_released repeat_keyboard
    && !e.is_keyboard_direction_key_released K repeat_keyboard

/-- The method `InputEvent::is_character_pressed` (lines 647-650). -/
def InputEvent.is_character_pressed (e : InputEvent) : Bool :=
  e.internal_event.type == SDL_TEXTINPUT

/-- The method `InputEvent::get_character` (lines 656-659): the member
`text.text` is read whatever the type of the event. For an event that is not
a text event the field `text_text` stands for the bytes of the union found at
the place of `text.text`. -/
def InputEvent.get_character (e : InputEvent) : String :=
  e.internal_event.text_text

/-- The method `InputEvent::is_joypad_button_pressed` (lines 709-712). -/
def InputEvent.is_joypad_button_pressed (e : InputEvent) : Bool :=
  e.internal_event.type == SDL_JOYBUTTONDOWN

/-- The method `InputEvent::is_joypad_button_released` (lines 719-722). -/
def InputEvent.is_joypad_button_released (e : InputEvent) : Bool :=
  e.internal_event.type == SDL_JOYBUTTONUP

/-- The method `InputEvent::get_joypad_button` (lines 732-739). -/
def InputEvent.get_joypad_button (e : InputEvent) : Int :=
  if !e.is_joypad_button_pressed && !e.is_joypad_button_released then -1
  else (e.internal_event.jbutton_button : Int)

/-- The method `InputEvent::is_joypad_axis_centered` (lines 805-809). -/
def InputEvent.is_joypad_axis_centered (e : InputEvent) : Bool :=
  e.is_joypad_axis_moved && decide (e.get_joypad_axis_state = 0)

/-- The method `InputEvent::is_joypad_hat_moved` (lines 816-819). -/
def InputEvent.is_joypad_hat_moved (e : InputEvent) : Bool :=
  e.internal_event.type == SDL_JOYHATMOTION

/-- The method `InputEvent::get_joypad_hat` (lines 829-836). -/
def InputEvent.get_joypad_hat (e : InputEvent) : Int :=
  if !e.is_joypad_hat_moved then -1 else (e.internal_event.jhat_hat : Int)

/-- The method `InputEvent::get_joypad_hat_direction` (lines 848-893), of an
event; the `switch` over the hat value is the chain of tests below. -/
def InputEvent.get_joypad_hat_direction (e : InputEvent) : Int :=
  if !e.is_joypad_hat_moved then -1
  else
    let value := e.internal_event.jhat_value
    if value = SDL_HAT_RIGHT then 0
    else if value = SDL_HAT_RIGHTUP then 1
    else if value = SDL_HAT_UP then 2
    else if value = SDL_HAT_LEFTUP then 3
    else if value = SDL_HAT_LEFT then 4
    else if value = SDL_HAT_LEFTDOWN then 5
    else if value = SDL_HAT_DOWN then 6
    else if value = SDL_HAT_RIGHTDOWN then 7
    else -1

/-- The method `InputEvent::is_joypad_hat_centered` (lines 904-908). -/
def InputEvent.is_joypad_hat_centered (e : InputEvent) : Bool :=
  e.is_joypad_hat_moved && decide (e.get_joypad_hat_direction = -1)

/-- The method `InputEvent::get_direction` (lines 923-967); the `switch` over
the key is the chain of tests below, `%` of C is `Int.tmod`. -/
def InputEvent.get_direction (e : InputEvent) (K : Keys) (repeat_keyboard : Bool) : Int :=
  if e.is_keyboard_direction_key_pressed K repeat_keyboard then
    let key := e.get_keyboard_key K repeat_keyboard
    if key = K.KEY_RIGHT then 0
    else if key = K.KEY_UP then 2
    else if key = K.KEY_LEFT then 4
    else if key = K.KEY_DOWN then 6
    else -1
  else if e.is_joypad_axis_moved && !e.is_joypad_axis_centered then
    if Int.tmod e.get_joypad_axis 2 = 0 then
      (if e.get_joypad_axis_state > 0 then 0 else 4)
    else
      (if e.get_joypad_axis_state > 0 then 6 else 2)
  else if e.is_joypad_hat_moved then
    e.get_joypad_hat_direction
  else -1

/-- The method `InputEvent::is_direction_pressed` (lines 993-998). -/
def InputEvent.is_direction_pressed (e : InputEvent) (K : Keys) (repeat_keyboard : Bool) :
    Bool :=
  e.is_keyboard_direction_key_pressed K repeat_keyboard
    || (e.is_joypad_axis_moved && !e.is_joypad_axis_centered)
    || (e.is_joypad_hat_moved && !e.is_joypad_hat_centered)

/-- The method `InputEvent::is_pressed` (lines 978-983). -/
def InputEvent.is_pressed (e : InputEvent) (K : Keys) (repeat_keyboard : Bool) : Bool :=
  e.is_keyboard_key_pressed repeat_keyboard
    || e.is_direction_pressed K repeat_keyboard
    || e.is_joypad_button_pressed

/-- The method `InputEvent::is_non_direction_pressed` (lines 1008-1012). -/
def InputEvent.is_non_direction_pressed (e : InputEvent) (K : Keys)
    (repeat_keyboard : Bool) : Bool :=
  e.is_pressed K repeat_keyboard && !e.is_direction_pressed K repeat_keyboard

/-- The method `InputEvent::is_released` (lines 1023-1029). -/
def InputEvent.is_released (e : InputEvent) (repeat_keyboard : Bool) : Bool :=
  e.is_keyboard_key_released repeat_keyboard
    || e.is_joypad_button_released
    || (e.is_joypad_axis_moved && e.is_joypad_axis_centered)
    || (e.is_joypad_hat_moved && e.is_joypad_hat_centered)

/-- The method `InputEvent::is_window_closing` (lines 1038-1041). -/
def InputEvent.is_window_closing (e : InputEvent) : Bool :=
  e.internal_event.type == SDL_QUIT

/-! ## Joypad support (`InputEvent.cpp`, lines 292-383 and 663-702)

The static members `joypad_enabled` and `joystick` are the fields of
`JoypadState`; the pointer `joystick` is `none` for `nullptr`. What SDL answers
(`SDL_NumJoysticks()`, the result of `SDL_JoystickOpen(0)`, the live state of
buttons, axes and hats) is passed as parameters. -/

/-- The static members `joypad_enabled` and `joystick` (lines 37-38). -/
structure JoypadState where
  joypad_enabled : Bool
  joystick : Option Nat
deriving DecidableEq

/-- The SDL calls with an effect on devices that `set_joypad_enabled` makes. -/
inductive SDLCall where
  | SDL_JoystickClose (joystick : Nat)
  | SDL_InitSubSystem
  | SDL_JoystickOpen (device_index : Nat)
  | SDL_JoystickEventState
  | SDL_QuitSubSystem
deriving DecidableEq

/-- The function `InputEvent::is_joypad_enabled` (lines 670-673). -/
def is_joypad_enabled (s : JoypadState) : Bool :=
  s.joypad_enabled

/-- The function `InputEvent::set_joypad_enabled` (lines 682-702).
`num_joysticks` is the answer of `SDL_NumJoysticks()` and `opened` the result
of `SDL_JoystickOpen(0)` (`none` when it fails) at the time of the call.
Returns the new static state and the SDL calls made, in order. -/
def set_joypad_enabled (num_joysticks : Int) (opened : Option Nat) (joypad_enabled : Bool)
    (s : JoypadState) : JoypadState × List SDLCall :=
  if joypad_enabled ≠ is_joypad_enabled s then
    let closing : List SDLCall :=
      match s.joystick with
      | some joystick => [SDLCall.SDL_JoystickClose joystick]
      | none => []
    if joypad_enabled = true ∧ num_joysticks > 0 then
      ({ joypad_enabled := joypad_enabled, joystick := opened },
        closing ++ [SDLCall.SDL_InitSubSystem, SDLCall.SDL_JoystickOpen 0])
    else
      ({ joypad_enabled := joypad_enabled, joystick := none },
        closing ++ [SDLCall.SDL_JoystickEventState, SDLCall.SDL_QuitSubSystem])
  else
    (s, [])

/-- The function `InputEvent::is_joypad_button_down` (lines 297-304);
`get_button` is `SDL_JoystickGetButton`. -/
def is_joypad_button_down (joystick : Option Nat) (get_button : Nat → Int → Nat)
    (button : Int) : Bool :=
  match joystick with
  | none => false
  | some j => get_button j button != 0

/-- The function `InputEvent::get_joypad_axis_state(int axis)` (lines 313-330);
`get_axis` is `SDL_JoystickGetAxis`. -/
def get_joypad_axis_state_of_axis (joystick : Option Nat) (get_axis : Nat → Int → Int)
    (axis : Int) : Int :=
  match joystick with
  | none => 0
  | some j =>
    let state := get_axis j axis
    if std_abs state < 10000 then 0 else (if state > 0 then 1 else -1)

/-- The function `InputEvent::get_joypad_hat_direction(int hat)` (lines
337-383); `get_hat` is `SDL_JoystickGetHat`. -/
def get_joypad_hat_direction_of_hat (joystick : Option Nat) (get_hat : Nat → Int → Nat)
    (hat : Int) : Int :=
  match joystick with
  | none => -1
  | some j =>
    let state := get_hat j hat
    if state = SDL_HAT_RIGHT then 0
    else if state = SDL_HAT_RIGHTUP then 1
    else if state = SDL_HAT_UP then 2
    else if state = SDL_HAT_LEFTUP then 3
    else if state = SDL_HAT_LEFT then 4
    else if state = SDL_HAT_LEFTDOWN then 5
    else if state = SDL_HAT_DOWN then 6
    else if state = SDL_HAT_RIGHTDOWN then 7
    else -1

/-! ## Key names (`InputEvent.cpp`, lines 44-83 and 618-641)

The static member `keyboard_key_names` is a `std::map<KeyboardKey, std::string>`:
it is kept as the list of its pairs in the order of iteration (ascending
keys). The numeric values of the enumerators that the initializer names are
the parameter `value`. -/

/-- The enumerators of `KeyboardKey` that the initializer of
`keyboard_key_names` names. -/
inductive NamedKey where
  | KEY_SPACE | KEY_0 | KEY_1 | KEY_2 | KEY_3 | KEY_4 | KEY_5 | KEY_6 | KEY_7 | KEY_8 | KEY_9
  | KEY_COLON | KEY_SEMICOLON | KEY_LESS | KEY_EQUALS | KEY_GREATER | KEY_QUESTION_MARK
  | KEY_AT | KEY_LEFT_BRACKET | KEY_BACKSLASH | KEY_RIGHT_BRACKET | KEY_CARET
  | KEY_UNDERSCORE | KEY_BACKQUOTE | KEY_a | KEY_b | KEY_c | KEY_d | KEY_s | KEY_v | KEY_w
  | KEY_x | KEY_UP | KEY_DOWN | KEY_RIGHT | KEY_LEFT
deriving DecidableEq

/-- Lookup in a `std::map` (`find`): the value stored for `key`, if any. -/
def std_map_find : List (KeyboardKey × String) → KeyboardKey → Option String
  | [], _ => none
  | p :: rest, key => if p.1 = key then some p.2 else std_map_find rest key

/-- Insertion in a `std::map` (`insert`): nothing changes when the key is
already present, otherwise the pair is put at its place in the order of the
keys. -/
def std_map_insert (m : List (KeyboardKey × String)) (key : KeyboardKey) (v : String) :
    List (KeyboardKey × String) :=
  if key ∈ m.map Prod.fst then m
  else List.orderedInsert (fun p q : KeyboardKey × String => p.1 ≤ q.1) (key, v) m

/-- Construction of a `std::map` from an initializer list: the pairs are
inserted one after the other. -/
def std_map_of_list (l : List (KeyboardKey × String)) : List (KeyboardKey × String) :=
  l.foldl (fun m p => std_map_insert m p.1 p.2) []

/-- The initializer list of `keyboard_key_names` (lines 45-83). -/
def keyboard_key_names_init (value : NamedKey → KeyboardKey) : List (KeyboardKey × String) :=
  [ (value NamedKey.KEY_SPACE, "space"),
    (value NamedKey.KEY_0, "0"),
    (value NamedKey.KEY_1, "1"),
    (value NamedKey.KEY_2, "2"),
    (value NamedKey.KEY_3, "3"),
    (value NamedKey.KEY_4, "4"),
    (value NamedKey.KEY_5, "5"),
    (value NamedKey.KEY_6, "6"),
    (value NamedKey.KEY_7, "7"),
    (value NamedKey.KEY_8, "8"),
    (value NamedKey.KEY_9, "9"),
    (value NamedKey.KEY_COLON, "."),
    (value NamedKey.KEY_SEMICOLON, ":"),
    (value NamedKey.KEY_LESS, "<"),
    (value NamedKey.KEY_EQUALS, "="),
    (value NamedKey.KEY_GREATER, ">"),
    (value NamedKey.KEY_QUESTION_MARK, "?"),
    (value NamedKey.KEY_AT, "@"),
    (value NamedKey.KEY_LEFT_BRACKET, "["),
    (value NamedKey.KEY_BACKSLASH, "\\"),
    (value NamedKey.KEY_RIGHT_BRACKET, "]"),
    (value NamedKey.KEY_CARET, "^"),
    (value NamedKey.KEY_UNDERSCORE, "_"),
    (value NamedKey.KEY_BACKQUOTE, "`"),
    (value NamedKey.KEY_a, "a"),
    (value NamedKey.KEY_b, "b"),
    (value NamedKey.KEY_c, "c"),
    (value NamedKey.KEY_d, "d"),
    (value NamedKey.KEY_s, "s"),
    (value NamedKey.KEY_v, "v"),
    (value NamedKey.KEY_w, "w"),
    (value NamedKey.KEY_x, "x"),
    (value NamedKey.KEY_UP, "up"),
    (value NamedKey.KEY_DOWN, "down"),
    (value NamedKey.KEY_RIGHT, "right"),
    (value NamedKey.KEY_LEFT, "left") ]

/-- The static member `keyboard_key_names` as initialised (lines 45-83). -/
def keyboard_key_names (value : NamedKey → KeyboardKey) : List (KeyboardKey × String) :=
  std_map_of_list (keyboard_key_names_init value)

/-- The function `InputEvent::get_keyboard_key_name` (lines 623-625):
`keyboard_key_names[key]`. The `operator[]` of `std::map` returns the value
stored for the key and, when there is none, first inserts the key with an
empty string. Returns the name and the map after the call. -/
def get_keyboard_key_name (keyboard_key_names : List (KeyboardKey × String))
    (key : KeyboardKey) : String × List (KeyboardKey × String) :=
  match std_map_find keyboard_key_names key with
  | some name => (name, keyboard_key_names)
  | none => ("", std_map_insert keyboard_key_names key "")

/-- The function `InputEvent::get_keyboard_key_by_name` (lines 632-641): the
traversal of the map in the order of iteration. -/
def get_keyboard_key_by_name (K : Keys) :
    List (KeyboardKey × String) → String → KeyboardKey
  | [], _ => K.KEY_NONE
  | kvp :: rest, keyboard_key_name =>
    if kvp.2 = keyboard_key_name then kvp.1
    else get_keyboard_key_by_name K rest keyboard_key_name

/-! ## Player movement (`src/src/movements/PlayerMovement.cpp`)

The members of the base class `StraightMovement` and of the entity that
`PlayerMovement` calls are declared outside the sources at hand: the state of
the base class is an arbitrary type `σ` and its member functions are the
parameter `StraightMovementOps σ`; what the entity and its game commands
answer during one call is the record `MapEntity`. -/

/-- The member functions of the base class that `PlayerMovement` calls, as
functions on the state `σ` of the base class. `set_angle` takes the angle in
degrees (the code converts `direction8 * 45` to radians). -/
structure StraightMovementOps (σ : Type) where
  update : σ → σ
  stop : σ → σ
  is_stopped : σ → Bool
  is_suspended : σ → Bool
  set_speed : Int → σ → σ
  set_angle : Int → σ → σ
  notify_movement_changed : σ → σ

/-- What the entity returned by `get_entity()` answers: `is_on_map()`,
`has_stream_action()`, `get_stream_action()->get_stream().get_allow_movement()`
and `get_game().get_commands().get_wanted_direction8()`. -/
structure MapEntity where
  is_on_map : Bool
  has_stream_action : Bool
  stream_allow_movement : Bool
  wanted_direction8 : Int

/-- The class `PlayerMovement`: its members `moving_speed` and `direction8`,
and the state of its base class. -/
structure PlayerMovement (σ : Type) where
  base : σ
  moving_speed : Int
  direction8 : Int

/-- The method `PlayerMovement::compute_movement` (lines 123-138). -/
def PlayerMovement.compute_movement {σ : Type} (ops : StraightMovementOps σ)
    (m : PlayerMovement σ) : PlayerMovement σ :=
  let b :=
    if m.direction8 = -1 then ops.stop m.base
    else ops.set_angle (m.direction8 * 45) (ops.set_speed m.moving_speed m.base)
  { m with base := ops.notify_movement_changed b }

/-- The method `PlayerMovement::update` (lines 42-73); `entity` is the result
of `get_entity()`, `none` for `nullptr`. -/
def PlayerMovement.update {σ : Type} (ops : StraightMovementOps σ)
    (entity : Option MapEntity) (m : PlayerMovement σ) : PlayerMovement σ :=
  let m1 : PlayerMovement σ := { m with base := ops.update m.base }
  match entity with
  | none => m1
  | some entity =>
    if !entity.is_on_map then m1
    else
      let m2 : PlayerMovement σ :=
        if entity.has_stream_action && !entity.stream_allow_movement then
          { m1 with base := ops.stop m1.base }
        else m1
      if ops.is_stopped m2.base && decide (m2.direction8 ≠ -1) then
        PlayerMovement.compute_movement ops { m2 with direction8 := -1 }
      else
        let wanted_direction8 := entity.wanted_direction8
        if decide (wanted_direction8 ≠ m2.direction8) && !ops.is_suspended m2.base then
          PlayerMovement.compute_movement ops { m2 with direction8 := wanted_direction8 }
        else m2

/-- The method `PlayerMovement::get_wanted_direction8` (lines 80-82). -/
def PlayerMovement.get_wanted_direction8 {σ : Type} (m : PlayerMovement σ) : Int :=
  m.direction8

/-- The state of the base class when `update` tests `is_stopped()` (line 59):
after `StraightMovement::update()` and, when a stream blocks the control,
after `stop()`. -/
def PlayerMovement.base_at_test {σ : Type} (ops : StraightMovementOps σ)
    (entity : MapEntity) (m : PlayerMovement σ) : σ :=
  if entity.has_stream_action && !entity.stream_allow_movement then
    ops.stop (ops.update m.base)
  else ops.update m.base

/-! ## Vocabulary of the statements -/

/-- An axis-motion raw sample on `axis` with the given `value`. -/
def axis_sample (axis : Nat) (value : Int) : SDL_Event :=
  { type := SDL_JOYAXISMOTION, key_sym := 0, key_mod := 0, key_repeat := 0,
    jaxis_axis := axis, jaxis_value := value, jbutton_button := 0,
    jhat_hat := 0, jhat_value := 0, text_text := "" }

/-- A keyboard raw sample of the given type (`SDL_KEYDOWN` or `SDL_KEYUP`) for
`key`, with the given repeat flag. -/
def key_sample (type : Nat) (key : KeyboardKey) (key_repeat : Nat) : SDL_Event :=
  { type := type, key_sym := key, key_mod := 0, key_repeat := key_repeat,
    jaxis_axis := 0, jaxis_value := 0, jbutton_button := 0,
    jhat_hat := 0, jhat_value := 0, text_text := "" }

/-- The event `e` comes from the raw sample `raw`: it carries the payload of
`raw`, with the two marks `get_event` may leave on it (the type retagged
`SDL_LASTEVENT`, the repeat flag set to `1`). -/
def from_sample (raw : SDL_Event) (e : InputEvent) : Prop :=
  (e.internal_event.type = raw.type ∨ e.internal_event.type = SDL_LASTEVENT)
  ∧ (e.internal_event.key_repeat = raw.key_repeat ∨ e.internal_event.key_repeat = 1)
  ∧ e.internal_event.key_sym = raw.key_sym
  ∧ e.internal_event.key_mod = raw.key_mod
  ∧ e.internal_event.jaxis_axis = raw.jaxis_axis
  ∧ e.internal_event.jaxis_value = raw.jaxis_value
  ∧ e.internal_event.jbutton_button = raw.jbutton_button
  ∧ e.internal_event.jhat_hat = raw.jhat_hat
  ∧ e.internal_event.jhat_value = raw.jhat_value
  ∧ e.internal_event.text_text = raw.text_text

instance (raw : SDL_Event) (e : InputEvent) : Decidable (from_sample raw e) := by
  unfold from_sample; infer_instance

/-- Modelled from the spec: the host's per-frame drain loop, whose code is not
among the sources ("the host loop repeatedly asks the Normalizer for the next
event until exhausted"). `kbd i` is the live keyboard state at the `i`-th
call. Returns the events surfaced, in order, and the final state; `none` when
the fuel runs out before `get_event` returns nothing. -/
def drain (kbd : Nat → KeyboardKey → Bool) :
    Nat → Nat → InputState → Option (List InputEvent × InputState)
  | 0, _, _ => none
  | fuel + 1, i, s =>
    match get_event (kbd i) s with
    | (none, s') => some ([], s')
    | (some ev, s') =>
      match drain kbd fuel (i + 1) s' with
      | none => none
      | some r => some (ev :: r.1, r.2)

/-- What can happen to the input state between two observations: the program
calls `get_event` (with the live keyboard state of that moment), or the device
appends raw samples to its queue. -/
inductive Action where
  | call (keys_state : KeyboardKey → Bool)
  | arrive (samples : List SDL_Event)

/-- Runs a sequence of actions from a state, accumulating the events that
`get_event` returned, oldest first. -/
def run : List Action → InputState × List InputEvent → InputState × List InputEvent
  | [], c => c
  | Action.call keys_state :: rest, c =>
    let r := get_event keys_state c.1
    run rest (r.2, c.2 ++ r.1.toList)
  | Action.arrive samples :: rest, c =>
    run rest ({ c.1 with queue := c.1.queue ++ samples }, c.2)

/-- The classification of the most recently accepted axis event of a slot
(`axis % 2 = slot`) in a history of returned events, or centered when there is
none. -/
def last_accepted_axis_state (slot : Nat) (history : List InputEvent) : Int :=
  match (history.filter (fun e =>
      e.is_joypad_axis_moved && decide (e.internal_event.jaxis_axis % 2 = slot))).getLast? with
  | none => 0
  | some e => classify_axis e.internal_event.jaxis_value

/-- A choice of enumerator values used to evaluate the queries: the SDL
keycodes `SDLK_UNKNOWN`, `SDLK_RIGHT`, `SDLK_UP`, `SDLK_LEFT`, `SDLK_DOWN`. -/
def sdl_keys : Keys :=
  { KEY_NONE := 0, KEY_RIGHT := 1073741903, KEY_UP := 1073741906,
    KEY_LEFT := 1073741904, KEY_DOWN := 1073741905 }

/-- The type (`SDL_KEYDOWN` or `SDL_KEYUP`) of the most recent event of a
history that is a non-suppressed keyboard event for `key`, if there is one. -/
def last_keyboard_type (key : KeyboardKey) (history : List InputEvent) : Option Nat :=
  ((history.filter (fun e =>
      (e.internal_event.type == SDL_KEYDOWN || e.internal_event.type == SDL_KEYUP)
        && decide (e.internal_event.key_sym = key))).getLast?).map
    (fun e => e.internal_event.type)

/-- A hat-motion raw sample on `hat` with the given `value`. -/
def hat_sample (hat : Nat) (value : Nat) : SDL_Event :=
  { type := SDL_JOYHATMOTION, key_sym := 0, key_mod := 0, key_repeat := 0,
    jaxis_axis := 0, jaxis_value := 0, jbutton_button := 0,
    jhat_hat := hat, jhat_value := value, text_text := "" }

/-- Runs a sequence of calls of `set_joypad_enabled`, each with its argument
and with what SDL answers at that time, and returns the final static state. -/
def run_joypad : List (Bool × Int × Option Nat) → JoypadState → JoypadState
  | [], s => s
  | (b, num_joysticks, opened) :: rest, s =>
    run_joypad rest (set_joypad_enabled num_joysticks opened b s).1

/-- A choice of values for the named enumerators, used to evaluate the key
name functions: the SDL keycodes of the same keys. -/
def sdl_key_values : NamedKey → KeyboardKey
  | NamedKey.KEY_SPACE => 32
  | NamedKey.KEY_0 => 48 | NamedKey.KEY_1 => 49 | NamedKey.KEY_2 => 50
  | NamedKey.KEY_3 => 51 | NamedKey.KEY_4 => 52 | NamedKey.KEY_5 => 53
  | NamedKey.KEY_6 => 54 | NamedKey.KEY_7 => 55 | NamedKey.KEY_8 => 56
  | NamedKey.KEY_9 => 57
  | NamedKey.KEY_COLON => 58 | NamedKey.KEY_SEMICOLON => 59 | NamedKey.KEY_LESS => 60
  | NamedKey.KEY_EQUALS => 61 | NamedKey.KEY_GREATER => 62
  | NamedKey.KEY_QUESTION_MARK => 63 | NamedKey.KEY_AT => 64
  | NamedKey.KEY_LEFT_BRACKET => 91 | NamedKey.KEY_BACKSLASH => 92
  | NamedKey.KEY_RIGHT_BRACKET => 93 | NamedKey.KEY_CARET => 94
  | NamedKey.KEY_UNDERSCORE => 95 | NamedKey.KEY_BACKQUOTE => 96
  | NamedKey.KEY_a => 97 | NamedKey.KEY_b => 98 | NamedKey.KEY_c => 99
  | NamedKey.KEY_d => 100 | NamedKey.KEY_s => 115 | NamedKey.KEY_v => 118
  | NamedKey.KEY_w => 119 | NamedKey.KEY_x => 120
  | NamedKey.KEY_UP => 1073741906 | NamedKey.KEY_DOWN => 1073741905
  | NamedKey.KEY_RIGHT => 1073741903 | NamedKey.KEY_LEFT => 1073741904

/-- A base class used to evaluate `PlayerMovement`: its state is the speed,
stopped when the speed is zero, never suspended. -/
def speed_ops : StraightMovementOps Int :=
  { update := fun b => b, stop := fun _ => 0, is_stopped := fun b => b == 0,
    is_suspended := fun _ => false, set_speed := fun v _ => v, set_angle := fun _ b => b,
    notify_movement_changed := fun b => b }

/-- The joystick handles that are open after a list of SDL calls, given the
handles open before: `SDL_JoystickClose` closes its handle, `SDL_JoystickOpen`
opens the handle it returns (`opened`, none when it fails), the other calls
open and close nothing. -/
def devices_after (opened : Option Nat) : List SDLCall → List Nat → List Nat
  | [], devices => devices
  | SDLCall.SDL_JoystickClose joystick :: rest, devices =>
    devices_after opened rest (devices.erase joystick)
  | SDLCall.SDL_JoystickOpen _ :: rest, devices =>
    devices_after opened rest (opened.toList ++ devices)
  | SDLCall.SDL_InitSubSystem :: rest, devices => devices_after opened rest devices
  | SDLCall.SDL_JoystickEventState :: rest, devices => devices_after opened rest devices
  | SDLCall.SDL_QuitSubSystem :: rest, devices => devices_after opened rest devices

/-- Runs a sequence of calls of `set_joypad_enabled` as `run_joypad` does, and
carries out the SDL calls they make on the list of open joystick handles. -/
def run_joypad_devices :
    List (Bool × Int × Option Nat) → JoypadState × List Nat → JoypadState × List Nat
  | [], c => c
  | (b, num_joysticks, opened) :: rest, c =>
    run_joypad_devices rest
      ((set_joypad_enabled num_joysticks opened b c.1).1,
        devices_after opened (set_joypad_enabled num_joysticks opened b c.1).2 c.2)

/-! ## Basic facts -/

theorem std_abs_eq_abs (x : Int) : std_abs x = |x| := by
  unfold std_abs
  split
  · rw [abs_of_neg (by assumption)]
  · rw [abs_of_nonneg (by omega)]

theorem get_event_axis_from (raw : SDL_Event) (ax : Int × Int) :
    from_sample raw ⟨(get_event_axis raw ax).1⟩
    ∧ (get_event_axis raw ax).1.key_repeat = raw.key_repeat := by
  unfold get_event_axis from_sample
  dsimp only
  split_ifs <;> simp

theorem get_event_keyboard_from (k : KeyboardKey → Bool) (ev : SDL_Event)
    (kp : Finset KeyboardKey) :
    from_sample ev ⟨(get_event_keyboard k ev kp).1⟩
    ∧ ((get_event_keyboard k ev kp).1.type = ev.type
        ∨ ev.type = SDL_KEYDOWN ∨ ev.type = SDL_KEYUP) := by
  unfold get_event_keyboard from_sample
  dsimp only
  split_ifs <;> simp_all

theorem get_event_from_sample (k : KeyboardKey → Bool) (raw : SDL_Event)
    (rest : List SDL_Event) (ax : Int × Int) (kp : Finset KeyboardKey) :
    ∃ ev, (get_event k ⟨raw :: rest, ax, kp⟩).1 = some ev
      ∧ (get_event k ⟨raw :: rest, ax, kp⟩).2.queue = rest
      ∧ from_sample raw ev := by
  refine ⟨_, rfl, rfl, ?_⟩
  have h1 := get_event_axis_from raw ax
  have h2 := get_event_keyboard_from k (get_event_axis raw ax).1 kp
  obtain ⟨⟨a1, a2, a3, a4, a5, a6, a7, a8, a9, a10⟩, a11⟩ := h1
  obtain ⟨⟨b1, b2, b3, b4, b5, b6, b7, b8, b9, b10⟩, b11⟩ := h2
  simp only at a1 a2 a3 a4 a5 a6 a7 a8 a9 a10 b1 b2 b3 b4 b5 b6 b7 b8 b9 b10
  refine ⟨?_, ?_, by rw [b3, a3], by rw [b4, a4], by rw [b5, a5], by rw [b6, a6],
    by rw [b7, a7], by rw [b8, a8], by rw [b9, a9], by rw [b10, a10]⟩
  · rcases b1 with b1 | b1
    · rw [b1]; exact a1
    · exact Or.inr b1
  · rcases b2 with b2 | b2
    · rw [b2, a11]; exact Or.inl rfl
    · exact Or.inr b2

theorem classify_axis_eq (v : Int) :
    (if std_abs v < 10000 then (0 : Int) else (if v > 0 then 1 else -1)) = classify_axis v := by
  unfold classify_axis
  rw [std_abs_eq_abs]

theorem get_event_keyboard_other (k : KeyboardKey → Bool) (ev : SDL_Event)
    (kp : Finset KeyboardKey) (h1 : ev.type ≠ SDL_KEYDOWN) (h2 : ev.type ≠ SDL_KEYUP) :
    get_event_keyboard k ev kp = (ev, kp) := by
  unfold get_event_keyboard
  rw [if_neg h1, if_neg h2]

theorem get_event_axis_other (raw : SDL_Event) (ax : Int × Int)
    (ht : raw.type ≠ SDL_JOYAXISMOTION) : get_event_axis raw ax = (raw, ax) := by
  unfold get_event_axis
  rw [if_pos (Or.inl ht), if_neg ht]

theorem get_event_axis_band (raw : SDL_Event) (ax : Int × Int)
    (ht : raw.type = SDL_JOYAXISMOTION)
    (hlo : 1000 < |raw.jaxis_value|) (hhi : |raw.jaxis_value| < 10000) :
    get_event_axis raw ax = ({ raw with type := SDL_LASTEVENT }, ax) := by
  rw [← std_abs_eq_abs] at hlo hhi
  unfold get_event_axis
  rw [if_neg]
  intro h
  rcases h with h | h | h
  · exact h ht
  · omega
  · omega

theorem get_event_axis_outside (raw : SDL_Event) (ax : Int × Int)
    (ht : raw.type = SDL_JOYAXISMOTION)
    (hb : |raw.jaxis_value| ≤ 1000 ∨ 10000 ≤ |raw.jaxis_value|) :
    get_event_axis raw ax =
      if axis_get ax (raw.jaxis_axis % 2) = classify_axis raw.jaxis_value then
        ({ raw with type := SDL_LASTEVENT }, ax)
      else
        (raw, axis_set ax (raw.jaxis_axis % 2) (classify_axis raw.jaxis_value)) := by
  rw [← std_abs_eq_abs] at hb
  unfold get_event_axis
  rw [if_pos (Or.inr hb), if_pos ht]
  simp only [classify_axis_eq]

theorem axis_get_set_same (ax : Int × Int) (slot : Nat) (v : Int) :
    axis_get (axis_set ax slot v) slot = v := by
  unfold axis_get axis_set
  split_ifs <;> rfl

theorem axis_get_set_other (ax : Int × Int) (slot : Nat) (v : Int) (h : slot < 2) :
    axis_get (axis_set ax slot v) (1 - slot) = axis_get ax (1 - slot) := by
  unfold axis_get axis_set
  interval_cases slot <;> simp

theorem get_event_axis_dup (keys_state : KeyboardKey → Bool)
    (raw : SDL_Event) (rest : List SDL_Event) (ax : Int × Int) (kp : Finset KeyboardKey)
    (ht : raw.type = SDL_JOYAXISMOTION)
    (hb : |raw.jaxis_value| ≤ 1000 ∨ 10000 ≤ |raw.jaxis_value|)
    (h : axis_get ax (raw.jaxis_axis % 2) = classify_axis raw.jaxis_value) :
    get_event keys_state ⟨raw :: rest, ax, kp⟩
      = (some ⟨{ raw with type := SDL_LASTEVENT }⟩, ⟨rest, ax, kp⟩) := by
  have ha := get_event_axis_outside raw ax ht hb
  rw [if_pos h] at ha
  simp [get_event, ha, get_event_keyboard]

theorem get_event_axis_new (keys_state : KeyboardKey → Bool)
    (raw : SDL_Event) (rest : List SDL_Event) (ax : Int × Int) (kp : Finset KeyboardKey)
    (ht : raw.type = SDL_JOYAXISMOTION)
    (hb : |raw.jaxis_value| ≤ 1000 ∨ 10000 ≤ |raw.jaxis_value|)
    (h : axis_get ax (raw.jaxis_axis % 2) ≠ classify_axis raw.jaxis_value) :
    get_event keys_state ⟨raw :: rest, ax, kp⟩
      = (some ⟨raw⟩,
          ⟨rest, axis_set ax (raw.jaxis_axis % 2) (classify_axis raw.jaxis_value), kp⟩) := by
  have ha := get_event_axis_outside raw ax ht hb
  rw [if_neg h] at ha
  have hk := get_event_keyboard_other keys_state raw kp (by rw [ht]; decide) (by rw [ht]; decide)
  simp [get_event, ha, hk]

theorem classify_axis_same_sign (v1 v2 : Int) (h1 : 10000 ≤ |v1|) (h2 : 10000 ≤ |v2|)
    (hs : 0 < v1 ↔ 0 < v2) : classify_axis v2 = classify_axis v1 := by
  unfold classify_axis
  rw [if_neg (not_lt.mpr h1), if_neg (not_lt.mpr h2)]
  by_cases h : 0 < v1
  · rw [if_pos h, if_pos (hs.mp h)]
  · rw [if_neg h, if_neg (fun h' => h (hs.mpr h'))]

theorem suppressed_retagged (raw : SDL_Event) :
    InputEvent.suppressed ⟨{ raw with type := SDL_LASTEVENT }⟩ = true := by
  simp [InputEvent.suppressed]

theorem suppressed_axis (raw : SDL_Event) (ht : raw.type = SDL_JOYAXISMOTION) :
    InputEvent.suppressed ⟨raw⟩ = false := by
  simp [InputEvent.suppressed, ht]

theorem classify_axis_range (v : Int) :
    classify_axis v = -1 ∨ classify_axis v = 0 ∨ classify_axis v = 1 := by
  unfold classify_axis
  split_ifs <;> simp

theorem last_accepted_axis_state_range (slot : Nat) (h : List InputEvent) :
    last_accepted_axis_state slot h = -1 ∨ last_accepted_axis_state slot h = 0
      ∨ last_accepted_axis_state slot h = 1 := by
  unfold last_accepted_axis_state
  split
  · right; left; rfl
  · exact classify_axis_range _

theorem last_accepted_axis_state_concat (slot : Nat) (h : List InputEvent) (ev : InputEvent) :
    last_accepted_axis_state slot (h ++ [ev]) =
      if (ev.is_joypad_axis_moved && decide (ev.internal_event.jaxis_axis % 2 = slot)) = true
      then classify_axis ev.internal_event.jaxis_value
      else last_accepted_axis_state slot h := by
  unfold last_accepted_axis_state
  rw [List.filter_append]
  by_cases hp : (ev.is_joypad_axis_moved && decide (ev.internal_event.jaxis_axis % 2 = slot)) = true
  · have hf : List.filter (fun e : InputEvent =>
        e.is_joypad_axis_moved && decide (e.internal_event.jaxis_axis % 2 = slot)) [ev] = [ev] := by
      simp only [List.filter, hp]
    rw [if_pos hp, hf, List.getLast?_concat]
  · have hf : List.filter (fun e : InputEvent =>
        e.is_joypad_axis_moved && decide (e.internal_event.jaxis_axis % 2 = slot)) [ev] = [] := by
      simp only [Bool.not_eq_true] at hp
      simp only [List.filter, hp]
    rw [if_neg hp, hf, List.append_nil]

/-- What one call of `get_event` does to the axis state, by the event returned. -/
theorem get_event_axis_step (k : KeyboardKey → Bool) (s : InputState) :
    ((get_event k s).1 = none ∧ (get_event k s).2.joypad_axis_state = s.joypad_axis_state)
    ∨ (∃ ev, (get_event k s).1 = some ev ∧ ev.is_joypad_axis_moved = false
        ∧ (get_event k s).2.joypad_axis_state = s.joypad_axis_state)
    ∨ (∃ ev, (get_event k s).1 = some ev ∧ ev.is_joypad_axis_moved = true
        ∧ (get_event k s).2.joypad_axis_state
          = axis_set s.joypad_axis_state (ev.internal_event.jaxis_axis % 2)
              (classify_axis ev.internal_event.jaxis_value)) := by
  obtain ⟨q, ax, kp⟩ := s
  cases q with
  | nil => left; exact ⟨rfl, rfl⟩
  | cons raw rest =>
    right
    by_cases ht : raw.type = SDL_JOYAXISMOTION
    · by_cases hb : |raw.jaxis_value| ≤ 1000 ∨ 10000 ≤ |raw.jaxis_value|
      · by_cases hd : axis_get ax (raw.jaxis_axis % 2) = classify_axis raw.jaxis_value
        · left
          rw [get_event_axis_dup k raw rest ax kp ht hb hd]
          exact ⟨_, rfl, by simp [InputEvent.is_joypad_axis_moved], rfl⟩
        · right
          rw [get_event_axis_new k raw rest ax kp ht hb hd]
          exact ⟨_, rfl, by simp [InputEvent.is_joypad_axis_moved, ht], rfl⟩
      · left
        have hlo : 1000 < |raw.jaxis_value| := by
          by_contra hc
          exact hb (Or.inl (not_lt.mp hc))
        have hhi : |raw.jaxis_value| < 10000 := by
          by_contra hc
          exact hb (Or.inr (not_lt.mp hc))
        have ha := get_event_axis_band raw ax ht hlo hhi
        refine ⟨_, rfl, ?_, ?_⟩
        · simp [InputEvent.is_joypad_axis_moved, ha, get_event_keyboard]
        · simp [get_event, ha]
    · left
      have ha := get_event_axis_other raw ax ht
      refine ⟨_, rfl, ?_, ?_⟩
      · have hf := (get_event_keyboard_from k raw kp).1.1
        simp only [InputEvent.is_joypad_axis_moved, get_event, ha, beq_eq_false_iff_ne, ne_eq]
        rcases hf with hf | hf
        · rw [hf]; exact ht
        · rw [hf]; decide
      · simp [get_event, ha]

/-- The invariant carried along a run: each slot of `joypad_axis_state` is the
classification of the last accepted axis event of that slot. -/
theorem run_axis_invariant (actions : List Action) (c : InputState × List InputEvent)
    (h0 : c.1.joypad_axis_state.1 = last_accepted_axis_state 0 c.2)
    (h1 : c.1.joypad_axis_state.2 = last_accepted_axis_state 1 c.2) :
    (run actions c).1.joypad_axis_state.1 = last_accepted_axis_state 0 (run actions c).2
    ∧ (run actions c).1.joypad_axis_state.2 = last_accepted_axis_state 1 (run actions c).2 := by
  induction actions generalizing c with
  | nil => exact ⟨h0, h1⟩
  | cons a rest ih =>
    cases a with
    | arrive samples => exact ih _ h0 h1
    | call k =>
      apply ih
      · rcases get_event_axis_step k c.1 with ⟨hn, hs⟩ | ⟨ev, hn, hm, hs⟩ | ⟨ev, hn, hm, hs⟩
        · simp only [hn, hs, Option.toList, List.append_nil]; exact h0
        · simp only [hn, hs, Option.toList]
          rw [last_accepted_axis_state_concat, hm]
          simpa using h0
        · simp only [hn, hs, Option.toList]
          rw [last_accepted_axis_state_concat, hm]
          have hlt : ev.internal_event.jaxis_axis % 2 < 2 := Nat.mod_lt _ (by decide)
          unfold axis_set
          interval_cases hv : ev.internal_event.jaxis_axis % 2
          · simp
          · simpa using h0
      · rcases get_event_axis_step k c.1 with ⟨hn, hs⟩ | ⟨ev, hn, hm, hs⟩ | ⟨ev, hn, hm, hs⟩
        · simp only [hn, hs, Option.toList, List.append_nil]; exact h1
        · simp only [hn, hs, Option.toList]
          rw [last_accepted_axis_state_concat, hm]
          simpa using h1
        · simp only [hn, hs, Option.toList]
          rw [last_accepted_axis_state_concat, hm]
          have hlt : ev.internal_event.jaxis_axis % 2 < 2 := Nat.mod_lt _ (by decide)
          unfold axis_set
          interval_cases hv : ev.internal_event.jaxis_axis % 2
          · simpa using h1
          · simp

/-! ### One call of `get_event` on a keyboard sample -/

theorem get_event_key_down_not_held (keys_state : KeyboardKey → Bool)
    (raw : SDL_Event) (rest : List SDL_Event) (ax : Int × Int) (kp : Finset KeyboardKey)
    (ht : raw.type = SDL_KEYDOWN) (hk : keys_state raw.key_sym = false) :
    get_event keys_state ⟨raw :: rest, ax, kp⟩
      = (some ⟨{ raw with type := SDL_LASTEVENT }⟩, ⟨rest, ax, kp⟩) := by
  have ha := get_event_axis_other raw ax (by rw [ht]; decide)
  simp [get_event, ha, get_event_keyboard, ht, hk]

theorem get_event_key_down_known (keys_state : KeyboardKey → Bool)
    (raw : SDL_Event) (rest : List SDL_Event) (ax : Int × Int) (kp : Finset KeyboardKey)
    (ht : raw.type = SDL_KEYDOWN) (hk : keys_state raw.key_sym = true)
    (hm : raw.key_sym ∈ kp) :
    get_event keys_state ⟨raw :: rest, ax, kp⟩
      = (some ⟨{ raw with key_repeat := 1 }⟩, ⟨rest, ax, kp⟩) := by
  have ha := get_event_axis_other raw ax (by rw [ht]; decide)
  simp [get_event, ha, get_event_keyboard, ht, hk, set_insert, hm]

theorem get_event_key_down_fresh (keys_state : KeyboardKey → Bool)
    (raw : SDL_Event) (rest : List SDL_Event) (ax : Int × Int) (kp : Finset KeyboardKey)
    (ht : raw.type = SDL_KEYDOWN) (hk : keys_state raw.key_sym = true)
    (hm : raw.key_sym ∉ kp) :
    get_event keys_state ⟨raw :: rest, ax, kp⟩
      = (some ⟨raw⟩, ⟨rest, ax, insert raw.key_sym kp⟩) := by
  have ha := get_event_axis_other raw ax (by rw [ht]; decide)
  simp [get_event, ha, get_event_keyboard, ht, hk, set_insert, hm]

theorem get_event_key_up_held (keys_state : KeyboardKey → Bool)
    (raw : SDL_Event) (rest : List SDL_Event) (ax : Int × Int) (kp : Finset KeyboardKey)
    (ht : raw.type = SDL_KEYUP) (hk : keys_state raw.key_sym = true) :
    get_event keys_state ⟨raw :: rest, ax, kp⟩
      = (some ⟨{ raw with type := SDL_LASTEVENT }⟩, ⟨rest, ax, kp⟩) := by
  have ha := get_event_axis_other raw ax (by rw [ht]; decide)
  simp [get_event, ha, get_event_keyboard, ht, hk]

theorem get_event_key_up_absent (keys_state : KeyboardKey → Bool)
    (raw : SDL_Event) (rest : List SDL_Event) (ax : Int × Int) (kp : Finset KeyboardKey)
    (ht : raw.type = SDL_KEYUP) (hk : keys_state raw.key_sym = false)
    (hm : raw.key_sym ∉ kp) :
    get_event keys_state ⟨raw :: rest, ax, kp⟩
      = (some ⟨{ raw with key_repeat := 1 }⟩, ⟨rest, ax, kp⟩) := by
  have ha := get_event_axis_other raw ax (by rw [ht]; decide)
  simp [get_event, ha, get_event_keyboard, ht, hk, set_erase, hm]

theorem get_event_key_up_present (keys_state : KeyboardKey → Bool)
    (raw : SDL_Event) (rest : List SDL_Event) (ax : Int × Int) (kp : Finset KeyboardKey)
    (ht : raw.type = SDL_KEYUP) (hk : keys_state raw.key_sym = false)
    (hm : raw.key_sym ∈ kp) :
    get_event keys_state ⟨raw :: rest, ax, kp⟩
      = (some ⟨raw⟩, ⟨rest, ax, kp.erase raw.key_sym⟩) := by
  have ha := get_event_axis_other raw ax (by rw [ht]; decide)
  simp [get_event, ha, get_event_keyboard, ht, hk, set_erase, hm]

/-! ### The keyboard queries -/

theorem is_keyboard_key_pressed_iff (e : InputEvent) (rk : Bool) :
    e.is_keyboard_key_pressed rk = true
      ↔ e.internal_event.type = SDL_KEYDOWN
        ∧ (e.internal_event.key_repeat = 0 ∨ rk = true) := by
  simp [InputEvent.is_keyboard_key_pressed]

theorem is_keyboard_key_released_iff (e : InputEvent) (rk : Bool) :
    e.is_keyboard_key_released rk = true
      ↔ e.internal_event.type = SDL_KEYUP
        ∧ (e.internal_event.key_repeat = 0 ∨ rk = true) := by
  simp [InputEvent.is_keyboard_key_released]

theorem get_keyboard_key_of_pressed (e : InputEvent) (K : Keys) (rk : Bool)
    (h : e.is_keyboard_key_pressed rk = true) :
    e.get_keyboard_key K rk = e.internal_event.key_sym := by
  rw [is_keyboard_key_pressed_iff] at h
  obtain ⟨h1, h2⟩ := h
  rcases h2 with h2 | h2 <;>
    simp [InputEvent.get_keyboard_key, InputEvent.is_keyboard_event, h1, h2]

theorem is_keyboard_key_pressed_key_iff (e : InputEvent) (K : Keys) (rk : Bool)
    (key : KeyboardKey) :
    e.is_keyboard_key_pressed_key K rk key = true
      ↔ e.is_keyboard_key_pressed rk = true ∧ e.internal_event.key_sym = key := by
  unfold InputEvent.is_keyboard_key_pressed_key
  by_cases h : e.is_keyboard_key_pressed rk = true
  · rw [get_keyboard_key_of_pressed e K rk h]
    simp [h]
  · simp [h]

theorem is_keyboard_direction_key_pressed_iff (e : InputEvent) (K : Keys) (rk : Bool)
    (hd : K.distinct) :
    e.is_keyboard_direction_key_pressed K rk = true
      ↔ e.is_keyboard_key_pressed rk = true
        ∧ (e.internal_event.key_sym = K.KEY_RIGHT ∨ e.internal_event.key_sym = K.KEY_UP
          ∨ e.internal_event.key_sym = K.KEY_LEFT ∨ e.internal_event.key_sym = K.KEY_DOWN) := by
  simp only [Keys.distinct, List.nodup_cons, List.mem_cons, List.mem_singleton, not_or,
    List.not_mem_nil, not_false_eq_true, List.nodup_nil, and_true] at hd
  obtain ⟨⟨-, -, -, h1⟩, ⟨-, -, h2⟩, ⟨-, h3⟩, h4⟩ := hd
  simp only [InputEvent.is_keyboard_direction_key_pressed, directional_keys,
    InputEvent.is_keyboard_key_pressed_keys, ne_eq, h1, h2, h3, h4, not_false_eq_true, if_true,
    not_true_eq_false, if_false]
  by_cases hp : e.is_keyboard_key_pressed rk = true
  · simp only [is_keyboard_key_pressed_key_iff, hp, true_and]
    by_cases c1 : e.internal_event.key_sym = K.KEY_RIGHT
    · simp [c1]
    · by_cases c2 : e.internal_event.key_sym = K.KEY_UP
      · simp [c2]
      · by_cases c3 : e.internal_event.key_sym = K.KEY_LEFT
        · simp [c3]
        · by_cases c4 : e.internal_event.key_sym = K.KEY_DOWN
          · simp [c4]
          · simp [c1, c2, c3, c4]
  · have hf : ∀ key, e.is_keyboard_key_pressed_key K rk key = false := by
      intro key
      rw [← Bool.not_eq_true, is_keyboard_key_pressed_key_iff]
      exact fun h => hp h.1
    simp [hf, hp]

/-- The direction of an event for which `is_keyboard_direction_key_pressed`
holds is decided by its key alone. -/
theorem get_direction_of_direction_key (e : InputEvent) (K : Keys) (rk : Bool)
    (h : e.is_keyboard_direction_key_pressed K rk = true) :
    e.get_direction K rk =
      if e.internal_event.key_sym = K.KEY_RIGHT then 0
      else if e.internal_event.key_sym = K.KEY_UP then 2
      else if e.internal_event.key_sym = K.KEY_LEFT then 4
      else if e.internal_event.key_sym = K.KEY_DOWN then 6
      else -1 := by
  have hp : e.is_keyboard_key_pressed rk = true := by
    by_contra hp
    have hf : ∀ key, e.is_keyboard_key_pressed_key K rk key = false := by
      intro key
      rw [← Bool.not_eq_true, is_keyboard_key_pressed_key_iff]
      exact fun h => hp h.1
    have hl : ∀ keys, e.is_keyboard_key_pressed_keys K rk keys = false := by
      intro keys
      induction keys with
      | nil => rfl
      | cons key keys ih => simp [InputEvent.is_keyboard_key_pressed_keys, hf, ih]
    rw [InputEvent.is_keyboard_direction_key_pressed, hl] at h
    exact Bool.false_ne_true h
  unfold InputEvent.get_direction
  rw [if_pos h]
  simp only [get_keyboard_key_of_pressed e K rk hp]

/-! ### The set of pressed keys along a run -/

theorem last_keyboard_type_concat (key : KeyboardKey) (h : List InputEvent) (ev : InputEvent) :
    last_keyboard_type key (h ++ [ev]) =
      if ((ev.internal_event.type == SDL_KEYDOWN || ev.internal_event.type == SDL_KEYUP)
          && decide (ev.internal_event.key_sym = key)) = true
      then some ev.internal_event.type
      else last_keyboard_type key h := by
  unfold last_keyboard_type
  rw [List.filter_append]
  by_cases hp : ((ev.internal_event.type == SDL_KEYDOWN || ev.internal_event.type == SDL_KEYUP)
          && decide (ev.internal_event.key_sym = key)) = true
  · have hf : List.filter (fun e : InputEvent =>
        (e.internal_event.type == SDL_KEYDOWN || e.internal_event.type == SDL_KEYUP)
          && decide (e.internal_event.key_sym = key)) [ev] = [ev] := by
      simp only [List.filter, hp]
    rw [if_pos hp, hf, List.getLast?_concat]
    rfl
  · have hf : List.filter (fun e : InputEvent =>
        (e.internal_event.type == SDL_KEYDOWN || e.internal_event.type == SDL_KEYUP)
          && decide (e.internal_event.key_sym = key)) [ev] = [] := by
      simp only [Bool.not_eq_true] at hp
      simp only [List.filter, hp]
    rw [if_neg hp, hf, List.append_nil]

/-- What one call of `get_event` does to `keys_pressed`, by the event returned. -/
theorem get_event_keys_step (k : KeyboardKey → Bool) (s : InputState) :
    ((get_event k s).1 = none ∧ (get_event k s).2.keys_pressed = s.keys_pressed)
    ∨ (∃ ev, (get_event k s).1 = some ev
        ∧ ev.internal_event.type ≠ SDL_KEYDOWN ∧ ev.internal_event.type ≠ SDL_KEYUP
        ∧ (get_event k s).2.keys_pressed = s.keys_pressed)
    ∨ (∃ ev, (get_event k s).1 = some ev ∧ ev.internal_event.type = SDL_KEYDOWN
        ∧ (get_event k s).2.keys_pressed = insert ev.internal_event.key_sym s.keys_pressed)
    ∨ (∃ ev, (get_event k s).1 = some ev ∧ ev.internal_event.type = SDL_KEYUP
        ∧ (get_event k s).2.keys_pressed = s.keys_pressed.erase ev.internal_event.key_sym) := by
  obtain ⟨q, ax, kp⟩ := s
  cases q with
  | nil => left; exact ⟨rfl, rfl⟩
  | cons raw rest =>
    right
    by_cases hd : raw.type = SDL_KEYDOWN
    · cases hk : k raw.key_sym with
      | false =>
        left
        rw [get_event_key_down_not_held k raw rest ax kp hd hk]
        exact ⟨_, rfl, by simp, by simp, rfl⟩
      | true =>
        right; left
        by_cases hm : raw.key_sym ∈ kp
        · rw [get_event_key_down_known k raw rest ax kp hd hk hm]
          exact ⟨_, rfl, hd, (Finset.insert_eq_of_mem hm).symm⟩
        · rw [get_event_key_down_fresh k raw rest ax kp hd hk hm]
          exact ⟨_, rfl, hd, rfl⟩
    · by_cases hu : raw.type = SDL_KEYUP
      · cases hk : k raw.key_sym with
        | true =>
          left
          rw [get_event_key_up_held k raw rest ax kp hu hk]
          exact ⟨_, rfl, by simp, by simp, rfl⟩
        | false =>
          right; right
          by_cases hm : raw.key_sym ∈ kp
          · rw [get_event_key_up_present k raw rest ax kp hu hk hm]
            exact ⟨_, rfl, hu, rfl⟩
          · rw [get_event_key_up_absent k raw rest ax kp hu hk hm]
            exact ⟨_, rfl, hu, (Finset.erase_eq_of_not_mem hm).symm⟩
      · left
        have hf := (get_event_axis_from raw ax).1.1
        have h1 : (get_event_axis raw ax).1.type ≠ SDL_KEYDOWN := by
          rcases hf with hf | hf
          · rw [hf]; exact hd
          · rw [hf]; decide
        have h2 : (get_event_axis raw ax).1.type ≠ SDL_KEYUP := by
          rcases hf with hf | hf
          · rw [hf]; exact hu
          · rw [hf]; decide
        have hko := get_event_keyboard_other k (get_event_axis raw ax).1 kp h1 h2
        refine ⟨⟨(get_event_axis raw ax).1⟩, ?_, h1, h2, ?_⟩
        · simp [get_event, hko]
        · simp [get_event, hko]

/-- The invariant carried along a run: a key is in `keys_pressed` iff the last
non-suppressed keyboard event returned for it is a key-down. -/
theorem run_keys_invariant (actions : List Action) (c : InputState × List InputEvent)
    (h0 : ∀ key, key ∈ c.1.keys_pressed ↔ last_keyboard_type key c.2 = some SDL_KEYDOWN) :
    ∀ key, key ∈ (run actions c).1.keys_pressed
      ↔ last_keyboard_type key (run actions c).2 = some SDL_KEYDOWN := by
  induction actions generalizing c with
  | nil => exact h0
  | cons a rest ih =>
    cases a with
    | arrive samples => exact ih _ h0
    | call k =>
      apply ih
      intro key
      rcases get_event_keys_step k c.1 with
        ⟨hn, hs⟩ | ⟨ev, hn, hd, hu, hs⟩ | ⟨ev, hn, hd, hs⟩ | ⟨ev, hn, hu, hs⟩
      · simp only [hn, hs, Option.toList, List.append_nil]; exact h0 key
      · simp only [hn, hs, Option.toList]
        rw [last_keyboard_type_concat]
        simpa [hd, hu] using h0 key
      · simp only [hn, hs, Option.toList]
        rw [last_keyboard_type_concat]
        by_cases hkey : ev.internal_event.key_sym = key
        · simp [hd, hkey]
        · have hne : key ≠ ev.internal_event.key_sym := fun h => hkey h.symm
          simpa [hd, hkey, Finset.mem_insert, hne] using h0 key
      · simp only [hn, hs, Option.toList]
        rw [last_keyboard_type_concat]
        by_cases hkey : ev.internal_event.key_sym = key
        · simp [hu, hkey]
        · have hne : key ≠ ev.internal_event.key_sym := fun h => hkey h.symm
          simpa [hu, hkey, Finset.mem_erase, hne] using h0 key

/-! ### Queries on an event that is not a key press -/

theorem is_keyboard_key_pressed_keys_of_not_pressed (e : InputEvent) (K : Keys) (rk : Bool)
    (hp : e.is_keyboard_key_pressed rk = false) (keys : List KeyboardKey) :
    e.is_keyboard_key_pressed_keys K rk keys = false := by
  induction keys with
  | nil => rfl
  | cons key keys ih =>
    simp [InputEvent.is_keyboard_key_pressed_keys, InputEvent.is_keyboard_key_pressed_key, hp, ih]

theorem get_direction_of_no_source (e : InputEvent) (K : Keys) (rk : Bool)
    (h1 : e.is_keyboard_direction_key_pressed K rk = false)
    (h2 : e.is_joypad_axis_moved = false) (h3 : e.is_joypad_hat_moved = false) :
    e.get_direction K rk = -1 := by
  simp [InputEvent.get_direction, h1, h2, h3]

/-! ### Direction of axis and hat events -/

theorem not_pressed_of_type (e : InputEvent) (rk : Bool)
    (h : e.internal_event.type ≠ SDL_KEYDOWN) : e.is_keyboard_key_pressed rk = false := by
  simp [InputEvent.is_keyboard_key_pressed, beq_eq_false_iff_ne.mpr h]

theorem get_joypad_axis_state_of_axis_event (e : InputEvent)
    (h : e.internal_event.type = SDL_JOYAXISMOTION) :
    e.get_joypad_axis_state = classify_axis e.internal_event.jaxis_value := by
  unfold InputEvent.get_joypad_axis_state InputEvent.is_joypad_axis_moved
  rw [h]
  simp only [beq_self_eq_true, Bool.not_true, Bool.false_eq_true, if_false]
  exact classify_axis_eq _

theorem classify_axis_of_big (v : Int) (h : 10000 ≤ |v|) :
    classify_axis v = if 0 < v then 1 else -1 := by
  unfold classify_axis
  rw [if_neg (not_lt.mpr h)]

theorem classify_axis_of_small (v : Int) (h : |v| < 10000) : classify_axis v = 0 := by
  unfold classify_axis
  rw [if_pos h]

theorem get_direction_of_axis_event (e : InputEvent) (K : Keys) (rk : Bool)
    (h : e.internal_event.type = SDL_JOYAXISMOTION) :
    e.get_direction K rk =
      if classify_axis e.internal_event.jaxis_value = 0 then -1
      else if e.internal_event.jaxis_axis % 2 = 0 then
        (if classify_axis e.internal_event.jaxis_value > 0 then 0 else 4)
      else
        (if classify_axis e.internal_event.jaxis_value > 0 then 6 else 2) := by
  have hp := not_pressed_of_type e rk (by rw [h]; decide)
  have hdk : e.is_keyboard_direction_key_pressed K rk = false :=
    is_keyboard_key_pressed_keys_of_not_pressed e K rk hp _
  have hst := get_joypad_axis_state_of_axis_event e h
  have hm : e.is_joypad_axis_moved = true := by simp [InputEvent.is_joypad_axis_moved, h]
  have hh : e.is_joypad_hat_moved = false := by simp [InputEvent.is_joypad_hat_moved, h]
  have hax : Int.tmod e.get_joypad_axis 2 = ((e.internal_event.jaxis_axis % 2 : Nat) : Int) := by
    simp only [InputEvent.get_joypad_axis, hm, Bool.not_true, Bool.false_eq_true, if_false]
    rw [Int.tmod_eq_emod (by omega) (by decide)]
    omega
  unfold InputEvent.get_direction
  rw [hdk, InputEvent.is_joypad_axis_centered, hm, hh, hst]
  by_cases hc : classify_axis e.internal_event.jaxis_value = 0
  · simp [hc]
  · by_cases hpar : e.internal_event.jaxis_axis % 2 = 0
    · have hz : Int.tmod e.get_joypad_axis 2 = 0 := by rw [hax, hpar]; rfl
      simp [hc, hpar, hz]
    · have hz : ¬ Int.tmod e.get_joypad_axis 2 = 0 := by rw [hax]; omega
      simp [hc, hpar, hz]

theorem get_direction_of_hat_event (e : InputEvent) (K : Keys) (rk : Bool)
    (h : e.internal_event.type = SDL_JOYHATMOTION) :
    e.get_direction K rk = e.get_joypad_hat_direction := by
  have hp := not_pressed_of_type e rk (by rw [h]; decide)
  have hdk : e.is_keyboard_direction_key_pressed K rk = false :=
    is_keyboard_key_pressed_keys_of_not_pressed e K rk hp _
  have hm : e.is_joypad_axis_moved = false := by simp [InputEvent.is_joypad_axis_moved, h]
  have hh : e.is_joypad_hat_moved = true := by simp [InputEvent.is_joypad_hat_moved, h]
  simp [InputEvent.get_direction, hdk, hm, hh]

theorem get_joypad_hat_direction_of_hat_event (e : InputEvent)
    (h : e.internal_event.type = SDL_JOYHATMOTION) :
    e.get_joypad_hat_direction =
      if e.internal_event.jhat_value = SDL_HAT_RIGHT then 0
      else if e.internal_event.jhat_value = SDL_HAT_RIGHTUP then 1
      else if e.internal_event.jhat_value = SDL_HAT_UP then 2
      else if e.internal_event.jhat_value = SDL_HAT_LEFTUP then 3
      else if e.internal_event.jhat_value = SDL_HAT_LEFT then 4
      else if e.internal_event.jhat_value = SDL_HAT_LEFTDOWN then 5
      else if e.internal_event.jhat_value = SDL_HAT_DOWN then 6
      else if e.internal_event.jhat_value = SDL_HAT_RIGHTDOWN then 7
      else -1 := by
  have hh : e.is_joypad_hat_moved = true := by simp [InputEvent.is_joypad_hat_moved, h]
  simp only [InputEvent.get_joypad_hat_direction, hh, Bool.not_true, Bool.false_eq_true, if_false]

theorem get_joypad_hat_direction_range (e : InputEvent) :
    e.get_joypad_hat_direction = -1 ∨ e.get_joypad_hat_direction = 0
    ∨ e.get_joypad_hat_direction = 1 ∨ e.get_joypad_hat_direction = 2
    ∨ e.get_joypad_hat_direction = 3 ∨ e.get_joypad_hat_direction = 4
    ∨ e.get_joypad_hat_direction = 5 ∨ e.get_joypad_hat_direction = 6
    ∨ e.get_joypad_hat_direction = 7 := by
  unfold InputEvent.get_joypad_hat_direction
  dsimp only
  split_ifs <;> simp

/-- The value of `get_direction()` is `-1`, `0`, `2`, `4` or `6`, unless the
event is a hat event, where it is the direction of the hat. -/
theorem get_direction_cases (e : InputEvent) (K : Keys) (rk : Bool) :
    (e.get_direction K rk = -1 ∨ e.get_direction K rk = 0 ∨ e.get_direction K rk = 2
      ∨ e.get_direction K rk = 4 ∨ e.get_direction K rk = 6)
    ∨ (e.internal_event.type = SDL_JOYHATMOTION
        ∧ e.get_direction K rk = e.get_joypad_hat_direction) := by
  by_cases hk : e.is_keyboard_direction_key_pressed K rk = true
  · left
    rw [get_direction_of_direction_key e K rk hk]
    split_ifs <;> simp
  · by_cases ha : e.internal_event.type = SDL_JOYAXISMOTION
    · left
      rw [get_direction_of_axis_event e K rk ha]
      split_ifs <;> simp
    · by_cases hh : e.internal_event.type = SDL_JOYHATMOTION
      · right
        exact ⟨hh, get_direction_of_hat_event e K rk hh⟩
      · left; left
        exact get_direction_of_no_source e K rk (by simpa using hk)
          (by simp [InputEvent.is_joypad_axis_moved, beq_eq_false_iff_ne.mpr ha])
          (by simp [InputEvent.is_joypad_hat_moved, beq_eq_false_iff_ne.mpr hh])

/-! ### Joypad support -/

theorem set_joypad_enabled_same (n : Int) (o : Option Nat) (b : Bool) (s : JoypadState)
    (h : is_joypad_enabled s = b) : set_joypad_enabled n o b s = (s, []) := by
  unfold set_joypad_enabled
  rw [if_neg (by simp [h])]

theorem set_joypad_enabled_flag (n : Int) (o : Option Nat) (b : Bool) (s : JoypadState) :
    is_joypad_enabled (set_joypad_enabled n o b s).1 = b := by
  unfold set_joypad_enabled
  by_cases h : b ≠ is_joypad_enabled s
  · rw [if_pos h]
    dsimp only
    split_ifs <;> rfl
  · rw [if_neg h]
    exact (not_not.mp h).symm

theorem set_joypad_enabled_changed (n : Int) (o : Option Nat) (b : Bool) (s : JoypadState)
    (h : is_joypad_enabled s ≠ b) :
    (set_joypad_enabled n o b s).1
      = { joypad_enabled := b, joystick := if b = true ∧ 0 < n then o else none } := by
  unfold set_joypad_enabled
  rw [if_pos (fun h' => h h'.symm)]
  dsimp only
  by_cases hc : b = true ∧ n > 0
  · rw [if_pos hc, if_pos hc]
  · rw [if_neg hc, if_neg hc]

theorem set_joypad_enabled_invariant (n : Int) (o : Option Nat) (b : Bool) (s : JoypadState)
    (h : s.joystick ≠ none → s.joypad_enabled = true) :
    (set_joypad_enabled n o b s).1.joystick ≠ none →
      (set_joypad_enabled n o b s).1.joypad_enabled = true := by
  by_cases hs : is_joypad_enabled s = b
  · rw [set_joypad_enabled_same n o b s hs]
    exact h
  · rw [set_joypad_enabled_changed n o b s hs]
    dsimp only
    intro hj
    by_cases hc : b = true ∧ 0 < n
    · exact hc.1
    · rw [if_neg hc] at hj
      exact absurd rfl hj

theorem run_joypad_invariant (calls : List (Bool × Int × Option Nat)) (s : JoypadState)
    (h : s.joystick ≠ none → s.joypad_enabled = true) :
    (run_joypad calls s).joystick ≠ none → (run_joypad calls s).joypad_enabled = true := by
  induction calls generalizing s with
  | nil => exact h
  | cons c rest ih =>
    obtain ⟨b, n, o⟩ := c
    exact ih _ (set_joypad_enabled_invariant n o b s h)

/-! ### The map of key names -/

theorem std_map_insert_of_mem (m : List (KeyboardKey × String)) (k : KeyboardKey) (v : String)
    (h : k ∈ m.map Prod.fst) : std_map_insert m k v = m := by
  unfold std_map_insert
  rw [if_pos h]

theorem std_map_insert_perm (m : List (KeyboardKey × String)) (k : KeyboardKey) (v : String)
    (h : k ∉ m.map Prod.fst) : (std_map_insert m k v).Perm ((k, v) :: m) := by
  unfold std_map_insert
  rw [if_neg h]
  exact List.perm_orderedInsert _ _ _

theorem std_map_insert_mem (m : List (KeyboardKey × String)) (k : KeyboardKey) (v : String)
    (q : KeyboardKey × String) (h : q ∈ std_map_insert m k v) : q ∈ m ∨ q = (k, v) := by
  by_cases hk : k ∈ m.map Prod.fst
  · rw [std_map_insert_of_mem m k v hk] at h
    exact Or.inl h
  · have := (std_map_insert_perm m k v hk).mem_iff.mp h
    rcases List.mem_cons.mp this with h1 | h1
    · exact Or.inr h1
    · exact Or.inl h1

theorem std_map_insert_mono (m : List (KeyboardKey × String)) (k : KeyboardKey) (v : String)
    (q : KeyboardKey × String) (h : q ∈ m) : q ∈ std_map_insert m k v := by
  by_cases hk : k ∈ m.map Prod.fst
  · rw [std_map_insert_of_mem m k v hk]
    exact h
  · exact (std_map_insert_perm m k v hk).mem_iff.mpr (List.mem_cons_of_mem _ h)

theorem std_map_insert_new (m : List (KeyboardKey × String)) (k : KeyboardKey) (v : String)
    (hk : k ∉ m.map Prod.fst) : (k, v) ∈ std_map_insert m k v :=
  (std_map_insert_perm m k v hk).mem_iff.mpr (List.mem_cons_self _ _)

theorem std_map_insert_key (m : List (KeyboardKey × String)) (k : KeyboardKey) (v : String) :
    k ∈ (std_map_insert m k v).map Prod.fst := by
  by_cases hk : k ∈ m.map Prod.fst
  · rw [std_map_insert_of_mem m k v hk]
    exact hk
  · exact List.mem_map.mpr ⟨(k, v), std_map_insert_new m k v hk, rfl⟩

theorem std_map_insert_keys_nodup (m : List (KeyboardKey × String)) (k : KeyboardKey)
    (v : String) (h : (m.map Prod.fst).Nodup) : ((std_map_insert m k v).map Prod.fst).Nodup := by
  by_cases hk : k ∈ m.map Prod.fst
  · rw [std_map_insert_of_mem m k v hk]
    exact h
  · have hp := (std_map_insert_perm m k v hk).map Prod.fst
    rw [hp.nodup_iff, List.map_cons]
    exact List.nodup_cons.mpr ⟨hk, h⟩

theorem std_map_insert_names_nodup (m : List (KeyboardKey × String)) (k : KeyboardKey)
    (v : String) (h : (m.map Prod.snd).Nodup) (hv : v ∉ m.map Prod.snd) :
    ((std_map_insert m k v).map Prod.snd).Nodup := by
  by_cases hk : k ∈ m.map Prod.fst
  · rw [std_map_insert_of_mem m k v hk]
    exact h
  · have hp := (std_map_insert_perm m k v hk).map Prod.snd
    rw [hp.nodup_iff, List.map_cons]
    exact List.nodup_cons.mpr ⟨hv, h⟩

/-- Building a map from pairs with pairwise distinct names keeps keys and
names pairwise distinct, keeps every key and adds nothing else. -/
theorem std_map_fold_wf (l m : List (KeyboardKey × String))
    (hk : (m.map Prod.fst).Nodup) (hn : (m.map Prod.snd).Nodup)
    (hl : (l.map Prod.snd).Nodup) (hd : ∀ p ∈ l, p.2 ∉ m.map Prod.snd) :
    ((l.foldl (fun m p => std_map_insert m p.1 p.2) m).map Prod.fst).Nodup
    ∧ ((l.foldl (fun m p => std_map_insert m p.1 p.2) m).map Prod.snd).Nodup
    ∧ (∀ p ∈ l, p.1 ∈ (l.foldl (fun m p => std_map_insert m p.1 p.2) m).map Prod.fst)
    ∧ (∀ q ∈ m, q ∈ l.foldl (fun m p => std_map_insert m p.1 p.2) m)
    ∧ (∀ q ∈ l.foldl (fun m p => std_map_insert m p.1 p.2) m, q ∈ m ∨ q ∈ l) := by
  induction l generalizing m with
  | nil =>
    refine ⟨hk, hn, ?_, fun q hq => hq, fun q hq => Or.inl hq⟩
    intro p hp
    exact absurd hp (List.not_mem_nil _)
  | cons p rest ih =>
    rw [List.map_cons, List.nodup_cons] at hl
    have hp2 : p.2 ∉ m.map Prod.snd := hd p (List.mem_cons_self _ _)
    have hd' : ∀ q ∈ rest, q.2 ∉ (std_map_insert m p.1 p.2).map Prod.snd := by
      intro q hq hmem
      obtain ⟨r, hr, hrq⟩ := List.mem_map.mp hmem
      rcases std_map_insert_mem m p.1 p.2 r hr with h1 | h1
      · exact hd q (List.mem_cons_of_mem _ hq) (List.mem_map.mpr ⟨r, h1, hrq⟩)
      · rw [h1] at hrq
        apply hl.1
        rw [hrq]
        exact List.mem_map.mpr ⟨q, hq, rfl⟩
    obtain ⟨i1, i2, i3, i4, i5⟩ := ih (std_map_insert m p.1 p.2)
      (std_map_insert_keys_nodup m p.1 p.2 hk)
      (std_map_insert_names_nodup m p.1 p.2 hn hp2) hl.2 hd'
    rw [List.foldl_cons]
    refine ⟨i1, i2, ?_, ?_, ?_⟩
    · intro q hq
      rcases List.mem_cons.mp hq with h1 | h1
      · rw [h1]
        obtain ⟨r, hr, hrq⟩ := List.mem_map.mp (std_map_insert_key m p.1 p.2)
        exact List.mem_map.mpr ⟨r, i4 r hr, hrq⟩
      · exact i3 q h1
    · intro q hq
      exact i4 q (std_map_insert_mono m p.1 p.2 q hq)
    · intro q hq
      rcases i5 q hq with h1 | h1
      · rcases std_map_insert_mem m p.1 p.2 q h1 with h2 | h2
        · exact Or.inl h2
        · right
          rw [h2]
          exact List.mem_cons_self _ _
      · exact Or.inr (List.mem_cons_of_mem _ h1)

theorem std_map_find_of_mem (m : List (KeyboardKey × String)) (k : KeyboardKey) (n : String)
    (hk : (m.map Prod.fst).Nodup) (h : (k, n) ∈ m) : std_map_find m k = some n := by
  induction m with
  | nil => exact absurd h (List.not_mem_nil _)
  | cons p rest ih =>
    rw [List.map_cons, List.nodup_cons] at hk
    rcases List.mem_cons.mp h with h1 | h1
    · rw [← h1]
      simp [std_map_find]
    · have hne : p.1 ≠ k := by
        intro he
        apply hk.1
        rw [he]
        exact List.mem_map.mpr ⟨(k, n), h1, rfl⟩
      simp only [std_map_find, hne, if_false]
      exact ih hk.2 h1

theorem std_map_find_none (m : List (KeyboardKey × String)) (k : KeyboardKey)
    (h : k ∉ m.map Prod.fst) : std_map_find m k = none := by
  induction m with
  | nil => rfl
  | cons p rest ih =>
    rw [List.map_cons, List.mem_cons, not_or] at h
    have hne : p.1 ≠ k := fun he => h.1 he.symm
    simp only [std_map_find, hne, if_false]
    exact ih h.2

theorem get_keyboard_key_by_name_of_mem (K : Keys) (m : List (KeyboardKey × String))
    (k : KeyboardKey) (n : String) (hn : (m.map Prod.snd).Nodup) (h : (k, n) ∈ m) :
    get_keyboard_key_by_name K m n = k := by
  induction m with
  | nil => exact absurd h (List.not_mem_nil _)
  | cons p rest ih =>
    rw [List.map_cons, List.nodup_cons] at hn
    rcases List.mem_cons.mp h with h1 | h1
    · rw [← h1]
      simp [get_keyboard_key_by_name]
    · have hne : p.2 ≠ n := by
        intro he
        apply hn.1
        rw [he]
        exact List.mem_map.mpr ⟨(k, n), h1, rfl⟩
      simp only [get_keyboard_key_by_name, hne, if_false]
      exact ih hn.2 h1

theorem get_keyboard_key_by_name_found (K : Keys) (m : List (KeyboardKey × String))
    (n : String) :
    ((∀ p ∈ m, p.2 ≠ n) ∧ get_keyboard_key_by_name K m n = K.KEY_NONE)
    ∨ (get_keyboard_key_by_name K m n, n) ∈ m := by
  induction m with
  | nil =>
    left
    exact ⟨fun p hp => absurd hp (List.not_mem_nil _), rfl⟩
  | cons p rest ih =>
    by_cases hp : p.2 = n
    · right
      simp only [get_keyboard_key_by_name, hp, if_true]
      rw [← hp]
      exact List.mem_cons_self _ _
    · simp only [get_keyboard_key_by_name, hp, if_false]
      rcases ih with ⟨h1, h2⟩ | h1
      · left
        refine ⟨?_, h2⟩
        intro q hq
        rcases List.mem_cons.mp hq with h3 | h3
        · rw [h3]; exact hp
        · exact h1 q h3
      · right
        exact List.mem_cons_of_mem _ h1

theorem keyboard_key_names_init_names (value : NamedKey → KeyboardKey) :
    ((keyboard_key_names_init value).map Prod.snd).Nodup
    ∧ "" ∉ (keyboard_key_names_init value).map Prod.snd := by
  simp only [keyboard_key_names_init, List.map_cons, List.map_nil]
  constructor <;> decide

theorem keyboard_key_names_init_keys (value : NamedKey → KeyboardKey) (key : NamedKey) :
    value key ∈ (keyboard_key_names_init value).map Prod.fst := by
  cases key <;> simp [keyboard_key_names_init]

/-- The map of key names as initialised: keys and names are pairwise distinct,
every named enumerator is a key, and no name is empty. -/
theorem keyboard_key_names_wf (value : NamedKey → KeyboardKey) :
    ((keyboard_key_names value).map Prod.fst).Nodup
    ∧ ((keyboard_key_names value).map Prod.snd).Nodup
    ∧ (∀ key : NamedKey, value key ∈ (keyboard_key_names value).map Prod.fst)
    ∧ "" ∉ (keyboard_key_names value).map Prod.snd := by
  have hi := keyboard_key_names_init_names value
  obtain ⟨h1, h2, h3, -, h5⟩ := std_map_fold_wf (keyboard_key_names_init value) []
    List.nodup_nil List.nodup_nil hi.1 (fun p _ h => absurd h (List.not_mem_nil _))
  refine ⟨h1, h2, ?_, ?_⟩
  · intro key
    obtain ⟨p, hp, hpk⟩ := List.mem_map.mp (keyboard_key_names_init_keys value key)
    rw [← hpk]
    exact h3 p hp
  · intro hmem
    obtain ⟨q, hq, hqn⟩ := List.mem_map.mp hmem
    rcases h5 q hq with h | h
    · exact absurd h (List.not_mem_nil _)
    · exact hi.2 (List.mem_map.mpr ⟨q, h, hqn⟩)

/-- After `get_keyboard_key_name` was asked for a key that is not in the map as
initialised, the empty name leads back to that key. -/
theorem get_keyboard_key_by_name_empty_after_insert (K : Keys) (value : NamedKey → KeyboardKey)
    (k : KeyboardKey) (hk : k ∉ (keyboard_key_names value).map Prod.fst) :
    get_keyboard_key_by_name K (keyboard_key_names value) "" = K.KEY_NONE
    ∧ get_keyboard_key_name (keyboard_key_names value) k
        = ("", std_map_insert (keyboard_key_names value) k "")
    ∧ get_keyboard_key_by_name K (get_keyboard_key_name (keyboard_key_names value) k).2 "" = k := by
  obtain ⟨-, h2, -, h4⟩ := keyboard_key_names_wf value
  generalize keyboard_key_names value = m at hk h2 h4 ⊢
  have hname : get_keyboard_key_name m k = ("", std_map_insert m k "") := by
    unfold get_keyboard_key_name
    rw [std_map_find_none m k hk]
  refine ⟨?_, hname, ?_⟩
  · rcases get_keyboard_key_by_name_found K m "" with h | h
    · exact h.2
    · exact absurd (List.mem_map.mpr ⟨_, h, rfl⟩) h4
  · simp only [hname]
    exact get_keyboard_key_by_name_of_mem K (std_map_insert m k "") k ""
      (std_map_insert_names_nodup m k "" h2 h4) (std_map_insert_new m k "" hk)

/-! ### Samples that `get_event` passes through -/

theorem get_event_other_sample (keys_state : KeyboardKey → Bool)
    (raw : SDL_Event) (rest : List SDL_Event) (ax : Int × Int) (kp : Finset KeyboardKey)
    (h1 : raw.type ≠ SDL_JOYAXISMOTION) (h2 : raw.type ≠ SDL_KEYDOWN)
    (h3 : raw.type ≠ SDL_KEYUP) :
    get_event keys_state ⟨raw :: rest, ax, kp⟩ = (some ⟨raw⟩, ⟨rest, ax, kp⟩) := by
  have ha := get_event_axis_other raw ax h1
  have hk := get_event_keyboard_other keys_state raw kp h2 h3
  simp [get_event, ha, hk]

/-- The axis state after a call, by the raw sample. -/
theorem get_event_axis_state_changed (keys_state : KeyboardKey → Bool)
    (raw : SDL_Event) (rest : List SDL_Event) (ax : Int × Int) (kp : Finset KeyboardKey)
    (h : (get_event keys_state ⟨raw :: rest, ax, kp⟩).2.joypad_axis_state ≠ ax) :
    raw.type = SDL_JOYAXISMOTION
    ∧ (|raw.jaxis_value| ≤ 1000 ∨ 10000 ≤ |raw.jaxis_value|)
    ∧ axis_get ax (raw.jaxis_axis % 2) ≠ classify_axis raw.jaxis_value := by
  by_cases ht : raw.type = SDL_JOYAXISMOTION
  · by_cases hb : |raw.jaxis_value| ≤ 1000 ∨ 10000 ≤ |raw.jaxis_value|
    · refine ⟨ht, hb, ?_⟩
      intro hd
      rw [get_event_axis_dup keys_state raw rest ax kp ht hb hd] at h
      exact h rfl
    · exfalso
      have hlo : 1000 < |raw.jaxis_value| := by
        by_contra hc
        exact hb (Or.inl (not_lt.mp hc))
      have hhi : |raw.jaxis_value| < 10000 := by
        by_contra hc
        exact hb (Or.inr (not_lt.mp hc))
      have ha := get_event_axis_band raw ax ht hlo hhi
      apply h
      simp [get_event, ha]
  · exfalso
    have ha := get_event_axis_other raw ax ht
    apply h
    simp [get_event, ha]

/-- When a call changes `keys_pressed`, the raw sample is a key-down or a
key-up and is returned as it is. -/
theorem get_event_keys_changed (keys_state : KeyboardKey → Bool)
    (raw : SDL_Event) (rest : List SDL_Event) (ax : Int × Int) (kp : Finset KeyboardKey)
    (h : (get_event keys_state ⟨raw :: rest, ax, kp⟩).2.keys_pressed ≠ kp) :
    (raw.type = SDL_KEYDOWN ∨ raw.type = SDL_KEYUP)
    ∧ (get_event keys_state ⟨raw :: rest, ax, kp⟩).1 = some ⟨raw⟩ := by
  by_cases hd : raw.type = SDL_KEYDOWN
  · refine ⟨Or.inl hd, ?_⟩
    cases hk : keys_state raw.key_sym with
    | false =>
      rw [get_event_key_down_not_held keys_state raw rest ax kp hd hk] at h
      exact absurd rfl h
    | true =>
      by_cases hm : raw.key_sym ∈ kp
      · rw [get_event_key_down_known keys_state raw rest ax kp hd hk hm] at h
        exact absurd rfl h
      · rw [get_event_key_down_fresh keys_state raw rest ax kp hd hk hm]
  · by_cases hu : raw.type = SDL_KEYUP
    · refine ⟨Or.inr hu, ?_⟩
      cases hk : keys_state raw.key_sym with
      | true =>
        rw [get_event_key_up_held keys_state raw rest ax kp hu hk] at h
        exact absurd rfl h
      | false =>
        by_cases hm : raw.key_sym ∈ kp
        · rw [get_event_key_up_present keys_state raw rest ax kp hu hk hm]
        · rw [get_event_key_up_absent keys_state raw rest ax kp hu hk hm] at h
          exact absurd rfl h
    · exfalso
      have hf := (get_event_axis_from raw ax).1.1
      have h1 : (get_event_axis raw ax).1.type ≠ SDL_KEYDOWN := by
        rcases hf with hf | hf
        · rw [hf]; exact hd
        · rw [hf]; decide
      have h2 : (get_event_axis raw ax).1.type ≠ SDL_KEYUP := by
        rcases hf with hf | hf
        · rw [hf]; exact hu
        · rw [hf]; decide
      have hko := get_event_keyboard_other keys_state (get_event_axis raw ax).1 kp h1 h2
      apply h
      simp [get_event, hko]

/-! ### The queries over an array of keys -/

theorem get_keyboard_key_of_released (e : InputEvent) (K : Keys) (rk : Bool)
    (h : e.is_keyboard_key_released rk = true) :
    e.get_keyboard_key K rk = e.internal_event.key_sym := by
  rw [is_keyboard_key_released_iff] at h
  obtain ⟨h1, h2⟩ := h
  rcases h2 with h2 | h2 <;>
    simp [InputEvent.get_keyboard_key, InputEvent.is_keyboard_event, h1, h2]

theorem is_keyboard_key_released_key_iff (e : InputEvent) (K : Keys) (rk : Bool)
    (key : KeyboardKey) :
    e.is_keyboard_key_released_key K rk key = true
      ↔ e.is_keyboard_key_released rk = true ∧ e.internal_event.key_sym = key := by
  unfold InputEvent.is_keyboard_key_released_key
  by_cases h : e.is_keyboard_key_released rk = true
  · rw [get_keyboard_key_of_released e K rk h]
    simp [h]
  · simp [h]

theorem is_keyboard_key_pressed_keys_iff (e : InputEvent) (K : Keys) (rk : Bool)
    (keys : List KeyboardKey) :
    e.is_keyboard_key_pressed_keys K rk keys = true
      ↔ e.is_keyboard_key_pressed rk = true
        ∧ e.internal_event.key_sym ∈ keys.takeWhile (fun k => decide (k ≠ K.KEY_NONE)) := by
  induction keys with
  | nil => simp [InputEvent.is_keyboard_key_pressed_keys]
  | cons key keys ih =>
    by_cases hn : key = K.KEY_NONE
    · simp [InputEvent.is_keyboard_key_pressed_keys, List.takeWhile, hn]
    · have hd : decide (key ≠ K.KEY_NONE) = true := by simpa using hn
      rw [List.takeWhile_cons, hd]
      simp only [InputEvent.is_keyboard_key_pressed_keys, ne_eq, hn, not_false_eq_true, if_true,
        List.mem_cons]
      by_cases hp : e.is_keyboard_key_pressed_key K rk key = true
      · have hp' := (is_keyboard_key_pressed_key_iff e K rk key).mp hp
        simp [hp, hp'.1, hp'.2]
      · have hne : ¬ (e.is_keyboard_key_pressed rk = true ∧ e.internal_event.key_sym = key) :=
          fun h => hp ((is_keyboard_key_pressed_key_iff e K rk key).mpr h)
        simp only [hp, if_false, Bool.false_eq_true]
        rw [ih]
        constructor
        · rintro ⟨h1, h2⟩
          exact ⟨h1, Or.inr h2⟩
        · rintro ⟨h1, h2 | h2⟩
          · exact absurd ⟨h1, h2⟩ hne
          · exact ⟨h1, h2⟩

theorem is_keyboard_key_released_keys_iff (e : InputEvent) (K : Keys) (rk : Bool)
    (keys : List KeyboardKey) :
    e.is_keyboard_key_released_keys K rk keys = true
      ↔ e.is_keyboard_key_released rk = true
        ∧ e.internal_event.key_sym ∈ keys.takeWhile (fun k => decide (k ≠ K.KEY_NONE)) := by
  induction keys with
  | nil => simp [InputEvent.is_keyboard_key_released_keys]
  | cons key keys ih =>
    by_cases hn : key = K.KEY_NONE
    · simp [InputEvent.is_keyboard_key_released_keys, List.takeWhile, hn]
    · have hd : decide (key ≠ K.KEY_NONE) = true := by simpa using hn
      rw [List.takeWhile_cons, hd]
      simp only [InputEvent.is_keyboard_key_released_keys, ne_eq, hn, not_false_eq_true, if_true,
        List.mem_cons]
      by_cases hp : e.is_keyboard_key_released_key K rk key = true
      · have hp' := (is_keyboard_key_released_key_iff e K rk key).mp hp
        simp [hp, hp'.1, hp'.2]
      · have hne : ¬ (e.is_keyboard_key_released rk = true ∧ e.internal_event.key_sym = key) :=
          fun h => hp ((is_keyboard_key_released_key_iff e K rk key).mpr h)
        simp only [hp, if_false, Bool.false_eq_true]
        rw [ih]
        constructor
        · rintro ⟨h1, h2⟩
          exact ⟨h1, Or.inr h2⟩
        · rintro ⟨h1, h2 | h2⟩
          · exact absurd ⟨h1, h2⟩ hne
          · exact ⟨h1, h2⟩

/-! ### Player movement -/

theorem compute_movement_direction8 {σ : Type} (ops : StraightMovementOps σ)
    (m : PlayerMovement σ) :
    (PlayerMovement.compute_movement ops m).direction8 = m.direction8 := rfl

/-- The value of `direction8` after `update`, for an entity on a map. -/
theorem update_direction8_on_map {σ : Type} (ops : StraightMovementOps σ) (entity : MapEntity)
    (m : PlayerMovement σ) (hmap : entity.is_on_map = true) :
    (PlayerMovement.update ops (some entity) m).direction8 =
      if ops.is_stopped (PlayerMovement.base_at_test ops entity m) = true ∧ m.direction8 ≠ -1
      then -1
      else if entity.wanted_direction8 ≠ m.direction8
          ∧ ops.is_suspended (PlayerMovement.base_at_test ops entity m) = false
      then entity.wanted_direction8
      else m.direction8 := by
  unfold PlayerMovement.update PlayerMovement.base_at_test
  simp only [hmap, Bool.not_true, Bool.false_eq_true, if_false]
  by_cases hs : (entity.has_stream_action && !entity.stream_allow_movement) = true
  · simp only [hs, if_true]
    by_cases h1 : ops.is_stopped (ops.stop (ops.update m.base)) = true ∧ m.direction8 ≠ -1
    · simp [h1.1, h1.2, compute_movement_direction8]
    · rw [if_neg h1]
      have h1' : (ops.is_stopped (ops.stop (ops.update m.base))
          && decide (m.direction8 ≠ -1)) = false := by
        rw [Bool.and_eq_false_iff]
        by_cases hst : ops.is_stopped (ops.stop (ops.update m.base)) = true
        · right
          simpa using fun h => h1 ⟨hst, h⟩
        · left
          simpa using hst
      simp only [h1', Bool.false_eq_true, if_false]
      by_cases h2 : entity.wanted_direction8 ≠ m.direction8
          ∧ ops.is_suspended (ops.stop (ops.update m.base)) = false
      · simp [h2.1, h2.2, compute_movement_direction8]
      · rw [if_neg h2]
        by_cases hw : entity.wanted_direction8 = m.direction8
        · simp [hw, compute_movement_direction8]
        · have hsus : ops.is_suspended (ops.stop (ops.update m.base)) = true := by
            by_contra hc
            exact h2 ⟨hw, by simpa using hc⟩
          simp [hsus]
  · simp only [hs, if_false, Bool.false_eq_true]
    by_cases h1 : ops.is_stopped (ops.update m.base) = true ∧ m.direction8 ≠ -1
    · simp [h1.1, h1.2, compute_movement_direction8]
    · rw [if_neg h1]
      have h1' : (ops.is_stopped (ops.update m.base)
          && decide (m.direction8 ≠ -1)) = false := by
        rw [Bool.and_eq_false_iff]
        by_cases hst : ops.is_stopped (ops.update m.base) = true
        · right
          simpa using fun h => h1 ⟨hst, h⟩
        · left
          simpa using hst
      simp only [h1', Bool.false_eq_true, if_false]
      by_cases h2 : entity.wanted_direction8 ≠ m.direction8
          ∧ ops.is_suspended (ops.update m.base) = false
      · simp [h2.1, h2.2, compute_movement_direction8]
      · rw [if_neg h2]
        by_cases hw : entity.wanted_direction8 = m.direction8
        · simp [hw, compute_movement_direction8]
        · have hsus : ops.is_suspended (ops.update m.base) = true := by
            by_contra hc
            exact h2 ⟨hw, by simpa using hc⟩
          simp [hsus]

/-! ### The SDL calls of `set_joypad_enabled` and the open devices -/

theorem set_joypad_enabled_disable_calls (n : Int) (o : Option Nat) (s : JoypadState)
    (he : s.joypad_enabled = true) :
    set_joypad_enabled n o false s
      = (⟨false, none⟩,
          (match s.joystick with
            | some joystick => [SDLCall.SDL_JoystickClose joystick]
            | none => [])
          ++ [SDLCall.SDL_JoystickEventState, SDLCall.SDL_QuitSubSystem]) := by
  unfold set_joypad_enabled
  simp [is_joypad_enabled, he]

theorem set_joypad_enabled_enable_calls (n : Int) (o : Option Nat) (s : JoypadState)
    (hd : s.joypad_enabled = false) (hj : s.joystick = none) :
    set_joypad_enabled n o true s
      = if 0 < n then
          (⟨true, o⟩, [SDLCall.SDL_InitSubSystem, SDLCall.SDL_JoystickOpen 0])
        else
          (⟨true, none⟩, [SDLCall.SDL_JoystickEventState, SDLCall.SDL_QuitSubSystem]) := by
  unfold set_joypad_enabled
  by_cases hn : 0 < n
  · simp [is_joypad_enabled, hd, hj, hn]
  · simp [is_joypad_enabled, hd, hj, hn]

/-- One call keeps the open devices equal to the handle held. -/
theorem set_joypad_enabled_devices (n : Int) (o : Option Nat) (b : Bool) (s : JoypadState)
    (h : s.joystick ≠ none → s.joypad_enabled = true) :
    devices_after o (set_joypad_enabled n o b s).2 s.joystick.toList
      = (set_joypad_enabled n o b s).1.joystick.toList := by
  by_cases hs : is_joypad_enabled s = b
  · rw [set_joypad_enabled_same n o b s hs]
    rfl
  · cases b with
    | false =>
      have he : s.joypad_enabled = true := by
        cases hx : s.joypad_enabled with
        | true => rfl
        | false => exact absurd hx hs
      rw [set_joypad_enabled_disable_calls n o s he]
      cases hj : s.joystick with
      | none => rfl
      | some j => simp [devices_after]
    | true =>
      have hd : s.joypad_enabled = false := by
        cases hx : s.joypad_enabled with
        | false => rfl
        | true => exact absurd hx hs
      have hj : s.joystick = none := by
        by_contra hc
        rw [h hc] at hd
        exact Bool.noConfusion hd
      rw [set_joypad_enabled_enable_calls n o s hd hj, hj]
      by_cases hn : 0 < n
      · simp [hn, devices_after]
      · simp [hn, devices_after]

theorem run_joypad_devices_invariant (calls : List (Bool × Int × Option Nat))
    (c : JoypadState × List Nat)
    (h : c.1.joystick ≠ none → c.1.joypad_enabled = true)
    (hdev : c.2 = c.1.joystick.toList) :
    (run_joypad_devices calls c).1 = run_joypad calls c.1
    ∧ (run_joypad_devices calls c).2 = (run_joypad calls c.1).joystick.toList := by
  induction calls generalizing c with
  | nil => exact ⟨rfl, hdev⟩
  | cons x rest ih =>
    obtain ⟨b, n, o⟩ := x
    have hstep := set_joypad_enabled_devices n o b c.1 h
    rw [← hdev] at hstep
    exact ih ((set_joypad_enabled n o b c.1).1,
        devices_after o (set_joypad_enabled n o b c.1).2 c.2)
      (set_joypad_enabled_invariant n o b c.1 h) hstep

theorem run_joypad_append (calls : List (Bool × Int × Option Nat)) (b : Bool) (n : Int)
    (o : Option Nat) (s : JoypadState) :
    run_joypad (calls ++ [(b, n, o)]) s = (set_joypad_enabled n o b (run_joypad calls s)).1 := by
  induction calls generalizing s with
  | nil => rfl
  | cons x rest ih =>
    obtain ⟨b', n', o'⟩ := x
    exact ih _

/-! ## Claims -/

/-- C1: `get_event` returns no event exactly when the raw device queue is
empty (and then changes nothing); on a non-empty queue it removes exactly the
head sample and returns exactly one event, which comes from that sample
(accepted, or marked suppressed), whatever the prior axis state, set of
pressed keys and live keyboard state. -/
theorem get_event_none_iff_queue_empty (keys_state : KeyboardKey → Bool)
    (ax : Int × Int) (kp : Finset KeyboardKey) :
    (∀ q, (get_event keys_state ⟨q, ax, kp⟩).1 = none ↔ q = [])
    ∧ get_event keys_state ⟨[], ax, kp⟩ = (none, ⟨[], ax, kp⟩)
    ∧ ∀ raw rest, ∃ ev,
        (get_event keys_state ⟨raw :: rest, ax, kp⟩).1 = some ev
        ∧ (get_event keys_state ⟨raw :: rest, ax, kp⟩).2.queue = rest
        ∧ from_sample raw ev := by
  refine ⟨?_, rfl, fun raw rest => get_event_from_sample keys_state raw rest ax kp⟩
  intro q
  cases q with
  | nil => simp [get_event]
  | cons raw rest => simp [get_event]

/-- C2: draining a queue of `n` raw samples by calling `get_event` until it
returns nothing terminates (any fuel above `n` suffices) with exactly `n`
events, the `i`-th coming from the `i`-th raw sample, and leaves the queue
empty: no sample is dropped or duplicated. -/
theorem drain_surfaces_every_sample (kbd : Nat → KeyboardKey → Bool) (extra : Nat)
    (q : List SDL_Event) (i : Nat) (ax : Int × Int) (kp : Finset KeyboardKey) :
    ∃ evs s', drain kbd (q.length + 1 + extra) i ⟨q, ax, kp⟩ = some (evs, s')
      ∧ evs.length = q.length
      ∧ s'.queue = []
      ∧ List.Forall₂ from_sample q evs := by
  induction q generalizing i ax kp with
  | nil =>
    refine ⟨[], ⟨[], ax, kp⟩, ?_, rfl, rfl, List.Forall₂.nil⟩
    have hfuel : ([] : List SDL_Event).length + 1 + extra = extra + 1 := by
      simp only [List.length_nil]; omega
    rw [hfuel]
    simp [drain, get_event]
  | cons raw rest ih =>
    obtain ⟨ev, h1, h2, h3⟩ := get_event_from_sample (kbd i) raw rest ax kp
    obtain ⟨evs, s', hd, hl, hq, hf⟩ := ih (i + 1)
      (get_event (kbd i) ⟨raw :: rest, ax, kp⟩).2.joypad_axis_state
      (get_event (kbd i) ⟨raw :: rest, ax, kp⟩).2.keys_pressed
    refine ⟨ev :: evs, s', ?_, by simp [hl], hq, List.Forall₂.cons h3 hf⟩
    have hs : (get_event (kbd i) ⟨raw :: rest, ax, kp⟩).2
        = ⟨rest, (get_event (kbd i) ⟨raw :: rest, ax, kp⟩).2.joypad_axis_state,
            (get_event (kbd i) ⟨raw :: rest, ax, kp⟩).2.keys_pressed⟩ := rfl
    have hfuel : (raw :: rest).length + 1 + extra = (rest.length + 1 + extra) + 1 := by
      simp only [List.length_cons]; omega
    have hg : get_event (kbd i) ⟨raw :: rest, ax, kp⟩
        = (some ev, (get_event (kbd i) ⟨raw :: rest, ax, kp⟩).2) := by
      rw [← h1]
    rw [hfuel, drain, hg]
    simp only
    rw [hs, hd]

/-- C3: an axis sample in the ambiguous band (`1000 < |v| < 10000`) is returned
marked suppressed (type `SDL_LASTEVENT`, payload untouched), and the axis
state (as well as the set of pressed keys) is unchanged, for every prior
state. -/
theorem axis_ambiguous_band_suppressed (keys_state : KeyboardKey → Bool)
    (raw : SDL_Event) (rest : List SDL_Event) (ax : Int × Int) (kp : Finset KeyboardKey)
    (ht : raw.type = SDL_JOYAXISMOTION)
    (hlo : 1000 < |raw.jaxis_value|) (hhi : |raw.jaxis_value| < 10000) :
    get_event keys_state ⟨raw :: rest, ax, kp⟩
      = (some ⟨{ raw with type := SDL_LASTEVENT }⟩, ⟨rest, ax, kp⟩) := by
  rw [← std_abs_eq_abs] at hlo hhi
  have ha : get_event_axis raw ax = ({ raw with type := SDL_LASTEVENT }, ax) := by
    unfold get_event_axis
    rw [if_neg]
    intro h
    rcases h with h | h | h
    · exact h ht
    · omega
    · omega
  simp [get_event, ha, get_event_keyboard]

theorem axis_ambiguous_band_suppressed_witness :
    (axis_sample 0 5000).type = SDL_JOYAXISMOTION
    ∧ 1000 < |(axis_sample 0 5000).jaxis_value|
    ∧ |(axis_sample 0 5000).jaxis_value| < 10000
    ∧ get_event (fun _ => false) ⟨[axis_sample 0 5000], (1, 0), ∅⟩
      = (some ⟨{ axis_sample 0 5000 with type := SDL_LASTEVENT }⟩, ⟨[], (1, 0), ∅⟩) :=
  ⟨rfl, by decide, by decide,
    axis_ambiguous_band_suppressed (fun _ => false) (axis_sample 0 5000) [] (1, 0) ∅
      rfl (by decide) (by decide)⟩

/-- C4: for an axis sample outside the ambiguous band (`|v| <= 1000` or
`|v| >= 10000`) with classification `c`: when `c` is the state recorded in the
sample's slot `joypad_axis_state[axis % 2]`, the event is returned marked
suppressed and the state is unchanged; otherwise the raw sample is returned
as it is (an accepted axis event) and `c` is stored in that slot, the other
slot being untouched. -/
theorem axis_state_deduplication (keys_state : KeyboardKey → Bool)
    (raw : SDL_Event) (rest : List SDL_Event) (ax : Int × Int) (kp : Finset KeyboardKey)
    (ht : raw.type = SDL_JOYAXISMOTION)
    (hb : |raw.jaxis_value| ≤ 1000 ∨ 10000 ≤ |raw.jaxis_value|) :
    (axis_get ax (raw.jaxis_axis % 2) = classify_axis raw.jaxis_value →
      get_event keys_state ⟨raw :: rest, ax, kp⟩
        = (some ⟨{ raw with type := SDL_LASTEVENT }⟩, ⟨rest, ax, kp⟩))
    ∧ (axis_get ax (raw.jaxis_axis % 2) ≠ classify_axis raw.jaxis_value →
      get_event keys_state ⟨raw :: rest, ax, kp⟩
        = (some ⟨raw⟩,
            ⟨rest, axis_set ax (raw.jaxis_axis % 2) (classify_axis raw.jaxis_value), kp⟩)
      ∧ axis_get (axis_set ax (raw.jaxis_axis % 2) (classify_axis raw.jaxis_value))
          (raw.jaxis_axis % 2) = classify_axis raw.jaxis_value
      ∧ axis_get (axis_set ax (raw.jaxis_axis % 2) (classify_axis raw.jaxis_value))
          (1 - raw.jaxis_axis % 2) = axis_get ax (1 - raw.jaxis_axis % 2)) := by
  constructor
  · intro h
    exact get_event_axis_dup keys_state raw rest ax kp ht hb h
  · intro h
    exact ⟨get_event_axis_new keys_state raw rest ax kp ht hb h, axis_get_set_same _ _ _,
      axis_get_set_other _ _ _ (Nat.mod_lt _ (by decide))⟩

theorem axis_state_deduplication_witness :
    (axis_sample 0 12000).type = SDL_JOYAXISMOTION
    ∧ (|(axis_sample 0 12000).jaxis_value| ≤ 1000 ∨ 10000 ≤ |(axis_sample 0 12000).jaxis_value|)
    ∧ get_event (fun _ => false) ⟨[axis_sample 0 12000], (1, 0), ∅⟩
        = (some ⟨{ axis_sample 0 12000 with type := SDL_LASTEVENT }⟩, ⟨[], (1, 0), ∅⟩)
    ∧ get_event (fun _ => false) ⟨[axis_sample 0 12000], (0, 0), ∅⟩
        = (some ⟨axis_sample 0 12000⟩, ⟨[], (1, 0), ∅⟩) :=
  ⟨rfl, by decide,
    (axis_state_deduplication (fun _ => false) (axis_sample 0 12000) [] (1, 0) ∅
      rfl (by decide)).1 (by decide),
    ((axis_state_deduplication (fun _ => false) (axis_sample 0 12000) [] (0, 0) ∅
      rfl (by decide)).2 (by decide)).1⟩

/-- C5 (scenario A): from the initial axis state (both axes centered), the raw
axis-0 samples 12000, 12000, 500 give, in this order, an accepted axis event
whose state is positive, a suppressed duplicate, and an accepted axis event
whose state is centered; afterwards the state of axis 0 is centered. -/
theorem scenario_A (k1 k2 k3 : KeyboardKey → Bool) (kp : Finset KeyboardKey) :
    ∃ e1 e2 e3 s1 s2 s3,
      get_event k1 ⟨[axis_sample 0 12000, axis_sample 0 12000, axis_sample 0 500], (0, 0), kp⟩
        = (some e1, s1)
      ∧ get_event k2 s1 = (some e2, s2)
      ∧ get_event k3 s2 = (some e3, s3)
      ∧ e1.suppressed = false ∧ e1.is_joypad_axis_moved = true ∧ e1.get_joypad_axis_state = 1
      ∧ e2.suppressed = true
      ∧ e3.suppressed = false ∧ e3.is_joypad_axis_moved = true ∧ e3.get_joypad_axis_state = 0
      ∧ axis_get s1.joypad_axis_state 0 = 1
      ∧ axis_get s2.joypad_axis_state 0 = 1
      ∧ axis_get s3.joypad_axis_state 0 = 0
      ∧ s3.queue = [] := by
  refine ⟨⟨axis_sample 0 12000⟩, ⟨{ axis_sample 0 12000 with type := SDL_LASTEVENT }⟩,
    ⟨axis_sample 0 500⟩,
    ⟨[axis_sample 0 12000, axis_sample 0 500], (1, 0), kp⟩,
    ⟨[axis_sample 0 500], (1, 0), kp⟩, ⟨[], (0, 0), kp⟩, ?_, ?_, ?_,
    by decide, by decide, by decide, by decide, by decide, by decide, by decide,
    rfl, rfl, rfl, rfl⟩
  · exact get_event_axis_new k1 (axis_sample 0 12000) _ (0, 0) kp rfl (by decide) (by decide)
  · exact get_event_axis_dup k2 (axis_sample 0 12000) _ (1, 0) kp rfl (by decide) (by decide)
  · exact get_event_axis_new k3 (axis_sample 0 500) _ (1, 0) kp rfl (by decide) (by decide)

/-- C6, the claim as stated fails: from the initial state the axis-0 samples
12000, 12000, 12000 leave, after the first call, a state in which axis 0 is
already positive; the next two consecutive samples (same axis, same sign, both
of magnitude at least 10000) are then both suppressed, so they do not yield
one accepted event and one suppressed duplicate. -/
theorem two_same_sign_samples_both_suppressed :
    (get_event (fun _ => false)
        ⟨[axis_sample 0 12000, axis_sample 0 12000, axis_sample 0 12000], (0, 0), ∅⟩).2
      = ⟨[axis_sample 0 12000, axis_sample 0 12000], (1, 0), ∅⟩
    ∧ (run [Action.call (fun _ => false), Action.call (fun _ => false)]
        (⟨[axis_sample 0 12000, axis_sample 0 12000], (1, 0), ∅⟩, [])).2
      = [⟨{ axis_sample 0 12000 with type := SDL_LASTEVENT }⟩,
         ⟨{ axis_sample 0 12000 with type := SDL_LASTEVENT }⟩]
    ∧ ¬ (List.countP (fun e => !e.suppressed)
          (run [Action.call (fun _ => false), Action.call (fun _ => false)]
            (⟨[axis_sample 0 12000, axis_sample 0 12000], (1, 0), ∅⟩, [])).2 = 1
        ∧ List.countP InputEvent.suppressed
          (run [Action.call (fun _ => false), Action.call (fun _ => false)]
            (⟨[axis_sample 0 12000, axis_sample 0 12000], (1, 0), ∅⟩, [])).2 = 1) := by
  decide

/-- C6 (amended): for two consecutive raw samples on the same axis, both of
magnitude at least 10000 and of the same sign: when the state recorded for
that axis's slot differs from their classification, the first is returned as
an accepted event and the second as a suppressed duplicate (exactly one
accepted and one suppressed); when the slot already holds that
classification, both are returned suppressed. -/
theorem two_same_sign_samples (k1 k2 : KeyboardKey → Bool) (raw1 raw2 : SDL_Event)
    (rest : List SDL_Event) (ax : Int × Int) (kp : Finset KeyboardKey)
    (ht1 : raw1.type = SDL_JOYAXISMOTION) (ht2 : raw2.type = SDL_JOYAXISMOTION)
    (hax : raw1.jaxis_axis = raw2.jaxis_axis)
    (h1 : 10000 ≤ |raw1.jaxis_value|) (h2 : 10000 ≤ |raw2.jaxis_value|)
    (hs : 0 < raw1.jaxis_value ↔ 0 < raw2.jaxis_value) :
    (axis_get ax (raw1.jaxis_axis % 2) ≠ classify_axis raw1.jaxis_value →
      (run [Action.call k1, Action.call k2] (⟨raw1 :: raw2 :: rest, ax, kp⟩, [])).2
        = [⟨raw1⟩, ⟨{ raw2 with type := SDL_LASTEVENT }⟩]
      ∧ List.countP (fun e => !e.suppressed)
          (run [Action.call k1, Action.call k2] (⟨raw1 :: raw2 :: rest, ax, kp⟩, [])).2 = 1
      ∧ List.countP InputEvent.suppressed
          (run [Action.call k1, Action.call k2] (⟨raw1 :: raw2 :: rest, ax, kp⟩, [])).2 = 1)
    ∧ (axis_get ax (raw1.jaxis_axis % 2) = classify_axis raw1.jaxis_value →
      (run [Action.call k1, Action.call k2] (⟨raw1 :: raw2 :: rest, ax, kp⟩, [])).2
        = [⟨{ raw1 with type := SDL_LASTEVENT }⟩, ⟨{ raw2 with type := SDL_LASTEVENT }⟩]) := by
  have hc := classify_axis_same_sign _ _ h1 h2 hs
  constructor
  · intro hne
    have e1 := get_event_axis_new k1 raw1 (raw2 :: rest) ax kp ht1 (Or.inr h1) hne
    have e2 := get_event_axis_dup k2 raw2 rest
      (axis_set ax (raw1.jaxis_axis % 2) (classify_axis raw1.jaxis_value)) kp ht2 (Or.inr h2)
      (by rw [← hax, axis_get_set_same, hc])
    have hr : (run [Action.call k1, Action.call k2] (⟨raw1 :: raw2 :: rest, ax, kp⟩, [])).2
        = [⟨raw1⟩, ⟨{ raw2 with type := SDL_LASTEVENT }⟩] := by
      simp [run, e1, e2]
    rw [hr]
    refine ⟨rfl, ?_, ?_⟩
    · simp [List.countP_cons, suppressed_retagged, suppressed_axis raw1 ht1]
    · simp [List.countP_cons, suppressed_retagged, suppressed_axis raw1 ht1]
  · intro heq
    have e1 := get_event_axis_dup k1 raw1 (raw2 :: rest) ax kp ht1 (Or.inr h1) heq
    have e2 := get_event_axis_dup k2 raw2 rest ax kp ht2 (Or.inr h2)
      (by rw [← hax, hc]; exact heq)
    simp [run, e1, e2]

theorem two_same_sign_samples_witness :
    (axis_sample 0 12000).type = SDL_JOYAXISMOTION
    ∧ (axis_sample 0 15000).type = SDL_JOYAXISMOTION
    ∧ (axis_sample 0 12000).jaxis_axis = (axis_sample 0 15000).jaxis_axis
    ∧ 10000 ≤ |(axis_sample 0 12000).jaxis_value|
    ∧ 10000 ≤ |(axis_sample 0 15000).jaxis_value|
    ∧ (0 < (axis_sample 0 12000).jaxis_value ↔ 0 < (axis_sample 0 15000).jaxis_value)
    ∧ (run [Action.call (fun _ => false), Action.call (fun _ => false)]
        (⟨[axis_sample 0 12000, axis_sample 0 15000], (0, 0), ∅⟩, [])).2
      = [⟨axis_sample 0 12000⟩, ⟨{ axis_sample 0 15000 with type := SDL_LASTEVENT }⟩]
    ∧ (run [Action.call (fun _ => false), Action.call (fun _ => false)]
        (⟨[axis_sample 0 12000, axis_sample 0 15000], (1, 0), ∅⟩, [])).2
      = [⟨{ axis_sample 0 12000 with type := SDL_LASTEVENT }⟩,
         ⟨{ axis_sample 0 15000 with type := SDL_LASTEVENT }⟩] :=
  ⟨rfl, rfl, rfl, by decide, by decide, by decide,
    ((two_same_sign_samples (fun _ => false) (fun _ => false) (axis_sample 0 12000)
      (axis_sample 0 15000) [] (0, 0) ∅ rfl rfl rfl (by decide) (by decide) (by decide)).1
      (by decide)).1,
    (two_same_sign_samples (fun _ => false) (fun _ => false) (axis_sample 0 12000)
      (axis_sample 0 15000) [] (1, 0) ∅ rfl rfl rfl (by decide) (by decide) (by decide)).2
      (by decide)⟩

/-- C7: for an axis event, `get_joypad_axis_state()` is `1` when
`|value| >= 10000` and `value > 0`, `-1` when `|value| >= 10000` and not
`value > 0`, and `0` when `|value| < 10000`; so for `|value| >= 10000` the
reported state is positive exactly when `value > 0`. -/
theorem get_joypad_axis_state_sign (e : InputEvent) (h : e.is_joypad_axis_moved = true) :
    (10000 ≤ |e.internal_event.jaxis_value| → 0 < e.internal_event.jaxis_value →
        e.get_joypad_axis_state = 1)
    ∧ (10000 ≤ |e.internal_event.jaxis_value| → ¬ 0 < e.internal_event.jaxis_value →
        e.get_joypad_axis_state = -1)
    ∧ (|e.internal_event.jaxis_value| < 10000 → e.get_joypad_axis_state = 0)
    ∧ (10000 ≤ |e.internal_event.jaxis_value| →
        (0 < e.get_joypad_axis_state ↔ 0 < e.internal_event.jaxis_value)) := by
  have hst : e.get_joypad_axis_state = classify_axis e.internal_event.jaxis_value := by
    unfold InputEvent.get_joypad_axis_state
    rw [h]
    simp only [Bool.not_true, Bool.false_eq_true, if_false]
    exact classify_axis_eq _
  rw [hst]
  unfold classify_axis
  refine ⟨?_, ?_, ?_, ?_⟩
  · intro h1 h2
    rw [if_neg (not_lt.mpr h1), if_pos h2]
  · intro h1 h2
    rw [if_neg (not_lt.mpr h1), if_neg h2]
  · intro h1
    rw [if_pos h1]
  · intro h1
    rw [if_neg (not_lt.mpr h1)]
    by_cases h2 : 0 < e.internal_event.jaxis_value
    · rw [if_pos h2]; simp [h2]
    · rw [if_neg h2]; simp [h2]

theorem get_joypad_axis_state_sign_witness :
    InputEvent.is_joypad_axis_moved ⟨axis_sample 0 10000⟩ = true
    ∧ InputEvent.get_joypad_axis_state ⟨axis_sample 0 10000⟩ = 1
    ∧ InputEvent.get_joypad_axis_state ⟨axis_sample 0 (-10000)⟩ = -1
    ∧ InputEvent.get_joypad_axis_state ⟨axis_sample 1 (-32768)⟩ = -1
    ∧ InputEvent.get_joypad_axis_state ⟨axis_sample 1 9999⟩ = 0 :=
  ⟨rfl,
    (get_joypad_axis_state_sign ⟨axis_sample 0 10000⟩ rfl).1 (by decide) (by decide),
    (get_joypad_axis_state_sign ⟨axis_sample 0 (-10000)⟩ rfl).2.1 (by decide) (by decide),
    (get_joypad_axis_state_sign ⟨axis_sample 1 (-32768)⟩ rfl).2.1 (by decide) (by decide),
    (get_joypad_axis_state_sign ⟨axis_sample 1 9999⟩ rfl).2.2.1 (by decide)⟩

/-- C8: in every state reached from an initial one (both axes centered, no
event returned yet) by any sequence of `get_event` calls, interleaved with
arrivals of raw samples, each slot of `joypad_axis_state` holds `-1`, `0` or
`1` and equals the classification of the most recently accepted axis event of
that slot, or centered when none was accepted. -/
theorem axis_state_is_last_accepted (q : List SDL_Event) (kp : Finset KeyboardKey)
    (actions : List Action) :
    ((run actions (⟨q, (0, 0), kp⟩, [])).1.joypad_axis_state.1
        = last_accepted_axis_state 0 (run actions (⟨q, (0, 0), kp⟩, [])).2
      ∧ (run actions (⟨q, (0, 0), kp⟩, [])).1.joypad_axis_state.2
        = last_accepted_axis_state 1 (run actions (⟨q, (0, 0), kp⟩, [])).2)
    ∧ ((run actions (⟨q, (0, 0), kp⟩, [])).1.joypad_axis_state.1 = -1
      ∨ (run actions (⟨q, (0, 0), kp⟩, [])).1.joypad_axis_state.1 = 0
      ∨ (run actions (⟨q, (0, 0), kp⟩, [])).1.joypad_axis_state.1 = 1)
    ∧ ((run actions (⟨q, (0, 0), kp⟩, [])).1.joypad_axis_state.2 = -1
      ∨ (run actions (⟨q, (0, 0), kp⟩, [])).1.joypad_axis_state.2 = 0
      ∨ (run actions (⟨q, (0, 0), kp⟩, [])).1.joypad_axis_state.2 = 1) := by
  have h := run_axis_invariant actions (⟨q, (0, 0), kp⟩, []) rfl rfl
  refine ⟨h, ?_, ?_⟩
  · rw [h.1]; exact last_accepted_axis_state_range _ _
  · rw [h.2]; exact last_accepted_axis_state_range _ _

/-- C9: a raw key-down sample whose key the live keyboard state reports as not
held is returned marked suppressed (type `SDL_LASTEVENT`), and `keys_pressed`
(as well as the axis state) is unchanged, whether or not the key was in the
set. -/
theorem key_down_not_held_suppressed (keys_state : KeyboardKey → Bool)
    (raw : SDL_Event) (rest : List SDL_Event) (ax : Int × Int) (kp : Finset KeyboardKey)
    (ht : raw.type = SDL_KEYDOWN) (hk : keys_state raw.key_sym = false) :
    get_event keys_state ⟨raw :: rest, ax, kp⟩
      = (some ⟨{ raw with type := SDL_LASTEVENT }⟩, ⟨rest, ax, kp⟩) := by
  have ha := get_event_axis_other raw ax (by rw [ht]; decide)
  simp [get_event, ha, get_event_keyboard, ht, hk]

theorem key_down_not_held_suppressed_witness :
    (key_sample SDL_KEYDOWN 7 0).type = SDL_KEYDOWN
    ∧ (fun _ => false) (key_sample SDL_KEYDOWN 7 0).key_sym = false
    ∧ get_event (fun _ => false) ⟨[key_sample SDL_KEYDOWN 7 0], (0, 0), {7}⟩
        = (some ⟨{ key_sample SDL_KEYDOWN 7 0 with type := SDL_LASTEVENT }⟩, ⟨[], (0, 0), {7}⟩)
    ∧ get_event (fun _ => false) ⟨[key_sample SDL_KEYDOWN 7 0], (0, 0), ∅⟩
        = (some ⟨{ key_sample SDL_KEYDOWN 7 0 with type := SDL_LASTEVENT }⟩, ⟨[], (0, 0), ∅⟩) :=
  ⟨rfl, rfl,
    key_down_not_held_suppressed (fun _ => false) (key_sample SDL_KEYDOWN 7 0) [] (0, 0) {7}
      rfl rfl,
    key_down_not_held_suppressed (fun _ => false) (key_sample SDL_KEYDOWN 7 0) [] (0, 0) ∅
      rfl rfl⟩

/-- C10: a raw key-down sample whose key is physically held and already in
`keys_pressed` is returned not suppressed (it stays a key-down event) with its
repeat flag set to `1`, and `keys_pressed` is unchanged. -/
theorem key_down_held_known_marked_repeat (keys_state : KeyboardKey → Bool)
    (raw : SDL_Event) (rest : List SDL_Event) (ax : Int × Int) (kp : Finset KeyboardKey)
    (ht : raw.type = SDL_KEYDOWN) (hk : keys_state raw.key_sym = true)
    (hm : raw.key_sym ∈ kp) :
    get_event keys_state ⟨raw :: rest, ax, kp⟩
      = (some ⟨{ raw with key_repeat := 1 }⟩, ⟨rest, ax, kp⟩)
    ∧ ({ raw with key_repeat := 1 } : SDL_Event).type = SDL_KEYDOWN
    ∧ InputEvent.suppressed ⟨{ raw with key_repeat := 1 }⟩ = false
    ∧ ({ raw with key_repeat := 1 } : SDL_Event).key_repeat = 1 := by
  have ha := get_event_axis_other raw ax (by rw [ht]; decide)
  refine ⟨?_, ht, ?_, rfl⟩
  · simp [get_event, ha, get_event_keyboard, ht, hk, set_insert, hm]
  · simp [InputEvent.suppressed, ht]

theorem key_down_held_known_marked_repeat_witness :
    (key_sample SDL_KEYDOWN 7 0).type = SDL_KEYDOWN
    ∧ (fun _ => true) (key_sample SDL_KEYDOWN 7 0).key_sym = true
    ∧ (key_sample SDL_KEYDOWN 7 0).key_sym ∈ ({7} : Finset KeyboardKey)
    ∧ get_event (fun _ => true) ⟨[key_sample SDL_KEYDOWN 7 0], (0, 0), {7}⟩
        = (some ⟨key_sample SDL_KEYDOWN 7 1⟩, ⟨[], (0, 0), {7}⟩) :=
  ⟨rfl, rfl, by decide,
    (key_down_held_known_marked_repeat (fun _ => true) (key_sample SDL_KEYDOWN 7 0) []
      (0, 0) {7} rfl rfl (by decide)).1⟩

/-- C11, the claim as stated fails: a raw key-down sample of the up key that
arrives with its repeat flag set, while the key is held and not in
`keys_pressed`, is returned non-suppressed and the key is inserted, but with
repeat delivery disabled `is_keyboard_key_pressed()` is false and
`get_direction()` is `-1`. -/
theorem key_down_up_repeat_flag_not_pressed :
    get_event (fun _ => true) ⟨[key_sample SDL_KEYDOWN sdl_keys.KEY_UP 1], (0, 0), ∅⟩
      = (some ⟨key_sample SDL_KEYDOWN sdl_keys.KEY_UP 1⟩, ⟨[], (0, 0), {sdl_keys.KEY_UP}⟩)
    ∧ InputEvent.is_keyboard_key_pressed ⟨key_sample SDL_KEYDOWN sdl_keys.KEY_UP 1⟩ false = false
    ∧ InputEvent.get_direction ⟨key_sample SDL_KEYDOWN sdl_keys.KEY_UP 1⟩ sdl_keys false = -1 := by
  decide

/-- C11 (amended, scenario B): for a raw key-down sample of the up key whose
repeat flag is clear, or with repeat delivery enabled, while the key is held
and not in `keys_pressed`: `get_event` returns the sample as an accepted press
event (`is_keyboard_key_pressed()` is true), its `get_direction()` is `2`, and
`keys_pressed` afterwards contains the up key and is otherwise unchanged. -/
theorem scenario_B (K : Keys) (hd : K.distinct) (keys_state : KeyboardKey → Bool)
    (raw : SDL_Event) (rest : List SDL_Event) (ax : Int × Int) (kp : Finset KeyboardKey)
    (rk : Bool)
    (ht : raw.type = SDL_KEYDOWN) (hu : raw.key_sym = K.KEY_UP)
    (hk : keys_state K.KEY_UP = true) (hm : K.KEY_UP ∉ kp)
    (hr : raw.key_repeat = 0 ∨ rk = true) :
    get_event keys_state ⟨raw :: rest, ax, kp⟩
      = (some ⟨raw⟩, ⟨rest, ax, insert K.KEY_UP kp⟩)
    ∧ InputEvent.suppressed ⟨raw⟩ = false
    ∧ InputEvent.is_keyboard_key_pressed ⟨raw⟩ rk = true
    ∧ InputEvent.get_direction ⟨raw⟩ K rk = 2
    ∧ K.KEY_UP ∈ insert K.KEY_UP kp
    ∧ ∀ key, key ≠ K.KEY_UP → (key ∈ insert K.KEY_UP kp ↔ key ∈ kp) := by
  have hp : InputEvent.is_keyboard_key_pressed ⟨raw⟩ rk = true :=
    (is_keyboard_key_pressed_iff ⟨raw⟩ rk).mpr ⟨ht, hr⟩
  have hdir : InputEvent.is_keyboard_direction_key_pressed ⟨raw⟩ K rk = true :=
    (is_keyboard_direction_key_pressed_iff ⟨raw⟩ K rk hd).mpr ⟨hp, Or.inr (Or.inl hu)⟩
  have hg := get_event_key_down_fresh keys_state raw rest ax kp ht (by rw [hu]; exact hk)
    (by rw [hu]; exact hm)
  rw [hu] at hg
  refine ⟨hg, by simp [InputEvent.suppressed, ht], hp, ?_, Finset.mem_insert_self _ _, ?_⟩
  · rw [get_direction_of_direction_key ⟨raw⟩ K rk hdir]
    simp only [Keys.distinct, List.nodup_cons, List.mem_cons, List.mem_singleton, not_or,
      List.not_mem_nil, not_false_eq_true, List.nodup_nil, and_true] at hd
    have hne : K.KEY_UP ≠ K.KEY_RIGHT := fun h => hd.1.1 h.symm
    simp [hu, hne]
  · intro key hkey
    simp [Finset.mem_insert, hkey]

theorem scenario_B_witness :
    sdl_keys.distinct
    ∧ (key_sample SDL_KEYDOWN sdl_keys.KEY_UP 0).type = SDL_KEYDOWN
    ∧ (key_sample SDL_KEYDOWN sdl_keys.KEY_UP 0).key_sym = sdl_keys.KEY_UP
    ∧ (fun _ => true) sdl_keys.KEY_UP = true
    ∧ sdl_keys.KEY_UP ∉ (∅ : Finset KeyboardKey)
    ∧ get_event (fun _ => true) ⟨[key_sample SDL_KEYDOWN sdl_keys.KEY_UP 0], (0, 0), ∅⟩
        = (some ⟨key_sample SDL_KEYDOWN sdl_keys.KEY_UP 0⟩,
            ⟨[], (0, 0), insert sdl_keys.KEY_UP ∅⟩)
    ∧ InputEvent.get_direction ⟨key_sample SDL_KEYDOWN sdl_keys.KEY_UP 0⟩ sdl_keys false = 2 :=
  ⟨by decide, rfl, rfl, rfl, by decide,
    (scenario_B sdl_keys (by decide) (fun _ => true) (key_sample SDL_KEYDOWN sdl_keys.KEY_UP 0)
      [] (0, 0) ∅ false rfl rfl rfl (by decide) (Or.inl rfl)).1,
    (scenario_B sdl_keys (by decide) (fun _ => true) (key_sample SDL_KEYDOWN sdl_keys.KEY_UP 0)
      [] (0, 0) ∅ false rfl rfl rfl (by decide) (Or.inl rfl)).2.2.2.1⟩

/-- C12: for a raw key-up sample: if the key is still held, the event is
returned suppressed and `keys_pressed` is unchanged; if the key is not held
and absent from `keys_pressed`, the event is returned non-suppressed (still a
key-up) with its repeat flag set to `1` and `keys_pressed` is unchanged; if
the key is not held and present, it is removed from `keys_pressed` (nothing
else is) and the raw sample is returned as it is, repeat flag untouched. -/
theorem key_up_sanity_check (keys_state : KeyboardKey → Bool)
    (raw : SDL_Event) (rest : List SDL_Event) (ax : Int × Int) (kp : Finset KeyboardKey)
    (ht : raw.type = SDL_KEYUP) :
    (keys_state raw.key_sym = true →
      get_event keys_state ⟨raw :: rest, ax, kp⟩
        = (some ⟨{ raw with type := SDL_LASTEVENT }⟩, ⟨rest, ax, kp⟩))
    ∧ (keys_state raw.key_sym = false → raw.key_sym ∉ kp →
      get_event keys_state ⟨raw :: rest, ax, kp⟩
        = (some ⟨{ raw with key_repeat := 1 }⟩, ⟨rest, ax, kp⟩)
      ∧ InputEvent.suppressed ⟨{ raw with key_repeat := 1 }⟩ = false
      ∧ ({ raw with key_repeat := 1 } : SDL_Event).type = SDL_KEYUP)
    ∧ (keys_state raw.key_sym = false → raw.key_sym ∈ kp →
      get_event keys_state ⟨raw :: rest, ax, kp⟩
        = (some ⟨raw⟩, ⟨rest, ax, kp.erase raw.key_sym⟩)
      ∧ raw.key_sym ∉ kp.erase raw.key_sym
      ∧ ∀ key, key ≠ raw.key_sym → (key ∈ kp.erase raw.key_sym ↔ key ∈ kp)) := by
  refine ⟨fun hk => get_event_key_up_held keys_state raw rest ax kp ht hk, ?_, ?_⟩
  · intro hk hm
    exact ⟨get_event_key_up_absent keys_state raw rest ax kp ht hk hm,
      by simp [InputEvent.suppressed, ht], ht⟩
  · intro hk hm
    refine ⟨get_event_key_up_present keys_state raw rest ax kp ht hk hm,
      Finset.not_mem_erase _ _, ?_⟩
    intro key hkey
    simp [Finset.mem_erase, hkey]

theorem key_up_sanity_check_witness :
    (key_sample SDL_KEYUP 7 0).type = SDL_KEYUP
    ∧ get_event (fun _ => true) ⟨[key_sample SDL_KEYUP 7 0], (0, 0), {7}⟩
        = (some ⟨key_sample SDL_LASTEVENT 7 0⟩, ⟨[], (0, 0), {7}⟩)
    ∧ get_event (fun _ => false) ⟨[key_sample SDL_KEYUP 7 0], (0, 0), {5}⟩
        = (some ⟨key_sample SDL_KEYUP 7 1⟩, ⟨[], (0, 0), {5}⟩)
    ∧ get_event (fun _ => false) ⟨[key_sample SDL_KEYUP 7 0], (0, 0), {5, 7}⟩
        = (some ⟨key_sample SDL_KEYUP 7 0⟩, ⟨[], (0, 0), Finset.erase {5, 7} 7⟩) :=
  ⟨rfl,
    (key_up_sanity_check (fun _ => true) (key_sample SDL_KEYUP 7 0) [] (0, 0) {7} rfl).1 rfl,
    ((key_up_sanity_check (fun _ => false) (key_sample SDL_KEYUP 7 0) [] (0, 0) {5} rfl).2.1
      rfl (by decide)).1,
    ((key_up_sanity_check (fun _ => false) (key_sample SDL_KEYUP 7 0) [] (0, 0) {5, 7} rfl).2.2
      rfl (by decide)).1⟩

/-- C13: in every state reached from an initial one with `keys_pressed` empty
(no event returned yet) by any sequence of `get_event` calls, interleaved with
arrivals of raw samples, a key is in `keys_pressed` if and only if the last
non-suppressed keyboard event (type `SDL_KEYDOWN` or `SDL_KEYUP`) returned for
that key was a key-down. -/
theorem keys_pressed_is_last_transition (q : List SDL_Event) (ax : Int × Int)
    (actions : List Action) (key : KeyboardKey) :
    key ∈ (run actions (⟨q, ax, ∅⟩, [])).1.keys_pressed
      ↔ last_keyboard_type key (run actions (⟨q, ax, ∅⟩, [])).2 = some SDL_KEYDOWN := by
  apply run_keys_invariant
  intro key'
  simp [last_keyboard_type]

/-- C14: `is_keyboard_key_pressed()` is true iff the event is a key-down and
its repeat flag is clear or repeat delivery is enabled; `is_keyboard_key_released()`
is true iff the event is a key-up under the same gate; and a key-down sample
for a key already in `keys_pressed` gives, with repeat delivery disabled, an
event for which `is_keyboard_key_pressed()` is false. -/
theorem repeat_policy_gate (e : InputEvent) (rk : Bool) :
    (e.is_keyboard_key_pressed rk = true
      ↔ e.internal_event.type = SDL_KEYDOWN
        ∧ (e.internal_event.key_repeat = 0 ∨ rk = true))
    ∧ (e.is_keyboard_key_released rk = true
      ↔ e.internal_event.type = SDL_KEYUP
        ∧ (e.internal_event.key_repeat = 0 ∨ rk = true))
    ∧ ∀ (keys_state : KeyboardKey → Bool) (raw : SDL_Event) (rest : List SDL_Event)
        (ax : Int × Int) (kp : Finset KeyboardKey),
        raw.type = SDL_KEYDOWN → raw.key_sym ∈ kp →
        ∃ ev s', get_event keys_state ⟨raw :: rest, ax, kp⟩ = (some ev, s')
          ∧ ev.is_keyboard_key_pressed false = false := by
  refine ⟨is_keyboard_key_pressed_iff e rk, is_keyboard_key_released_iff e rk, ?_⟩
  intro keys_state raw rest ax kp ht hm
  cases hk : keys_state raw.key_sym with
  | false =>
    exact ⟨_, _, get_event_key_down_not_held keys_state raw rest ax kp ht hk,
      by simp [InputEvent.is_keyboard_key_pressed]⟩
  | true =>
    exact ⟨_, _, get_event_key_down_known keys_state raw rest ax kp ht hk hm,
      by simp [InputEvent.is_keyboard_key_pressed]⟩

theorem repeat_policy_gate_witness :
    (key_sample SDL_KEYDOWN sdl_keys.KEY_UP 0).type = SDL_KEYDOWN
    ∧ (key_sample SDL_KEYDOWN sdl_keys.KEY_UP 0).key_sym ∈ ({sdl_keys.KEY_UP} : Finset KeyboardKey)
    ∧ ∃ ev s', get_event (fun _ => true)
          ⟨[key_sample SDL_KEYDOWN sdl_keys.KEY_UP 0], (0, 0), {sdl_keys.KEY_UP}⟩ = (some ev, s')
        ∧ ev.is_keyboard_key_pressed false = false :=
  ⟨rfl, by decide,
    (repeat_policy_gate ⟨key_sample SDL_KEYDOWN sdl_keys.KEY_UP 0⟩ false).2.2 (fun _ => true)
      (key_sample SDL_KEYDOWN sdl_keys.KEY_UP 0) [] (0, 0) {sdl_keys.KEY_UP} rfl (by decide)⟩

/-- C15, the claim as stated fails: the event returned for a key-down of the
up key, held and already in `keys_pressed`, carries the repeat flag; it is not
a key press while repeat delivery is disabled and becomes one, with
`get_keyboard_key()` changing from `KEY_NONE` to the up key, once
`set_key_repeat(true)` is called after the event was returned. -/
theorem set_key_repeat_changes_returned_event :
    get_event (fun _ => true)
        ⟨[key_sample SDL_KEYDOWN sdl_keys.KEY_UP 0], (0, 0), {sdl_keys.KEY_UP}⟩
      = (some ⟨key_sample SDL_KEYDOWN sdl_keys.KEY_UP 1⟩, ⟨[], (0, 0), {sdl_keys.KEY_UP}⟩)
    ∧ InputEvent.is_keyboard_event ⟨key_sample SDL_KEYDOWN sdl_keys.KEY_UP 1⟩ false = false
    ∧ InputEvent.is_keyboard_event ⟨key_sample SDL_KEYDOWN sdl_keys.KEY_UP 1⟩
        (set_key_repeat true false) = true
    ∧ InputEvent.is_keyboard_key_pressed ⟨key_sample SDL_KEYDOWN sdl_keys.KEY_UP 1⟩ false = false
    ∧ InputEvent.is_keyboard_key_pressed ⟨key_sample SDL_KEYDOWN sdl_keys.KEY_UP 1⟩
        (set_key_repeat true false) = true
    ∧ InputEvent.get_keyboard_key ⟨key_sample SDL_KEYDOWN sdl_keys.KEY_UP 1⟩ sdl_keys false
        = sdl_keys.KEY_NONE
    ∧ InputEvent.get_keyboard_key ⟨key_sample SDL_KEYDOWN sdl_keys.KEY_UP 1⟩ sdl_keys
        (set_key_repeat true false) = sdl_keys.KEY_UP := by
  decide

/-- C15 (amended): `set_key_repeat` only replaces the static flag, which the
queries read when they are called. For an event already returned, the results
of `is_keyboard_event`, `is_keyboard_key_pressed`, `is_keyboard_key_released`
and `get_keyboard_key` are the same before and after the call when the event
is not a key-down or key-up event, or its repeat flag is clear, or the new
setting equals the old one; for a key-down or key-up event whose repeat flag
is set, `is_keyboard_event` equals the new setting, and so does
`is_keyboard_key_pressed` of a key-down and `is_keyboard_key_released` of a
key-up. -/
theorem set_key_repeat_effect (e : InputEvent) (K : Keys) (rk b : Bool) :
    (((e.internal_event.type ≠ SDL_KEYDOWN ∧ e.internal_event.type ≠ SDL_KEYUP)
        ∨ e.internal_event.key_repeat = 0 ∨ b = rk) →
      e.is_keyboard_event (set_key_repeat b rk) = e.is_keyboard_event rk
      ∧ e.is_keyboard_key_pressed (set_key_repeat b rk) = e.is_keyboard_key_pressed rk
      ∧ e.is_keyboard_key_released (set_key_repeat b rk) = e.is_keyboard_key_released rk
      ∧ e.get_keyboard_key K (set_key_repeat b rk) = e.get_keyboard_key K rk)
    ∧ ((e.internal_event.type = SDL_KEYDOWN ∨ e.internal_event.type = SDL_KEYUP) →
        e.internal_event.key_repeat ≠ 0 →
      e.is_keyboard_event (set_key_repeat b rk) = b
      ∧ (e.internal_event.type = SDL_KEYDOWN →
          e.is_keyboard_key_pressed (set_key_repeat b rk) = b)
      ∧ (e.internal_event.type = SDL_KEYUP →
          e.is_keyboard_key_released (set_key_repeat b rk) = b)) := by
  constructor
  · intro h
    rcases h with ⟨h1, h2⟩ | h | h
    · have h1b : (e.internal_event.type == SDL_KEYDOWN) = false := beq_eq_false_iff_ne.mpr h1
      have h2b : (e.internal_event.type == SDL_KEYUP) = false := beq_eq_false_iff_ne.mpr h2
      simp only [InputEvent.is_keyboard_event, InputEvent.is_keyboard_key_pressed,
        InputEvent.is_keyboard_key_released, InputEvent.get_keyboard_key, h1b, h2b,
        Bool.false_and, Bool.or_self, and_self]
    · simp [InputEvent.is_keyboard_event, InputEvent.is_keyboard_key_pressed,
        InputEvent.is_keyboard_key_released, InputEvent.get_keyboard_key, h]
    · simp [set_key_repeat, h]
  · intro h hr
    refine ⟨?_, ?_, ?_⟩
    · rcases h with h | h <;> simp [InputEvent.is_keyboard_event, set_key_repeat, h, hr]
    · intro h1
      simp [InputEvent.is_keyboard_key_pressed, set_key_repeat, h1, hr]
    · intro h1
      simp [InputEvent.is_keyboard_key_released, set_key_repeat, h1, hr]

theorem set_key_repeat_effect_witness :
    (key_sample SDL_KEYDOWN 7 0).key_repeat = 0
    ∧ InputEvent.is_keyboard_key_pressed ⟨key_sample SDL_KEYDOWN 7 0⟩ (set_key_repeat true false)
        = InputEvent.is_keyboard_key_pressed ⟨key_sample SDL_KEYDOWN 7 0⟩ false
    ∧ (key_sample SDL_KEYUP 7 1).key_repeat ≠ 0
    ∧ InputEvent.is_keyboard_event ⟨key_sample SDL_KEYUP 7 1⟩ (set_key_repeat true false) = true :=
  ⟨rfl,
    ((set_key_repeat_effect ⟨key_sample SDL_KEYDOWN 7 0⟩ sdl_keys false true).1
      (Or.inr (Or.inl rfl))).2.1,
    by decide,
    ((set_key_repeat_effect ⟨key_sample SDL_KEYUP 7 1⟩ sdl_keys false true).2
      (Or.inr rfl) (by decide)).1⟩

/-- C16, evaluation of the code: `is_valid()` is true exactly for the events
whose internal type is `SDL_LASTEVENT`, that is for the suppressed ones: the
accepted axis event returned for the sample 12000 from the initial state has
`is_valid()` false, and the suppressed event returned for the sample 5000 has
`is_valid()` true. -/
theorem is_valid_inverted :
    (∀ e : InputEvent, e.is_valid = true ↔ e.internal_event.type = SDL_LASTEVENT)
    ∧ get_event (fun _ => false) ⟨[axis_sample 0 12000], (0, 0), ∅⟩
        = (some ⟨axis_sample 0 12000⟩, ⟨[], (1, 0), ∅⟩)
    ∧ InputEvent.is_valid ⟨axis_sample 0 12000⟩ = false
    ∧ get_event (fun _ => false) ⟨[axis_sample 0 5000], (0, 0), ∅⟩
        = (some ⟨{ axis_sample 0 5000 with type := SDL_LASTEVENT }⟩, ⟨[], (0, 0), ∅⟩)
    ∧ InputEvent.is_valid ⟨{ axis_sample 0 5000 with type := SDL_LASTEVENT }⟩ = true := by
  refine ⟨?_, by decide, by decide, by decide, by decide⟩
  intro e
  simp [InputEvent.is_valid]

/-- C17: for an event that `get_event` marked suppressed (internal type
`SDL_LASTEVENT`), `is_keyboard_event`, `is_joypad_event`, `is_window_event`,
`is_character_pressed`, `is_pressed`, `is_released`, `is_direction_pressed`
and `is_window_closing` are all false and `get_direction()` is `-1`, for any
key enumerators and either repeat setting. -/
theorem suppressed_event_reports_nothing (e : InputEvent) (K : Keys) (rk : Bool)
    (h : e.internal_event.type = SDL_LASTEVENT) :
    e.is_keyboard_event rk = false
    ∧ e.is_joypad_event = false
    ∧ e.is_window_event = false
    ∧ e.is_character_pressed = false
    ∧ e.is_pressed K rk = false
    ∧ e.is_released rk = false
    ∧ e.is_direction_pressed K rk = false
    ∧ e.is_window_closing = false
    ∧ e.get_direction K rk = -1 := by
  have hp : e.is_keyboard_key_pressed rk = false := by
    simp [InputEvent.is_keyboard_key_pressed, h]
  have hdk : e.is_keyboard_direction_key_pressed K rk = false :=
    is_keyboard_key_pressed_keys_of_not_pressed e K rk hp _
  have ha : e.is_joypad_axis_moved = false := by simp [InputEvent.is_joypad_axis_moved, h]
  have hh : e.is_joypad_hat_moved = false := by simp [InputEvent.is_joypad_hat_moved, h]
  have hdp : e.is_direction_pressed K rk = false := by
    simp [InputEvent.is_direction_pressed, hdk, ha, hh]
  refine ⟨?_, ?_, ?_, ?_, ?_, ?_, hdp, ?_, get_direction_of_no_source e K rk hdk ha hh⟩
  · simp [InputEvent.is_keyboard_event, h]
  · simp [InputEvent.is_joypad_event, h]
  · simp [InputEvent.is_window_event, h]
  · simp [InputEvent.is_character_pressed, h]
  · simp [InputEvent.is_pressed, hp, hdp, InputEvent.is_joypad_button_pressed, h]
  · simp [InputEvent.is_released, InputEvent.is_keyboard_key_released,
      InputEvent.is_joypad_button_released, ha, hh, h]
  · simp [InputEvent.is_window_closing, h]

theorem suppressed_event_reports_nothing_witness :
    ({ axis_sample 0 5000 with type := SDL_LASTEVENT } : SDL_Event).type = SDL_LASTEVENT
    ∧ InputEvent.is_pressed ⟨{ axis_sample 0 5000 with type := SDL_LASTEVENT }⟩ sdl_keys true
        = false
    ∧ InputEvent.get_direction ⟨{ axis_sample 0 5000 with type := SDL_LASTEVENT }⟩ sdl_keys true
        = -1 :=
  ⟨rfl,
    (suppressed_event_reports_nothing ⟨{ axis_sample 0 5000 with type := SDL_LASTEVENT }⟩
      sdl_keys true rfl).2.2.2.2.1,
    (suppressed_event_reports_nothing ⟨{ axis_sample 0 5000 with type := SDL_LASTEVENT }⟩
      sdl_keys true rfl).2.2.2.2.2.2.2.2⟩

/-- C18: every accessor returns its neutral value when the event is not of
the matching category: `get_keyboard_key()` is `KEY_NONE` unless
`is_keyboard_event()`; `get_joypad_button()` is `-1` unless the event is a
joypad button press or release; `get_joypad_axis()` is `-1` and
`get_joypad_axis_state()` is `0` unless the event is an axis motion;
`get_joypad_hat()` and `get_joypad_hat_direction()` are `-1` unless the event
is a hat motion. In the matching category the first four return the payload
of the event. -/
theorem accessors_neutral_values (e : InputEvent) (K : Keys) (rk : Bool) :
    (e.is_keyboard_event rk = false → e.get_keyboard_key K rk = K.KEY_NONE)
    ∧ (e.is_joypad_button_pressed = false → e.is_joypad_button_released = false →
        e.get_joypad_button = -1)
    ∧ (e.is_joypad_axis_moved = false →
        e.get_joypad_axis = -1 ∧ e.get_joypad_axis_state = 0)
    ∧ (e.is_joypad_hat_moved = false →
        e.get_joypad_hat = -1 ∧ e.get_joypad_hat_direction = -1)
    ∧ (e.is_keyboard_event rk = true → e.get_keyboard_key K rk = e.internal_event.key_sym)
    ∧ (e.is_joypad_button_pressed = true ∨ e.is_joypad_button_released = true →
        e.get_joypad_button = (e.internal_event.jbutton_button : Int))
    ∧ (e.is_joypad_axis_moved = true →
        e.get_joypad_axis = (e.internal_event.jaxis_axis : Int))
    ∧ (e.is_joypad_hat_moved = true →
        e.get_joypad_hat = (e.internal_event.jhat_hat : Int)) := by
  refine ⟨?_, ?_, ?_, ?_, ?_, ?_, ?_, ?_⟩
  · intro h
    simp [InputEvent.get_keyboard_key, h]
  · intro h1 h2
    simp [InputEvent.get_joypad_button, h1, h2]
  · intro h
    simp [InputEvent.get_joypad_axis, InputEvent.get_joypad_axis_state, h]
  · intro h
    simp [InputEvent.get_joypad_hat, InputEvent.get_joypad_hat_direction, h]
  · intro h
    simp [InputEvent.get_keyboard_key, h]
  · intro h
    rcases h with h | h <;> simp [InputEvent.get_joypad_button, h]
  · intro h
    simp [InputEvent.get_joypad_axis, h]
  · intro h
    simp [InputEvent.get_joypad_hat, h]

theorem accessors_neutral_values_witness :
    InputEvent.is_keyboard_event ⟨axis_sample 1 12000⟩ false = false
    ∧ InputEvent.get_keyboard_key ⟨axis_sample 1 12000⟩ sdl_keys false = sdl_keys.KEY_NONE
    ∧ InputEvent.get_joypad_button ⟨axis_sample 1 12000⟩ = -1
    ∧ InputEvent.get_joypad_hat ⟨axis_sample 1 12000⟩ = -1
    ∧ InputEvent.get_joypad_hat_direction ⟨axis_sample 1 12000⟩ = -1
    ∧ InputEvent.get_joypad_axis ⟨axis_sample 1 12000⟩ = 1
    ∧ InputEvent.get_joypad_axis ⟨key_sample SDL_KEYDOWN 7 0⟩ = -1
    ∧ InputEvent.get_joypad_axis_state ⟨key_sample SDL_KEYDOWN 7 0⟩ = 0 :=
  ⟨rfl,
    (accessors_neutral_values ⟨axis_sample 1 12000⟩ sdl_keys false).1 rfl,
    (accessors_neutral_values ⟨axis_sample 1 12000⟩ sdl_keys false).2.1 rfl rfl,
    ((accessors_neutral_values ⟨axis_sample 1 12000⟩ sdl_keys false).2.2.2.1 rfl).1,
    ((accessors_neutral_values ⟨axis_sample 1 12000⟩ sdl_keys false).2.2.2.1 rfl).2,
    (accessors_neutral_values ⟨axis_sample 1 12000⟩ sdl_keys false).2.2.2.2.2.2.1 rfl,
    ((accessors_neutral_values ⟨key_sample SDL_KEYDOWN 7 0⟩ sdl_keys false).2.2.1 rfl).1,
    ((accessors_neutral_values ⟨key_sample SDL_KEYDOWN 7 0⟩ sdl_keys false).2.2.1 rfl).2⟩

/-- C19, evaluation of the code: `get_character()` returns the member
`text.text` whatever the type of the event. For a text-input event this is
the text of the event; for a key-down event whose bytes at the place of
`text.text` are not empty (there the first byte is the member `key.state`,
`SDL_PRESSED = 1`), the result is not the empty string. -/
theorem get_character_unguarded :
    (∀ e : InputEvent, e.get_character = e.internal_event.text_text)
    ∧ InputEvent.is_character_pressed ⟨{ key_sample SDL_KEYDOWN 7 0 with text_text := "\x01" }⟩
        = false
    ∧ InputEvent.get_character ⟨{ key_sample SDL_KEYDOWN 7 0 with text_text := "\x01" }⟩
        = "\x01"
    ∧ InputEvent.get_character ⟨{ key_sample SDL_KEYDOWN 7 0 with text_text := "\x01" }⟩
        ≠ "" := by
  refine ⟨fun _ => rfl, by decide, rfl, by decide⟩

/-- C20: for an event for which `is_keyboard_direction_key_pressed()` holds,
`get_direction()` is `0` for the right key, `2` for up, `4` for left and `6`
for down, whatever the axis and hat members of the event hold; and a key-down
event of a key that is none of the four never yields a direction
(`get_direction()` is `-1`). -/
theorem keyboard_direction_mapping (K : Keys) (hd : K.distinct) (e : InputEvent) (rk : Bool) :
    (e.is_keyboard_direction_key_pressed K rk = true →
      (e.get_keyboard_key K rk = K.KEY_RIGHT → e.get_direction K rk = 0)
      ∧ (e.get_keyboard_key K rk = K.KEY_UP → e.get_direction K rk = 2)
      ∧ (e.get_keyboard_key K rk = K.KEY_LEFT → e.get_direction K rk = 4)
      ∧ (e.get_keyboard_key K rk = K.KEY_DOWN → e.get_direction K rk = 6)
      ∧ (e.get_direction K rk = 0 ∨ e.get_direction K rk = 2
          ∨ e.get_direction K rk = 4 ∨ e.get_direction K rk = 6))
    ∧ (e.internal_event.type = SDL_KEYDOWN →
        e.internal_event.key_sym ≠ K.KEY_RIGHT → e.internal_event.key_sym ≠ K.KEY_UP →
        e.internal_event.key_sym ≠ K.KEY_LEFT → e.internal_event.key_sym ≠ K.KEY_DOWN →
        e.get_direction K rk = -1) := by
  have hd' := hd
  simp only [Keys.distinct, List.nodup_cons, List.mem_cons, List.mem_singleton, not_or,
    List.not_mem_nil, not_false_eq_true, List.nodup_nil, and_true] at hd'
  obtain ⟨⟨d1, d2, d3, -⟩, ⟨d4, d5, -⟩, ⟨d6, -⟩, -⟩ := hd'
  constructor
  · intro h
    have hdir := get_direction_of_direction_key e K rk h
    obtain ⟨hp, hkey⟩ := (is_keyboard_direction_key_pressed_iff e K rk hd).mp h
    rw [get_keyboard_key_of_pressed e K rk hp, hdir]
    refine ⟨?_, ?_, ?_, ?_, ?_⟩
    · intro c; simp [c]
    · intro c
      have : K.KEY_UP ≠ K.KEY_RIGHT := fun x => d1 x.symm
      simp [c, this]
    · intro c
      have h1 : K.KEY_LEFT ≠ K.KEY_RIGHT := fun x => d2 x.symm
      have h2 : K.KEY_LEFT ≠ K.KEY_UP := fun x => d4 x.symm
      simp [c, h1, h2]
    · intro c
      have h1 : K.KEY_DOWN ≠ K.KEY_RIGHT := fun x => d3 x.symm
      have h2 : K.KEY_DOWN ≠ K.KEY_UP := fun x => d5 x.symm
      have h3 : K.KEY_DOWN ≠ K.KEY_LEFT := fun x => d6 x.symm
      simp [c, h1, h2, h3]
    · rcases hkey with c | c | c | c
      · left; simp [c]
      · right; left
        have : K.KEY_UP ≠ K.KEY_RIGHT := fun x => d1 x.symm
        simp [c, this]
      · right; right; left
        have h1 : K.KEY_LEFT ≠ K.KEY_RIGHT := fun x => d2 x.symm
        have h2 : K.KEY_LEFT ≠ K.KEY_UP := fun x => d4 x.symm
        simp [c, h1, h2]
      · right; right; right
        have h1 : K.KEY_DOWN ≠ K.KEY_RIGHT := fun x => d3 x.symm
        have h2 : K.KEY_DOWN ≠ K.KEY_UP := fun x => d5 x.symm
        have h3 : K.KEY_DOWN ≠ K.KEY_LEFT := fun x => d6 x.symm
        simp [c, h1, h2, h3]
  · intro ht c1 c2 c3 c4
    have hdk : e.is_keyboard_direction_key_pressed K rk = false := by
      rw [← Bool.not_eq_true, is_keyboard_direction_key_pressed_iff e K rk hd]
      rintro ⟨-, c | c | c | c⟩
      · exact c1 c
      · exact c2 c
      · exact c3 c
      · exact c4 c
    exact get_direction_of_no_source e K rk hdk
      (by simp [InputEvent.is_joypad_axis_moved, ht])
      (by simp [InputEvent.is_joypad_hat_moved, ht])

theorem keyboard_direction_mapping_witness :
    sdl_keys.distinct
    ∧ InputEvent.is_keyboard_direction_key_pressed
        ⟨{ key_sample SDL_KEYDOWN sdl_keys.KEY_LEFT 0 with jaxis_value := 12000, jhat_value := 1 }⟩
        sdl_keys false = true
    ∧ InputEvent.get_direction
        ⟨{ key_sample SDL_KEYDOWN sdl_keys.KEY_LEFT 0 with jaxis_value := 12000, jhat_value := 1 }⟩
        sdl_keys false = 4
    ∧ InputEvent.get_direction ⟨key_sample SDL_KEYDOWN 32 0⟩ sdl_keys false = -1 :=
  ⟨by decide, by decide,
    ((keyboard_direction_mapping sdl_keys (by decide)
      ⟨{ key_sample SDL_KEYDOWN sdl_keys.KEY_LEFT 0 with jaxis_value := 12000, jhat_value := 1 }⟩
      false).1 (by decide)).2.2.1 (by decide),
    (keyboard_direction_mapping sdl_keys (by decide) ⟨key_sample SDL_KEYDOWN 32 0⟩ false).2
      rfl (by decide) (by decide) (by decide) (by decide)⟩

/-- C21: for an axis event with `|value| >= 10000`, `get_direction()` is `0`
when the axis index is even and the value positive, `4` when even and
negative, `6` when odd and positive, `2` when odd and negative; for a centered
axis event (`|value| < 10000`) it is `-1`. -/
theorem axis_direction_mapping (e : InputEvent) (K : Keys) (rk : Bool)
    (ht : e.internal_event.type = SDL_JOYAXISMOTION) :
    (10000 ≤ |e.internal_event.jaxis_value| →
      (e.internal_event.jaxis_axis % 2 = 0 → 0 < e.internal_event.jaxis_value →
        e.get_direction K rk = 0)
      ∧ (e.internal_event.jaxis_axis % 2 = 0 → e.internal_event.jaxis_value < 0 →
        e.get_direction K rk = 4)
      ∧ (e.internal_event.jaxis_axis % 2 = 1 → 0 < e.internal_event.jaxis_value →
        e.get_direction K rk = 6)
      ∧ (e.internal_event.jaxis_axis % 2 = 1 → e.internal_event.jaxis_value < 0 →
        e.get_direction K rk = 2))
    ∧ (|e.internal_event.jaxis_value| < 10000 → e.get_direction K rk = -1) := by
  have hdir := get_direction_of_axis_event e K rk ht
  constructor
  · intro hb
    have hc := classify_axis_of_big _ hb
    refine ⟨?_, ?_, ?_, ?_⟩
    · intro hpar hpos
      rw [hdir, hc]; simp [hpar, hpos]
    · intro hpar hneg
      have hnp : ¬ 0 < e.internal_event.jaxis_value := by omega
      rw [hdir, hc]; simp [hpar, hnp]
    · intro hpar hpos
      rw [hdir, hc]; simp [hpar, hpos]
    · intro hpar hneg
      have hnp : ¬ 0 < e.internal_event.jaxis_value := by omega
      rw [hdir, hc]; simp [hpar, hnp]
  · intro hs
    rw [hdir, classify_axis_of_small _ hs]; simp

theorem axis_direction_mapping_witness :
    (axis_sample 0 12000).type = SDL_JOYAXISMOTION
    ∧ InputEvent.get_direction ⟨axis_sample 0 12000⟩ sdl_keys false = 0
    ∧ InputEvent.get_direction ⟨axis_sample 2 (-32768)⟩ sdl_keys false = 4
    ∧ InputEvent.get_direction ⟨axis_sample 1 10000⟩ sdl_keys false = 6
    ∧ InputEvent.get_direction ⟨axis_sample 3 (-10000)⟩ sdl_keys false = 2
    ∧ InputEvent.get_direction ⟨axis_sample 1 9999⟩ sdl_keys false = -1 :=
  ⟨rfl,
    ((axis_direction_mapping ⟨axis_sample 0 12000⟩ sdl_keys false rfl).1 (by decide)).1
      (by decide) (by decide),
    ((axis_direction_mapping ⟨axis_sample 2 (-32768)⟩ sdl_keys false rfl).1 (by decide)).2.1
      (by decide) (by decide),
    ((axis_direction_mapping ⟨axis_sample 1 10000⟩ sdl_keys false rfl).1 (by decide)).2.2.1
      (by decide) (by decide),
    ((axis_direction_mapping ⟨axis_sample 3 (-10000)⟩ sdl_keys false rfl).1 (by decide)).2.2.2
      (by decide) (by decide),
    (axis_direction_mapping ⟨axis_sample 1 9999⟩ sdl_keys false rfl).2 (by decide)⟩

/-- C22: for a hat event, `get_direction()` is `get_joypad_hat_direction()`,
which is `0`, `1`, `2`, `3`, `4`, `5`, `6`, `7` for the hat values right,
right-up, up, left-up, left, left-down, down, right-down, and `-1` for the
centered value and for every other value. -/
theorem hat_direction_mapping (e : InputEvent) (K : Keys) (rk : Bool)
    (ht : e.internal_event.type = SDL_JOYHATMOTION) :
    e.get_direction K rk = e.get_joypad_hat_direction
    ∧ (e.internal_event.jhat_value = SDL_HAT_RIGHT → e.get_joypad_hat_direction = 0)
    ∧ (e.internal_event.jhat_value = SDL_HAT_RIGHTUP → e.get_joypad_hat_direction = 1)
    ∧ (e.internal_event.jhat_value = SDL_HAT_UP → e.get_joypad_hat_direction = 2)
    ∧ (e.internal_event.jhat_value = SDL_HAT_LEFTUP → e.get_joypad_hat_direction = 3)
    ∧ (e.internal_event.jhat_value = SDL_HAT_LEFT → e.get_joypad_hat_direction = 4)
    ∧ (e.internal_event.jhat_value = SDL_HAT_LEFTDOWN → e.get_joypad_hat_direction = 5)
    ∧ (e.internal_event.jhat_value = SDL_HAT_DOWN → e.get_joypad_hat_direction = 6)
    ∧ (e.internal_event.jhat_value = SDL_HAT_RIGHTDOWN → e.get_joypad_hat_direction = 7)
    ∧ (e.internal_event.jhat_value = SDL_HAT_CENTERED → e.get_joypad_hat_direction = -1)
    ∧ (e.internal_event.jhat_value ≠ SDL_HAT_RIGHT →
        e.internal_event.jhat_value ≠ SDL_HAT_RIGHTUP →
        e.internal_event.jhat_value ≠ SDL_HAT_UP →
        e.internal_event.jhat_value ≠ SDL_HAT_LEFTUP →
        e.internal_event.jhat_value ≠ SDL_HAT_LEFT →
        e.internal_event.jhat_value ≠ SDL_HAT_LEFTDOWN →
        e.internal_event.jhat_value ≠ SDL_HAT_DOWN →
        e.internal_event.jhat_value ≠ SDL_HAT_RIGHTDOWN →
        e.get_joypad_hat_direction = -1) := by
  have hv := get_joypad_hat_direction_of_hat_event e ht
  refine ⟨get_direction_of_hat_event e K rk ht, ?_, ?_, ?_, ?_, ?_, ?_, ?_, ?_, ?_, ?_⟩
  · intro h; rw [hv, h]; rfl
  · intro h; rw [hv, h]; rfl
  · intro h; rw [hv, h]; rfl
  · intro h; rw [hv, h]; rfl
  · intro h; rw [hv, h]; rfl
  · intro h; rw [hv, h]; rfl
  · intro h; rw [hv, h]; rfl
  · intro h; rw [hv, h]; rfl
  · intro h; rw [hv, h]; rfl
  · intro h1 h2 h3 h4 h5 h6 h7 h8
    rw [hv, if_neg h1, if_neg h2, if_neg h3, if_neg h4, if_neg h5, if_neg h6, if_neg h7,
      if_neg h8]

theorem hat_direction_mapping_witness :
    (hat_sample 0 SDL_HAT_LEFTUP).type = SDL_JOYHATMOTION
    ∧ InputEvent.get_direction ⟨hat_sample 0 SDL_HAT_LEFTUP⟩ sdl_keys false
        = InputEvent.get_joypad_hat_direction ⟨hat_sample 0 SDL_HAT_LEFTUP⟩
    ∧ InputEvent.get_joypad_hat_direction ⟨hat_sample 0 SDL_HAT_LEFTUP⟩ = 3
    ∧ InputEvent.get_joypad_hat_direction ⟨hat_sample 0 SDL_HAT_CENTERED⟩ = -1
    ∧ InputEvent.get_joypad_hat_direction ⟨hat_sample 0 5⟩ = -1 :=
  ⟨rfl,
    (hat_direction_mapping ⟨hat_sample 0 SDL_HAT_LEFTUP⟩ sdl_keys false rfl).1,
    (hat_direction_mapping ⟨hat_sample 0 SDL_HAT_LEFTUP⟩ sdl_keys false rfl).2.2.2.2.1 rfl,
    (hat_direction_mapping ⟨hat_sample 0 SDL_HAT_CENTERED⟩ sdl_keys false rfl).2.2.2.2.2.2.2.2.2.1
      rfl,
    (hat_direction_mapping ⟨hat_sample 0 5⟩ sdl_keys false rfl).2.2.2.2.2.2.2.2.2.2
      (by decide) (by decide) (by decide) (by decide) (by decide) (by decide) (by decide)
      (by decide)⟩

/-- C23: for every event, `get_direction()` is `-1` or one of `0..7`; it is
odd (`1`, `3`, `5` or `7`) only for hat events; for keyboard events and axis
events its only values, besides `-1`, are `0`, `2`, `4` and `6`. -/
theorem get_direction_range (e : InputEvent) (K : Keys) (rk : Bool) :
    (e.get_direction K rk = -1 ∨ (0 ≤ e.get_direction K rk ∧ e.get_direction K rk ≤ 7))
    ∧ ((e.get_direction K rk = 1 ∨ e.get_direction K rk = 3 ∨ e.get_direction K rk = 5
          ∨ e.get_direction K rk = 7) → e.is_joypad_hat_moved = true)
    ∧ ((e.internal_event.type = SDL_KEYDOWN ∨ e.internal_event.type = SDL_KEYUP
          ∨ e.internal_event.type = SDL_JOYAXISMOTION) →
        (e.get_direction K rk = -1 ∨ e.get_direction K rk = 0 ∨ e.get_direction K rk = 2
          ∨ e.get_direction K rk = 4 ∨ e.get_direction K rk = 6)) := by
  have hr := get_joypad_hat_direction_range e
  rcases get_direction_cases e K rk with h | ⟨hh, h⟩
  · refine ⟨?_, ?_, fun _ => h⟩
    · rcases h with h | h | h | h | h <;> rw [h] <;> simp
    · intro ho
      rcases h with h | h | h | h | h <;> rw [h] at ho <;> simp at ho
  · refine ⟨?_, ?_, ?_⟩
    · rw [h]
      rcases hr with c | c | c | c | c | c | c | c | c <;> rw [c] <;> simp
    · intro _
      simp [InputEvent.is_joypad_hat_moved, hh]
    · intro ht
      rcases ht with ht | ht | ht <;> rw [hh] at ht <;> simp at ht

/-- C24: `is_pressed()` is the logical OR of `is_keyboard_key_pressed()`,
`is_direction_pressed()` and `is_joypad_button_pressed()`; so a non-centered
axis event and a non-centered hat event are both pressed. -/
theorem is_pressed_is_or (e : InputEvent) (K : Keys) (rk : Bool) :
    e.is_pressed K rk
      = (e.is_keyboard_key_pressed rk || e.is_direction_pressed K rk
          || e.is_joypad_button_pressed)
    ∧ (e.internal_event.type = SDL_JOYAXISMOTION → 10000 ≤ |e.internal_event.jaxis_value| →
        e.is_direction_pressed K rk = true ∧ e.is_pressed K rk = true)
    ∧ (e.internal_event.type = SDL_JOYHATMOTION → e.get_joypad_hat_direction ≠ -1 →
        e.is_direction_pressed K rk = true ∧ e.is_pressed K rk = true) := by
  refine ⟨rfl, ?_, ?_⟩
  · intro ht hb
    have hst := get_joypad_axis_state_of_axis_event e ht
    have hc := classify_axis_of_big _ hb
    have hne : e.get_joypad_axis_state ≠ 0 := by
      rw [hst, hc]; split_ifs <;> simp
    have hm : e.is_joypad_axis_moved = true := by simp [InputEvent.is_joypad_axis_moved, ht]
    have hd : e.is_direction_pressed K rk = true := by
      simp [InputEvent.is_direction_pressed, InputEvent.is_joypad_axis_centered, hm, hne]
    exact ⟨hd, by simp [InputEvent.is_pressed, hd]⟩
  · intro ht hne
    have hm : e.is_joypad_hat_moved = true := by simp [InputEvent.is_joypad_hat_moved, ht]
    have hd : e.is_direction_pressed K rk = true := by
      simp [InputEvent.is_direction_pressed, InputEvent.is_joypad_hat_centered, hm, hne]
    exact ⟨hd, by simp [InputEvent.is_pressed, hd]⟩

theorem is_pressed_is_or_witness :
    (axis_sample 1 (-12000)).type = SDL_JOYAXISMOTION
    ∧ InputEvent.is_pressed ⟨axis_sample 1 (-12000)⟩ sdl_keys false = true
    ∧ (hat_sample 0 SDL_HAT_LEFTUP).type = SDL_JOYHATMOTION
    ∧ InputEvent.is_pressed ⟨hat_sample 0 SDL_HAT_LEFTUP⟩ sdl_keys false = true :=
  ⟨rfl,
    ((is_pressed_is_or ⟨axis_sample 1 (-12000)⟩ sdl_keys false).2.1 rfl (by decide)).2,
    rfl,
    ((is_pressed_is_or ⟨hat_sample 0 SDL_HAT_LEFTUP⟩ sdl_keys false).2.2 rfl (by decide)).2⟩

/-- C25: `is_released()` is true iff the event is a key-up passing the repeat
gate, a joypad button release, an axis event whose state is centered, or a hat
event whose direction is `-1`; and the hat samples up-left then centered are
returned by `get_event` as they are, the first with direction `3`, the second
with direction `-1` and `is_released()` true. -/
theorem is_released_iff (e : InputEvent) (K : Keys) (rk : Bool) :
    (e.is_released rk = true
      ↔ (e.internal_event.type = SDL_KEYUP
          ∧ (e.internal_event.key_repeat = 0 ∨ rk = true))
        ∨ e.internal_event.type = SDL_JOYBUTTONUP
        ∨ (e.internal_event.type = SDL_JOYAXISMOTION
          ∧ classify_axis e.internal_event.jaxis_value = 0)
        ∨ (e.internal_event.type = SDL_JOYHATMOTION ∧ e.get_joypad_hat_direction = -1))
    ∧ (run [Action.call (fun _ => false), Action.call (fun _ => false)]
        (⟨[hat_sample 0 SDL_HAT_LEFTUP, hat_sample 0 SDL_HAT_CENTERED], (0, 0), ∅⟩, [])).2
      = [⟨hat_sample 0 SDL_HAT_LEFTUP⟩, ⟨hat_sample 0 SDL_HAT_CENTERED⟩]
    ∧ InputEvent.get_joypad_hat_direction ⟨hat_sample 0 SDL_HAT_LEFTUP⟩ = 3
    ∧ InputEvent.get_joypad_hat_direction ⟨hat_sample 0 SDL_HAT_CENTERED⟩ = -1
    ∧ InputEvent.get_direction ⟨hat_sample 0 SDL_HAT_CENTERED⟩ K rk = -1
    ∧ InputEvent.is_released ⟨hat_sample 0 SDL_HAT_CENTERED⟩ rk = true := by
  refine ⟨?_, by decide, by decide, by decide, ?_, ?_⟩
  · by_cases ha : e.internal_event.type = SDL_JOYAXISMOTION
    · have hst := get_joypad_axis_state_of_axis_event e ha
      simp [InputEvent.is_released, InputEvent.is_keyboard_key_released,
        InputEvent.is_joypad_button_released, InputEvent.is_joypad_axis_centered,
        InputEvent.is_joypad_axis_moved, InputEvent.is_joypad_hat_moved, ha, hst]
    · have hab : (e.internal_event.type == SDL_JOYAXISMOTION) = false :=
        beq_eq_false_iff_ne.mpr ha
      simp [InputEvent.is_released, InputEvent.is_keyboard_key_released,
        InputEvent.is_joypad_button_released, InputEvent.is_joypad_axis_centered,
        InputEvent.is_joypad_axis_moved, InputEvent.is_joypad_hat_centered,
        InputEvent.is_joypad_hat_moved, ha, hab]
      tauto
  · rw [get_direction_of_hat_event _ K rk rfl]
    decide
  · cases rk <;> decide

theorem get_direction_range_witness :
    InputEvent.get_direction ⟨hat_sample 0 SDL_HAT_LEFTUP⟩ sdl_keys false = 3
    ∧ InputEvent.is_joypad_hat_moved ⟨hat_sample 0 SDL_HAT_LEFTUP⟩ = true
    ∧ (axis_sample 1 (-12000)).type = SDL_JOYAXISMOTION
    ∧ (InputEvent.get_direction ⟨axis_sample 1 (-12000)⟩ sdl_keys false = -1
      ∨ InputEvent.get_direction ⟨axis_sample 1 (-12000)⟩ sdl_keys false = 0
      ∨ InputEvent.get_direction ⟨axis_sample 1 (-12000)⟩ sdl_keys false = 2
      ∨ InputEvent.get_direction ⟨axis_sample 1 (-12000)⟩ sdl_keys false = 4
      ∨ InputEvent.get_direction ⟨axis_sample 1 (-12000)⟩ sdl_keys false = 6) :=
  ⟨by decide,
    (get_direction_range ⟨hat_sample 0 SDL_HAT_LEFTUP⟩ sdl_keys false).2.1
      (Or.inr (Or.inl (by decide))),
    rfl,
    (get_direction_range ⟨axis_sample 1 (-12000)⟩ sdl_keys false).2.2 (Or.inr (Or.inr rfl))⟩

/-- C26: `set_joypad_enabled` is idempotent: a second call with the same
argument, whatever SDL answers then, leaves the state reached by the first
call and makes no SDL call; and a call whose argument is already the value of
`is_joypad_enabled()` changes nothing and makes no SDL call (no device is
opened or closed). -/
theorem set_joypad_enabled_idempotent (n1 n2 : Int) (o1 o2 : Option Nat) (b : Bool)
    (s : JoypadState) :
    set_joypad_enabled n2 o2 b (set_joypad_enabled n1 o1 b s).1
      = ((set_joypad_enabled n1 o1 b s).1, [])
    ∧ (is_joypad_enabled s = b → set_joypad_enabled n1 o1 b s = (s, [])) := by
  exact ⟨set_joypad_enabled_same n2 o2 b _ (set_joypad_enabled_flag n1 o1 b s),
    set_joypad_enabled_same n1 o1 b s⟩

theorem set_joypad_enabled_idempotent_witness :
    is_joypad_enabled ⟨true, some 1⟩ = true
    ∧ set_joypad_enabled 0 none true ⟨true, some 1⟩ = (⟨true, some 1⟩, [])
    ∧ set_joypad_enabled 2 (some 9) true (set_joypad_enabled 1 (some 1) true ⟨false, none⟩).1
        = (⟨true, some 1⟩, []) :=
  ⟨rfl,
    (set_joypad_enabled_idempotent 0 0 none none true ⟨true, some 1⟩).2 rfl,
    (set_joypad_enabled_idempotent 1 2 (some 1) (some 9) true ⟨false, none⟩).1⟩

/-- C27: in every state reached from the initial one (joypad disabled, no
handle, no device open) by calls of `set_joypad_enabled`, a joystick handle is
held only when joypad support is enabled, and the joystick devices open are
exactly the handle held. Disabling then leaves no handle and no device open:
from an enabled state it calls `SDL_JoystickClose` on the handle held, if any.
Enabling from a disabled state calls `SDL_JoystickOpen(0)` and leaves its
result as the handle when `SDL_NumJoysticks()` is positive, and opens nothing
and leaves no handle otherwise. -/
theorem joystick_handle_invariant (calls : List (Bool × Int × Option Nat)) (n : Int)
    (o : Option Nat) :
    ((run_joypad calls ⟨false, none⟩).joystick ≠ none →
        (run_joypad calls ⟨false, none⟩).joypad_enabled = true)
    ∧ (set_joypad_enabled n o false (run_joypad calls ⟨false, none⟩)).1.joystick = none
    ∧ ((run_joypad calls ⟨false, none⟩).joypad_enabled = false →
        (set_joypad_enabled n o true (run_joypad calls ⟨false, none⟩)).1.joystick
          = if 0 < n then o else none)
    ∧ (run_joypad_devices calls (⟨false, none⟩, [])).1 = run_joypad calls ⟨false, none⟩
    ∧ (run_joypad_devices calls (⟨false, none⟩, [])).2
        = (run_joypad calls ⟨false, none⟩).joystick.toList
    ∧ (run_joypad_devices (calls ++ [(false, n, o)]) (⟨false, none⟩, [])).2 = []
    ∧ ((run_joypad calls ⟨false, none⟩).joypad_enabled = false →
        (run_joypad_devices (calls ++ [(true, n, o)]) (⟨false, none⟩, [])).2
          = if 0 < n then o.toList else [])
    ∧ (∀ joystick, (run_joypad calls ⟨false, none⟩).joystick = some joystick →
        set_joypad_enabled n o false (run_joypad calls ⟨false, none⟩)
          = (⟨false, none⟩,
              [SDLCall.SDL_JoystickClose joystick, SDLCall.SDL_JoystickEventState,
                SDLCall.SDL_QuitSubSystem]))
    ∧ ((run_joypad calls ⟨false, none⟩).joypad_enabled = true →
        (run_joypad calls ⟨false, none⟩).joystick = none →
        set_joypad_enabled n o false (run_joypad calls ⟨false, none⟩)
          = (⟨false, none⟩, [SDLCall.SDL_JoystickEventState, SDLCall.SDL_QuitSubSystem]))
    ∧ ((run_joypad calls ⟨false, none⟩).joypad_enabled = false → 0 < n →
        set_joypad_enabled n o true (run_joypad calls ⟨false, none⟩)
          = (⟨true, o⟩, [SDLCall.SDL_InitSubSystem, SDLCall.SDL_JoystickOpen 0]))
    ∧ ((run_joypad calls ⟨false, none⟩).joypad_enabled = false → ¬ 0 < n →
        set_joypad_enabled n o true (run_joypad calls ⟨false, none⟩)
          = (⟨true, none⟩, [SDLCall.SDL_JoystickEventState, SDLCall.SDL_QuitSubSystem])) := by
  have hinv := run_joypad_invariant calls ⟨false, none⟩ (fun h => absurd rfl h)
  have hnone : (run_joypad calls ⟨false, none⟩).joypad_enabled = false →
      (run_joypad calls ⟨false, none⟩).joystick = none := by
    intro hd
    by_contra hj
    rw [hinv hj] at hd
    exact Bool.noConfusion hd
  have hdis : (set_joypad_enabled n o false (run_joypad calls ⟨false, none⟩)).1.joystick
      = none := by
    by_cases hs : is_joypad_enabled (run_joypad calls ⟨false, none⟩) = false
    · rw [set_joypad_enabled_same n o false _ hs]
      exact hnone hs
    · rw [set_joypad_enabled_changed n o false _ hs]
      simp
  have hen : (run_joypad calls ⟨false, none⟩).joypad_enabled = false →
      (set_joypad_enabled n o true (run_joypad calls ⟨false, none⟩)).1.joystick
        = if 0 < n then o else none := by
    intro hd
    have hs : is_joypad_enabled (run_joypad calls ⟨false, none⟩) ≠ true := by
      rw [is_joypad_enabled, hd]; exact Bool.false_ne_true
    rw [set_joypad_enabled_changed n o true _ hs]
    simp
  have hdev := run_joypad_devices_invariant calls (⟨false, none⟩, [])
    (fun h => absurd rfl h) rfl
  have hdev_f := run_joypad_devices_invariant (calls ++ [(false, n, o)]) (⟨false, none⟩, [])
    (fun h => absurd rfl h) rfl
  have hdev_t := run_joypad_devices_invariant (calls ++ [(true, n, o)]) (⟨false, none⟩, [])
    (fun h => absurd rfl h) rfl
  refine ⟨hinv, hdis, hen, hdev.1, hdev.2, ?_, ?_, ?_, ?_, ?_, ?_⟩
  · rw [hdev_f.2, run_joypad_append, hdis]
    rfl
  · intro hd
    rw [hdev_t.2, run_joypad_append, hen hd]
    by_cases hn : 0 < n
    · rw [if_pos hn, if_pos hn]
    · rw [if_neg hn, if_neg hn]
      rfl
  · intro joystick hj
    have he : (run_joypad calls ⟨false, none⟩).joypad_enabled = true := hinv (by rw [hj]; simp)
    rw [set_joypad_enabled_disable_calls n o _ he, hj]
    rfl
  · intro he hj
    rw [set_joypad_enabled_disable_calls n o _ he, hj]
    rfl
  · intro hd hn
    rw [set_joypad_enabled_enable_calls n o _ hd (hnone hd), if_pos hn]
  · intro hd hn
    rw [set_joypad_enabled_enable_calls n o _ hd (hnone hd), if_neg hn]

theorem joystick_handle_invariant_witness :
    (run_joypad [(true, 1, some 4), (false, 1, some 5)] ⟨false, none⟩).joypad_enabled = false
    ∧ (set_joypad_enabled 2 (some 6) true
        (run_joypad [(true, 1, some 4), (false, 1, some 5)] ⟨false, none⟩)).1.joystick
        = (if (0 : Int) < 2 then some 6 else none)
    ∧ set_joypad_enabled 2 (some 6) true
        (run_joypad [(true, 1, some 4), (false, 1, some 5)] ⟨false, none⟩)
        = (⟨true, some 6⟩, [SDLCall.SDL_InitSubSystem, SDLCall.SDL_JoystickOpen 0])
    ∧ (run_joypad [(true, 1, some 4)] ⟨false, none⟩).joystick ≠ none
    ∧ (run_joypad [(true, 1, some 4)] ⟨false, none⟩).joypad_enabled = true
    ∧ (run_joypad [(true, 1, some 4)] ⟨false, none⟩).joystick = some 4
    ∧ set_joypad_enabled 0 none false (run_joypad [(true, 1, some 4)] ⟨false, none⟩)
        = (⟨false, none⟩,
            [SDLCall.SDL_JoystickClose 4, SDLCall.SDL_JoystickEventState,
              SDLCall.SDL_QuitSubSystem])
    ∧ (run_joypad_devices [(true, 1, some 4)] (⟨false, none⟩, [])).2 = [4]
    ∧ (run_joypad_devices ([(true, 1, some 4)] ++ [(false, 0, none)]) (⟨false, none⟩, [])).2
        = [] :=
  ⟨by decide,
    (joystick_handle_invariant [(true, 1, some 4), (false, 1, some 5)] 2 (some 6)).2.2.1
      (by decide),
    (joystick_handle_invariant [(true, 1, some 4), (false, 1, some 5)] 2
      (some 6)).2.2.2.2.2.2.2.2.2.1 (by decide) (by decide),
    by decide,
    (joystick_handle_invariant [(true, 1, some 4)] 0 none).1 (by decide),
    by decide,
    (joystick_handle_invariant [(true, 1, some 4)] 0 none).2.2.2.2.2.2.2.1 4 (by decide),
    by decide,
    (joystick_handle_invariant [(true, 1, some 4)] 0 none).2.2.2.2.2.1⟩

/-- C28: when no joystick handle is held, the live queries return their
neutral values for every argument and whatever the devices report:
`is_joypad_button_down` is false, `get_joypad_axis_state(axis)` is `0` and
`get_joypad_hat_direction(hat)` is `-1`; this is the case after enabling
joypad support from a disabled state with no device attached. -/
theorem joystick_queries_neutral (get_button : Nat → Int → Nat) (get_axis : Nat → Int → Int)
    (get_hat : Nat → Int → Nat) (button axis hat : Int) :
    is_joypad_button_down none get_button button = false
    ∧ get_joypad_axis_state_of_axis none get_axis axis = 0
    ∧ get_joypad_hat_direction_of_hat none get_hat hat = -1
    ∧ ∀ (s : JoypadState) (n : Int) (o : Option Nat),
        s.joypad_enabled = false → n ≤ 0 →
        (set_joypad_enabled n o true s).1.joystick = none
        ∧ is_joypad_button_down (set_joypad_enabled n o true s).1.joystick get_button button
            = false
        ∧ get_joypad_axis_state_of_axis (set_joypad_enabled n o true s).1.joystick get_axis axis
            = 0
        ∧ get_joypad_hat_direction_of_hat (set_joypad_enabled n o true s).1.joystick get_hat hat
            = -1 := by
  refine ⟨rfl, rfl, rfl, ?_⟩
  intro s n o hd hn
  have hs : is_joypad_enabled s ≠ true := by
    rw [is_joypad_enabled, hd]; exact Bool.false_ne_true
  have hj : (set_joypad_enabled n o true s).1.joystick = none := by
    rw [set_joypad_enabled_changed n o true s hs]
    have : ¬ (0 < n) := by omega
    simp [this]
  rw [hj]
  exact ⟨rfl, rfl, rfl, rfl⟩

theorem joystick_queries_neutral_witness :
    (⟨false, none⟩ : JoypadState).joypad_enabled = false
    ∧ (0 : Int) ≤ 0
    ∧ (set_joypad_enabled 0 (some 3) true ⟨false, none⟩).1.joystick = none
    ∧ is_joypad_button_down (set_joypad_enabled 0 (some 3) true ⟨false, none⟩).1.joystick
        (fun _ _ => 1) 2 = false :=
  ⟨rfl, by decide,
    ((joystick_queries_neutral (fun _ _ => 1) (fun _ _ => 32767) (fun _ _ => 1) 2 0 0).2.2.2
      ⟨false, none⟩ 0 (some 3) rfl (by decide)).1,
    ((joystick_queries_neutral (fun _ _ => 1) (fun _ _ => 32767) (fun _ _ => 1) 2 0 0).2.2.2
      ⟨false, none⟩ 0 (some 3) rfl (by decide)).2.1⟩

/-- C29: the map of key names as initialised is a bijection between its keys
and their names: no two keys share a name, every named enumerator is a key,
for every key `k` of the map `get_keyboard_key_by_name(get_keyboard_key_name(k))`
is `k` (and that call of `get_keyboard_key_name` leaves the map as it is), and
whenever `get_keyboard_key_by_name(n)` is a key `k` other than `KEY_NONE`,
`get_keyboard_key_name(k)` is `n`. -/
theorem key_name_table_bijection (K : Keys) (value : NamedKey → KeyboardKey) :
    ((keyboard_key_names value).map Prod.snd).Nodup
    ∧ ((keyboard_key_names value).map Prod.fst).Nodup
    ∧ (∀ key : NamedKey, value key ∈ (keyboard_key_names value).map Prod.fst)
    ∧ (∀ k ∈ (keyboard_key_names value).map Prod.fst,
        (get_keyboard_key_name (keyboard_key_names value) k).2 = keyboard_key_names value
        ∧ get_keyboard_key_by_name K (get_keyboard_key_name (keyboard_key_names value) k).2
            (get_keyboard_key_name (keyboard_key_names value) k).1 = k)
    ∧ (∀ n, get_keyboard_key_by_name K (keyboard_key_names value) n ≠ K.KEY_NONE →
        (get_keyboard_key_name (keyboard_key_names value)
          (get_keyboard_key_by_name K (keyboard_key_names value) n)).1 = n) := by
  obtain ⟨h1, h2, h3, -⟩ := keyboard_key_names_wf value
  refine ⟨h2, h1, h3, ?_, ?_⟩
  · generalize keyboard_key_names value = m at h1 h2 ⊢
    intro k hk
    obtain ⟨p, hp, hpk⟩ := List.mem_map.mp hk
    have hmem : (k, p.2) ∈ m := by
      rw [← hpk]; exact hp
    have hname : get_keyboard_key_name m k = (p.2, m) := by
      unfold get_keyboard_key_name
      rw [std_map_find_of_mem m k p.2 h1 hmem]
    simp only [hname]
    exact ⟨trivial, get_keyboard_key_by_name_of_mem K m k p.2 h2 hmem⟩
  · generalize keyboard_key_names value = m at h1 h2 ⊢
    intro n hne
    rcases get_keyboard_key_by_name_found K m n with h | h
    · exact absurd h.2 hne
    · unfold get_keyboard_key_name
      rw [std_map_find_of_mem m _ n h1 h]

set_option maxRecDepth 100000 in
theorem key_name_table_bijection_witness :
    (1073741906 : KeyboardKey) ∈ (keyboard_key_names sdl_key_values).map Prod.fst
    ∧ (get_keyboard_key_name (keyboard_key_names sdl_key_values) 1073741906).1 = "up"
    ∧ get_keyboard_key_by_name sdl_keys
        (get_keyboard_key_name (keyboard_key_names sdl_key_values) 1073741906).2
        (get_keyboard_key_name (keyboard_key_names sdl_key_values) 1073741906).1 = 1073741906
    ∧ get_keyboard_key_by_name sdl_keys (keyboard_key_names sdl_key_values) "space"
        ≠ sdl_keys.KEY_NONE
    ∧ (get_keyboard_key_name (keyboard_key_names sdl_key_values)
        (get_keyboard_key_by_name sdl_keys (keyboard_key_names sdl_key_values) "space")).1
        = "space" :=
  ⟨by decide, by decide,
    ((key_name_table_bijection sdl_keys sdl_key_values).2.2.2.1 1073741906 (by decide)).2,
    by decide,
    (key_name_table_bijection sdl_keys sdl_key_values).2.2.2.2 "space" (by decide)⟩

set_option maxRecDepth 100000 in
/-- C30, evaluation of the code: with the map as initialised,
`get_keyboard_key_by_name("")` is `KEY_NONE`; the key `101`, other than
`KEY_NONE`, has no name, `get_keyboard_key_name(101)` returns the empty string
and inserts the key in the map; after that call `get_keyboard_key_by_name("")`
is `101`, not `KEY_NONE`. -/
theorem get_keyboard_key_by_name_empty_after_lookup :
    (101 : KeyboardKey) ∉ (keyboard_key_names sdl_key_values).map Prod.fst
    ∧ (101 : KeyboardKey) ≠ sdl_keys.KEY_NONE
    ∧ get_keyboard_key_by_name sdl_keys (keyboard_key_names sdl_key_values) ""
        = sdl_keys.KEY_NONE
    ∧ (get_keyboard_key_name (keyboard_key_names sdl_key_values) 101).1 = ""
    ∧ (101, "") ∈ (get_keyboard_key_name (keyboard_key_names sdl_key_values) 101).2
    ∧ get_keyboard_key_by_name sdl_keys
        (get_keyboard_key_name (keyboard_key_names sdl_key_values) 101).2 "" = 101 := by
  have hk : (101 : KeyboardKey) ∉ (keyboard_key_names sdl_key_values).map Prod.fst := by decide
  obtain ⟨h1, h2, h3⟩ :=
    get_keyboard_key_by_name_empty_after_insert sdl_keys sdl_key_values 101 hk
  refine ⟨hk, by decide, h1, by rw [h2], ?_, h3⟩
  rw [h2]
  exact std_map_insert_new _ 101 "" hk

set_option maxRecDepth 100000 in
/-- C31, evaluation of the code: `get_keyboard_key_name(key)` is
`keyboard_key_names[key]`, which inserts a missing key: asked for the key
`101`, which has no name, or for `KEY_NONE`, it leaves a map with one more
pair than the map as initialised. For a key that has a name the map is
unchanged. -/
theorem get_keyboard_key_name_inserts :
    (get_keyboard_key_name (keyboard_key_names sdl_key_values) 101).2
      ≠ keyboard_key_names sdl_key_values
    ∧ (101, "") ∈ (get_keyboard_key_name (keyboard_key_names sdl_key_values) 101).2
    ∧ (get_keyboard_key_name (keyboard_key_names sdl_key_values) 101).2.length = 37
    ∧ (keyboard_key_names sdl_key_values).length = 36
    ∧ (get_keyboard_key_name (keyboard_key_names sdl_key_values) sdl_keys.KEY_NONE).2
      ≠ keyboard_key_names sdl_key_values
    ∧ (get_keyboard_key_name (keyboard_key_names sdl_key_values) sdl_keys.KEY_UP).2
      = keyboard_key_names sdl_key_values := by
  decide

/-- C32: `get_event` changes the axis state only for an axis sample outside
the ambiguous band whose classification differs from the one stored in its
slot; it changes `keys_pressed` only for a key-down or key-up sample that it
returns as it is (neither suppressed nor marked as a repeat); and a sample
that is neither an axis motion nor a key-down nor a key-up (button, hat, text,
window close) is returned unmodified and changes neither. -/
theorem get_event_frame (keys_state : KeyboardKey → Bool)
    (raw : SDL_Event) (rest : List SDL_Event) (ax : Int × Int) (kp : Finset KeyboardKey) :
    ((get_event keys_state ⟨raw :: rest, ax, kp⟩).2.joypad_axis_state ≠ ax →
      raw.type = SDL_JOYAXISMOTION
      ∧ (|raw.jaxis_value| ≤ 1000 ∨ 10000 ≤ |raw.jaxis_value|)
      ∧ axis_get ax (raw.jaxis_axis % 2) ≠ classify_axis raw.jaxis_value)
    ∧ ((get_event keys_state ⟨raw :: rest, ax, kp⟩).2.keys_pressed ≠ kp →
      (raw.type = SDL_KEYDOWN ∨ raw.type = SDL_KEYUP)
      ∧ (get_event keys_state ⟨raw :: rest, ax, kp⟩).1 = some ⟨raw⟩)
    ∧ ((raw.type = SDL_JOYBUTTONDOWN ∨ raw.type = SDL_JOYBUTTONUP
          ∨ raw.type = SDL_JOYHATMOTION ∨ raw.type = SDL_TEXTINPUT ∨ raw.type = SDL_QUIT) →
      get_event keys_state ⟨raw :: rest, ax, kp⟩ = (some ⟨raw⟩, ⟨rest, ax, kp⟩)) := by
  refine ⟨get_event_axis_state_changed keys_state raw rest ax kp,
    get_event_keys_changed keys_state raw rest ax kp, ?_⟩
  intro ht
  apply get_event_other_sample
  · rcases ht with h | h | h | h | h <;> rw [h] <;> decide
  · rcases ht with h | h | h | h | h <;> rw [h] <;> decide
  · rcases ht with h | h | h | h | h <;> rw [h] <;> decide

theorem get_event_frame_witness :
    (get_event (fun _ => true) ⟨[key_sample SDL_KEYDOWN 7 0], (0, 0), ∅⟩).2.keys_pressed ≠ ∅
    ∧ (get_event (fun _ => true) ⟨[key_sample SDL_KEYDOWN 7 0], (0, 0), ∅⟩).1
        = some ⟨key_sample SDL_KEYDOWN 7 0⟩
    ∧ (get_event (fun _ => true) ⟨[axis_sample 1 (-12000)], (0, 0), ∅⟩).2.joypad_axis_state
        ≠ (0, 0)
    ∧ axis_get (0, 0) ((axis_sample 1 (-12000)).jaxis_axis % 2)
        ≠ classify_axis (axis_sample 1 (-12000)).jaxis_value
    ∧ get_event (fun _ => true) ⟨[hat_sample 0 SDL_HAT_UP], (0, 1), {7}⟩
        = (some ⟨hat_sample 0 SDL_HAT_UP⟩, ⟨[], (0, 1), {7}⟩) :=
  ⟨by decide,
    ((get_event_frame (fun _ => true) (key_sample SDL_KEYDOWN 7 0) [] (0, 0) ∅).2.1
      (by decide)).2,
    by decide,
    ((get_event_frame (fun _ => true) (axis_sample 1 (-12000)) [] (0, 0) ∅).1
      (by decide)).2.2,
    (get_event_frame (fun _ => true) (hat_sample 0 SDL_HAT_UP) [] (0, 1) {7}).2.2
      (Or.inr (Or.inr (Or.inl rfl)))⟩

/-- C33: over an array of keys terminated by `KEY_NONE`,
`is_keyboard_key_pressed(keys)` (a total function, so the loop terminates) is
true iff the event is a key press passing the repeat gate whose key occurs in
the array before the first `KEY_NONE`, and likewise
`is_keyboard_key_released(keys)` for a release; hence, the enumerators being
distinct, `is_keyboard_direction_key_pressed()` holds iff a key is pressed and
it is right, up, left or down, and `is_keyboard_non_direction_key_pressed()`
holds iff a key is pressed and it is none of those four. -/
theorem key_array_queries (e : InputEvent) (K : Keys) (rk : Bool) (keys : List KeyboardKey)
    (hterm : K.KEY_NONE ∈ keys) :
    (e.is_keyboard_key_pressed_keys K rk keys = true
      ↔ e.is_keyboard_key_pressed rk = true
        ∧ e.internal_event.key_sym ∈ keys.takeWhile (fun k => decide (k ≠ K.KEY_NONE)))
    ∧ (e.is_keyboard_key_released_keys K rk keys = true
      ↔ e.is_keyboard_key_released rk = true
        ∧ e.internal_event.key_sym ∈ keys.takeWhile (fun k => decide (k ≠ K.KEY_NONE)))
    ∧ K.KEY_NONE ∈ directional_keys K
    ∧ (K.distinct →
        (e.is_keyboard_direction_key_pressed K rk = true
          ↔ e.is_keyboard_key_pressed rk = true
            ∧ (e.internal_event.key_sym = K.KEY_RIGHT ∨ e.internal_event.key_sym = K.KEY_UP
              ∨ e.internal_event.key_sym = K.KEY_LEFT ∨ e.internal_event.key_sym = K.KEY_DOWN))
        ∧ (e.is_keyboard_non_direction_key_pressed K rk = true
          ↔ e.is_keyboard_key_pressed rk = true
            ∧ e.internal_event.key_sym ≠ K.KEY_RIGHT ∧ e.internal_event.key_sym ≠ K.KEY_UP
            ∧ e.internal_event.key_sym ≠ K.KEY_LEFT ∧ e.internal_event.key_sym ≠ K.KEY_DOWN)) := by
  have _ := hterm
  refine ⟨is_keyboard_key_pressed_keys_iff e K rk keys,
    is_keyboard_key_released_keys_iff e K rk keys, by simp [directional_keys], ?_⟩
  intro hd
  have hdir := is_keyboard_direction_key_pressed_iff e K rk hd
  refine ⟨hdir, ?_⟩
  unfold InputEvent.is_keyboard_non_direction_key_pressed
  by_cases hp : e.is_keyboard_key_pressed rk = true
  · by_cases hk : e.is_keyboard_direction_key_pressed K rk = true
    · have := (hdir.mp hk).2
      simp only [hp, hk, Bool.not_true, Bool.and_false, Bool.false_eq_true, true_and, false_iff]
      tauto
    · have hk' : e.is_keyboard_direction_key_pressed K rk = false := by simpa using hk
      have hnot : ¬ (e.internal_event.key_sym = K.KEY_RIGHT ∨ e.internal_event.key_sym = K.KEY_UP
          ∨ e.internal_event.key_sym = K.KEY_LEFT ∨ e.internal_event.key_sym = K.KEY_DOWN) :=
        fun h => hk (hdir.mpr ⟨hp, h⟩)
      simp only [hp, hk', Bool.not_false, Bool.and_self, true_and, true_iff]
      tauto
  · have hp' : e.is_keyboard_key_pressed rk = false := by simpa using hp
    simp [hp']

theorem key_array_queries_witness :
    sdl_keys.KEY_NONE ∈ [sdl_keys.KEY_UP, sdl_keys.KEY_NONE, 32]
    ∧ sdl_keys.distinct
    ∧ InputEvent.is_keyboard_key_pressed_keys ⟨key_sample SDL_KEYDOWN 32 0⟩ sdl_keys false
        [sdl_keys.KEY_UP, sdl_keys.KEY_NONE, 32] = false
    ∧ InputEvent.is_keyboard_key_pressed ⟨key_sample SDL_KEYDOWN 32 0⟩ false = true
    ∧ InputEvent.is_keyboard_non_direction_key_pressed ⟨key_sample SDL_KEYDOWN 32 0⟩ sdl_keys false
        = true
    ∧ InputEvent.is_keyboard_direction_key_pressed ⟨key_sample SDL_KEYDOWN sdl_keys.KEY_DOWN 0⟩
        sdl_keys false = true :=
  ⟨by decide, by decide, by decide, by decide,
    (((key_array_queries ⟨key_sample SDL_KEYDOWN 32 0⟩ sdl_keys false
      [sdl_keys.KEY_UP, sdl_keys.KEY_NONE, 32] (by decide)).2.2.2 (by decide)).2).mpr
      ⟨by decide, by decide, by decide, by decide, by decide⟩,
    (((key_array_queries ⟨key_sample SDL_KEYDOWN sdl_keys.KEY_DOWN 0⟩ sdl_keys false
      [sdl_keys.KEY_UP, sdl_keys.KEY_NONE, 32] (by decide)).2.2.2 (by decide)).1).mpr
      ⟨by decide, Or.inr (Or.inr (Or.inr rfl))⟩⟩

/-- C34: the key enumerators being distinct, `get_direction()` differs from
`-1` if and only if `is_direction_pressed()` is true, for every event. -/
theorem get_direction_iff_direction_pressed (e : InputEvent) (K : Keys) (rk : Bool)
    (hd : K.distinct) :
    e.get_direction K rk ≠ -1 ↔ e.is_direction_pressed K rk = true := by
  by_cases hk : e.is_keyboard_direction_key_pressed K rk = true
  · have hkey := ((is_keyboard_direction_key_pressed_iff e K rk hd).mp hk).2
    have hdp : e.is_direction_pressed K rk = true := by
      simp [InputEvent.is_direction_pressed, hk]
    rw [get_direction_of_direction_key e K rk hk]
    refine ⟨fun _ => hdp, fun _ => ?_⟩
    split_ifs with c1 c2 c3 c4
    · decide
    · decide
    · decide
    · decide
    · rcases hkey with c | c | c | c
      · exact absurd c c1
      · exact absurd c c2
      · exact absurd c c3
      · exact absurd c c4
  · have hk' : e.is_keyboard_direction_key_pressed K rk = false := by simpa using hk
    by_cases ha : e.internal_event.type = SDL_JOYAXISMOTION
    · have hst := get_joypad_axis_state_of_axis_event e ha
      rw [get_direction_of_axis_event e K rk ha]
      have hdp : e.is_direction_pressed K rk
          = !decide (classify_axis e.internal_event.jaxis_value = 0) := by
        simp [InputEvent.is_direction_pressed, InputEvent.is_joypad_axis_centered,
          InputEvent.is_joypad_axis_moved, InputEvent.is_joypad_hat_moved, hk', ha, hst]
      rw [hdp]
      by_cases hc : classify_axis e.internal_event.jaxis_value = 0
      · simp [hc]
      · simp only [hc, if_false, decide_False, Bool.not_false, iff_true]
        split_ifs <;> decide
    · have hab : (e.internal_event.type == SDL_JOYAXISMOTION) = false :=
        beq_eq_false_iff_ne.mpr ha
      by_cases hh : e.internal_event.type = SDL_JOYHATMOTION
      · rw [get_direction_of_hat_event e K rk hh]
        simp [InputEvent.is_direction_pressed, InputEvent.is_joypad_hat_centered,
          InputEvent.is_joypad_axis_moved, InputEvent.is_joypad_hat_moved, hk', hh]
      · have hhb : (e.internal_event.type == SDL_JOYHATMOTION) = false :=
          beq_eq_false_iff_ne.mpr hh
        have hdir := get_direction_of_no_source e K rk hk'
          (by simp [InputEvent.is_joypad_axis_moved, hab])
          (by simp [InputEvent.is_joypad_hat_moved, hhb])
        rw [hdir]
        simp [InputEvent.is_direction_pressed, InputEvent.is_joypad_axis_moved,
          InputEvent.is_joypad_hat_moved, hk', hab, hhb]

theorem get_direction_iff_direction_pressed_witness :
    sdl_keys.distinct
    ∧ (InputEvent.get_direction ⟨axis_sample 1 (-12000)⟩ sdl_keys false ≠ -1
      ↔ InputEvent.is_direction_pressed ⟨axis_sample 1 (-12000)⟩ sdl_keys false = true)
    ∧ InputEvent.is_direction_pressed ⟨axis_sample 1 (-12000)⟩ sdl_keys false = true
    ∧ (InputEvent.get_direction ⟨hat_sample 0 SDL_HAT_CENTERED⟩ sdl_keys false ≠ -1
      ↔ InputEvent.is_direction_pressed ⟨hat_sample 0 SDL_HAT_CENTERED⟩ sdl_keys false = true)
    ∧ InputEvent.is_direction_pressed ⟨hat_sample 0 SDL_HAT_CENTERED⟩ sdl_keys false = false :=
  ⟨by decide,
    get_direction_iff_direction_pressed ⟨axis_sample 1 (-12000)⟩ sdl_keys false (by decide),
    by decide,
    get_direction_iff_direction_pressed ⟨hat_sample 0 SDL_HAT_CENTERED⟩ sdl_keys false
      (by decide),
    by decide⟩

/-- C35: for every event and either repeat setting, `is_pressed()` and
`is_released()` are not both true, and `is_pressed()` holds iff exactly one of
`is_direction_pressed()` and `is_non_direction_pressed()` holds. -/
theorem pressed_released_exclusive (e : InputEvent) (K : Keys) (rk : Bool) :
    ¬ (e.is_pressed K rk = true ∧ e.is_released rk = true)
    ∧ (e.is_pressed K rk = true
      ↔ (e.is_direction_pressed K rk = true ∧ e.is_non_direction_pressed K rk = false)
        ∨ (e.is_direction_pressed K rk = false ∧ e.is_non_direction_pressed K rk = true)) := by
  constructor
  · rintro ⟨hp, hr⟩
    have hdk_of : e.internal_event.type ≠ SDL_KEYDOWN →
        e.is_keyboard_direction_key_pressed K rk = false := fun h =>
      is_keyboard_key_pressed_keys_of_not_pressed e K rk (not_pressed_of_type e rk h) _
    simp only [InputEvent.is_released, Bool.or_eq_true, Bool.and_eq_true] at hr
    rcases hr with ((hr | hr) | hr) | hr
    · have ht : e.internal_event.type = SDL_KEYUP :=
        ((is_keyboard_key_released_iff e rk).mp hr).1
      have hdk := hdk_of (by rw [ht]; decide)
      simp [InputEvent.is_pressed, InputEvent.is_direction_pressed,
        InputEvent.is_keyboard_key_pressed, InputEvent.is_joypad_axis_moved,
        InputEvent.is_joypad_hat_moved, InputEvent.is_joypad_button_pressed, hdk, ht] at hp
    · have ht : e.internal_event.type = SDL_JOYBUTTONUP := by
        simpa [InputEvent.is_joypad_button_released] using hr
      have hdk := hdk_of (by rw [ht]; decide)
      simp [InputEvent.is_pressed, InputEvent.is_direction_pressed,
        InputEvent.is_keyboard_key_pressed, InputEvent.is_joypad_axis_moved,
        InputEvent.is_joypad_hat_moved, InputEvent.is_joypad_button_pressed, hdk, ht] at hp
    · have ht : e.internal_event.type = SDL_JOYAXISMOTION := by
        simpa [InputEvent.is_joypad_axis_moved] using hr.1
      have hdk := hdk_of (by rw [ht]; decide)
      simp [InputEvent.is_pressed, InputEvent.is_direction_pressed,
        InputEvent.is_keyboard_key_pressed, InputEvent.is_joypad_hat_moved,
        InputEvent.is_joypad_button_pressed, hdk, ht, hr.1, hr.2] at hp
    · have ht : e.internal_event.type = SDL_JOYHATMOTION := by
        simpa [InputEvent.is_joypad_hat_moved] using hr.1
      have hdk := hdk_of (by rw [ht]; decide)
      simp [InputEvent.is_pressed, InputEvent.is_direction_pressed,
        InputEvent.is_keyboard_key_pressed, InputEvent.is_joypad_axis_moved,
        InputEvent.is_joypad_button_pressed, hdk, ht, hr.1, hr.2] at hp
  · have hn : e.is_non_direction_pressed K rk
        = (e.is_pressed K rk && !e.is_direction_pressed K rk) := rfl
    have himp : e.is_direction_pressed K rk = true → e.is_pressed K rk = true := by
      intro h
      simp [InputEvent.is_pressed, h]
    rw [hn]
    generalize e.is_pressed K rk = p at himp ⊢
    generalize e.is_direction_pressed K rk = d at himp ⊢
    cases p <;> cases d <;> simp at himp ⊢

/-- C36: for an axis sample that `get_event` returns non-suppressed, the
event's `get_joypad_axis_state()` is the value stored in
`joypad_axis_state[axis % 2]` after the call, its `is_joypad_axis_centered()`
holds iff `|value| <= 1000`, and its `get_joypad_axis()` is the axis index of
the raw sample. -/
theorem accepted_axis_event (keys_state : KeyboardKey → Bool)
    (raw : SDL_Event) (rest : List SDL_Event) (ax : Int × Int) (kp : Finset KeyboardKey)
    (ev : InputEvent)
    (ht : raw.type = SDL_JOYAXISMOTION)
    (hev : (get_event keys_state ⟨raw :: rest, ax, kp⟩).1 = some ev)
    (hns : ev.suppressed = false) :
    ev.get_joypad_axis_state
      = axis_get (get_event keys_state ⟨raw :: rest, ax, kp⟩).2.joypad_axis_state
          (raw.jaxis_axis % 2)
    ∧ (ev.is_joypad_axis_centered = true ↔ |raw.jaxis_value| ≤ 1000)
    ∧ ev.get_joypad_axis = (raw.jaxis_axis : Int) := by
  by_cases hb : |raw.jaxis_value| ≤ 1000 ∨ 10000 ≤ |raw.jaxis_value|
  · by_cases hd : axis_get ax (raw.jaxis_axis % 2) = classify_axis raw.jaxis_value
    · exfalso
      rw [get_event_axis_dup keys_state raw rest ax kp ht hb hd] at hev
      have he : ev = ⟨{ raw with type := SDL_LASTEVENT }⟩ := (Option.some.inj hev).symm
      rw [he, suppressed_retagged] at hns
      exact Bool.noConfusion hns
    · rw [get_event_axis_new keys_state raw rest ax kp ht hb hd] at hev ⊢
      have he : ev = ⟨raw⟩ := (Option.some.inj hev).symm
      have hst := get_joypad_axis_state_of_axis_event ⟨raw⟩ ht
      have hm : InputEvent.is_joypad_axis_moved ⟨raw⟩ = true := by
        simp [InputEvent.is_joypad_axis_moved, ht]
      rw [he]
      refine ⟨?_, ?_, ?_⟩
      · rw [hst]
        exact (axis_get_set_same _ _ _).symm
      · simp only [InputEvent.is_joypad_axis_centered, hm, hst, Bool.true_and,
          decide_eq_true_eq]
        constructor
        · intro hc
          rcases hb with hb | hb
          · exact hb
          · rw [classify_axis_of_big _ hb] at hc
            split_ifs at hc
            all_goals omega
        · intro hs
          exact classify_axis_of_small _ (by omega)
      · simp [InputEvent.get_joypad_axis, hm]
  · exfalso
    have hlo : 1000 < |raw.jaxis_value| := by
      by_contra hc
      exact hb (Or.inl (not_lt.mp hc))
    have hhi : |raw.jaxis_value| < 10000 := by
      by_contra hc
      exact hb (Or.inr (not_lt.mp hc))
    have ha := get_event_axis_band raw ax ht hlo hhi
    have hg : (get_event keys_state ⟨raw :: rest, ax, kp⟩).1
        = some ⟨{ raw with type := SDL_LASTEVENT }⟩ := by
      simp [get_event, ha, get_event_keyboard]
    rw [hg] at hev
    have he : ev = ⟨{ raw with type := SDL_LASTEVENT }⟩ := (Option.some.inj hev).symm
    rw [he, suppressed_retagged] at hns
    exact Bool.noConfusion hns

theorem accepted_axis_event_witness :
    (axis_sample 3 500).type = SDL_JOYAXISMOTION
    ∧ (get_event (fun _ => false) ⟨[axis_sample 3 500], (0, 1), ∅⟩).1
        = some ⟨axis_sample 3 500⟩
    ∧ InputEvent.suppressed ⟨axis_sample 3 500⟩ = false
    ∧ InputEvent.get_joypad_axis_state ⟨axis_sample 3 500⟩
        = axis_get (get_event (fun _ => false)
            ⟨[axis_sample 3 500], (0, 1), ∅⟩).2.joypad_axis_state ((axis_sample 3 500).jaxis_axis % 2)
    ∧ InputEvent.get_joypad_axis ⟨axis_sample 3 500⟩ = 3 :=
  ⟨rfl, by decide, by decide,
    (accepted_axis_event (fun _ => false) (axis_sample 3 500) [] (0, 1) ∅ ⟨axis_sample 3 500⟩
      rfl (by decide) (by decide)).1,
    (accepted_axis_event (fun _ => false) (axis_sample 3 500) [] (0, 1) ∅ ⟨axis_sample 3 500⟩
      rfl (by decide) (by decide)).2.2⟩

/-- C37: the axis state is tracked by axis index modulo 2: from the initial
state, an axis-0 sample of 12000 is accepted and stores its state in slot 0;
the following axis-2 sample of 12000 reads the same slot and is returned
suppressed, although no event of axis 2 was returned before. -/
theorem axes_of_same_parity_share_slot (k1 k2 : KeyboardKey → Bool)
    (kp : Finset KeyboardKey) :
    (2 % 2 = 0 % 2)
    ∧ get_event k1 ⟨[axis_sample 0 12000, axis_sample 2 12000], (0, 0), kp⟩
        = (some ⟨axis_sample 0 12000⟩, ⟨[axis_sample 2 12000], (1, 0), kp⟩)
    ∧ get_event k2 ⟨[axis_sample 2 12000], (1, 0), kp⟩
        = (some ⟨{ axis_sample 2 12000 with type := SDL_LASTEVENT }⟩, ⟨[], (1, 0), kp⟩)
    ∧ (run [Action.call k1, Action.call k2]
        (⟨[axis_sample 0 12000, axis_sample 2 12000], (0, 0), kp⟩, [])).2
      = [⟨axis_sample 0 12000⟩, ⟨{ axis_sample 2 12000 with type := SDL_LASTEVENT }⟩]
    ∧ InputEvent.suppressed ⟨{ axis_sample 2 12000 with type := SDL_LASTEVENT }⟩ = true := by
  have e1 := get_event_axis_new k1 (axis_sample 0 12000) [axis_sample 2 12000] (0, 0) kp rfl
    (by decide) (by decide)
  have e2 := get_event_axis_dup k2 (axis_sample 2 12000) [] (1, 0) kp rfl
    (by decide) (by decide)
  have e1' : get_event k1 ⟨[axis_sample 0 12000, axis_sample 2 12000], (0, 0), kp⟩
      = (some ⟨axis_sample 0 12000⟩, ⟨[axis_sample 2 12000], (1, 0), kp⟩) := e1
  refine ⟨rfl, e1', e2, ?_, by decide⟩
  simp only [run, e1', e2]
  rfl

/-- C38: `get_event` never clears the repeat flag of a raw sample: a sample
whose repeat flag is set is returned with the flag set; and a raw key-down
sample with its repeat flag set, while the key is held and absent from
`keys_pressed`, is returned as it is (non-suppressed) and its key is inserted,
yet with repeat delivery disabled `is_keyboard_key_pressed()` is false and
`get_keyboard_key()` is `KEY_NONE`. -/
theorem repeat_flag_never_cleared (K : Keys) (keys_state : KeyboardKey → Bool)
    (raw : SDL_Event) (rest : List SDL_Event) (ax : Int × Int) (kp : Finset KeyboardKey)
    (hrep : raw.key_repeat ≠ 0) :
    (∃ ev, (get_event keys_state ⟨raw :: rest, ax, kp⟩).1 = some ev
        ∧ ev.internal_event.key_repeat ≠ 0)
    ∧ (raw.type = SDL_KEYDOWN → keys_state raw.key_sym = true → raw.key_sym ∉ kp →
        get_event keys_state ⟨raw :: rest, ax, kp⟩
          = (some ⟨raw⟩, ⟨rest, ax, insert raw.key_sym kp⟩)
        ∧ raw.key_sym ∈ insert raw.key_sym kp
        ∧ InputEvent.suppressed ⟨raw⟩ = false
        ∧ InputEvent.is_keyboard_key_pressed ⟨raw⟩ false = false
        ∧ InputEvent.get_keyboard_key ⟨raw⟩ K false = K.KEY_NONE) := by
  constructor
  · obtain ⟨ev, h1, -, h3⟩ := get_event_from_sample keys_state raw rest ax kp
    refine ⟨ev, h1, ?_⟩
    rcases h3.2.1 with h | h
    · rw [h]; exact hrep
    · rw [h]; decide
  · intro ht hk hm
    refine ⟨get_event_key_down_fresh keys_state raw rest ax kp ht hk hm,
      Finset.mem_insert_self _ _, by simp [InputEvent.suppressed, ht], ?_, ?_⟩
    · simp [InputEvent.is_keyboard_key_pressed, hrep]
    · simp [InputEvent.get_keyboard_key, InputEvent.is_keyboard_event, hrep]

theorem repeat_flag_never_cleared_witness :
    (key_sample SDL_KEYDOWN 7 1).key_repeat ≠ 0
    ∧ (key_sample SDL_KEYDOWN 7 1).type = SDL_KEYDOWN
    ∧ (7 : KeyboardKey) ∉ ({5} : Finset KeyboardKey)
    ∧ get_event (fun _ => true) ⟨[key_sample SDL_KEYDOWN 7 1], (0, 0), {5}⟩
        = (some ⟨key_sample SDL_KEYDOWN 7 1⟩, ⟨[], (0, 0), insert 7 {5}⟩)
    ∧ InputEvent.get_keyboard_key ⟨key_sample SDL_KEYDOWN 7 1⟩ sdl_keys false
        = sdl_keys.KEY_NONE :=
  ⟨by decide, rfl, by decide,
    ((repeat_flag_never_cleared sdl_keys (fun _ => true) (key_sample SDL_KEYDOWN 7 1) [] (0, 0)
      {5} (by decide)).2 rfl rfl (by decide)).1,
    ((repeat_flag_never_cleared sdl_keys (fun _ => true) (key_sample SDL_KEYDOWN 7 1) [] (0, 0)
      {5} (by decide)).2 rfl rfl (by decide)).2.2.2.2⟩

/-- C39: `PlayerMovement::update`: when the entity is absent or not on a map,
`direction8` is unchanged; for an entity on a map, if the movement is stopped
(when `is_stopped()` is tested) while `direction8` is not `-1`, `direction8`
becomes `-1`; otherwise it becomes the wanted direction of the commands when
the movement is not suspended, and is unchanged when the movement is
suspended; `get_wanted_direction8()` returns `direction8`. -/
theorem player_movement_update {σ : Type} (ops : StraightMovementOps σ) (entity : MapEntity)
    (m : PlayerMovement σ) :
    (PlayerMovement.update ops none m).direction8 = m.direction8
    ∧ (entity.is_on_map = false →
        (PlayerMovement.update ops (some entity) m).direction8 = m.direction8)
    ∧ (entity.is_on_map = true →
        (ops.is_stopped (PlayerMovement.base_at_test ops entity m) = true →
          m.direction8 ≠ -1 →
          (PlayerMovement.update ops (some entity) m).direction8 = -1)
        ∧ (¬ (ops.is_stopped (PlayerMovement.base_at_test ops entity m) = true
              ∧ m.direction8 ≠ -1) →
            ops.is_suspended (PlayerMovement.base_at_test ops entity m) = false →
          (PlayerMovement.update ops (some entity) m).direction8 = entity.wanted_direction8)
        ∧ (¬ (ops.is_stopped (PlayerMovement.base_at_test ops entity m) = true
              ∧ m.direction8 ≠ -1) →
            ops.is_suspended (PlayerMovement.base_at_test ops entity m) = true →
          (PlayerMovement.update ops (some entity) m).direction8 = m.direction8))
    ∧ (∀ entity' : Option MapEntity,
        (PlayerMovement.update ops entity' m).get_wanted_direction8
          = (PlayerMovement.update ops entity' m).direction8) := by
  refine ⟨rfl, ?_, ?_, fun _ => rfl⟩
  · intro hmap
    simp [PlayerMovement.update, hmap]
  · intro hmap
    have hu := update_direction8_on_map ops entity m hmap
    refine ⟨?_, ?_, ?_⟩
    · intro hs hd
      rw [hu, if_pos ⟨hs, hd⟩]
    · intro hn hsus
      rw [hu, if_neg hn]
      by_cases hw : entity.wanted_direction8 = m.direction8
      · simp [hw]
      · rw [if_pos ⟨hw, hsus⟩]
    · intro hn hsus
      rw [hu, if_neg hn, if_neg]
      rintro ⟨-, h⟩
      rw [hsus] at h
      exact Bool.noConfusion h

theorem player_movement_update_witness :
    (PlayerMovement.update speed_ops (some ⟨true, false, true, 2⟩) ⟨5, 88, -1⟩).direction8 = 2
    ∧ (PlayerMovement.update speed_ops (some ⟨true, true, false, 2⟩) ⟨5, 88, 4⟩).direction8 = -1
    ∧ (PlayerMovement.update speed_ops (some ⟨false, false, true, 2⟩) ⟨5, 88, 4⟩).direction8 = 4 :=
  ⟨((player_movement_update speed_ops ⟨true, false, true, 2⟩ ⟨5, 88, -1⟩).2.2.1 rfl).2.1
      (by decide) (by decide),
    ((player_movement_update speed_ops ⟨true, true, false, 2⟩ ⟨5, 88, 4⟩).2.2.1 rfl).1
      (by decide) (by decide),
    (player_movement_update speed_ops ⟨false, false, true, 2⟩ ⟨5, 88, 4⟩).2.1 rfl⟩

end Solarus
